import Mathlib

/-!
# Parkinson assistance device: motion window, demo/model inference, speech classifier

A shallow embedding of

* `src/arduino/main/complete_parkinson_device/TensorFlowLite_Inference.h`
  (class `TensorFlowLiteInference`),
* `src/python/machine_learning/arduino/libraries/optimized_speech_model.h`
  (`sigmoid`, `normalizeSpeechFeatures`, `analyzeSpeechArray`), and
* `src/python/machine_learning/arduino/libraries/speech_features.h`
  (class `ArduinoSpeechFeatureExtractor`: the ring buffer, `autocorrelation`,
  `extractF0Mean`, `extractJitter`, `extractShimmer`, `extractHNR`).

Conventions of the embedding.

* A C `float` is read in two ways.  In the exact reading it is an exact number: a rational
  (`ℚ`) in the motion pipeline, whose code uses only field arithmetic and comparisons, and
  a real (`ℝ`) in the speech classifier, whose `sigmoid` calls `exp`; rounding, infinities
  and NaN are not modelled.  In the binary32 reading (type `FloatVal`, namespace `Machine`)
  it is an IEEE 754 binary32 value, and every operation rounds, overflows and underflows as
  it does on the target.  The binary32 reading is given for the code whose result depends
  on it: the demo-mode average of `runInference`, the speech classifier, and `extractHNR`.
* A C array (`float a[n]`, `float* p`) is a list of scalars; a load `a[i]` is
  `a.getD i 0` and a store `a[i] = v` is `a.set i v`.  A well-formed object has
  450 entries in `input_buffer` and 5 in `predictions`.
* A counted loop `for (int i = 0; i < n; i++) body` is a left fold of `body` over
  `List.range n`.
* Member functions take the object state as an argument and return the new state.
* The speech classifier is written over an arbitrary ordered field `α` with the library
  function `exp` as an argument, so that it runs on `ℚ`; its theorems are stated at
  `α = ℝ` and `exp = Real.exp`.
* The feature extractor is written over an arbitrary ordered field `α` as well, with
  `log10` as an argument; its theorems hold for every such `α`.  A loop whose step is a
  run-time value (`i += period`) takes a `fuel` argument and returns `none` when the fuel
  runs out before the loop exits.
-/

namespace ParkinsonDevice

/-! ## TensorFlowLite_Inference.h -/

/-- Source constant `kSequenceLength = 50`. -/
def kSequenceLength : Nat := 50

/-- Source constant `kFeatureDim = 9`. -/
def kFeatureDim : Nat := 9

/-- Source constant `kNumClasses = 5`. -/
def kNumClasses : Nat := 5

/-- Data members of `TensorFlowLiteInference` that the buffering and inference code reads or
writes (the interpreter pointers are passed separately, see `MicroInterpreter`). -/
structure TensorFlowLiteInference where
  /-- Field `float input_buffer[kSequenceLength * kFeatureDim]`. -/
  input_buffer : List ℚ
  /-- Field `int buffer_index`. -/
  buffer_index : Nat
  /-- Field `bool buffer_full`. -/
  buffer_full : Bool
  /-- Field `float predictions[kNumClasses]`. -/
  predictions : List ℚ
  /-- Field `int predicted_class`. -/
  predicted_class : Int
  /-- Field `float confidence`. -/
  confidence : ℚ
  deriving DecidableEq, Repr

/-- The constructor `TensorFlowLiteInference::TensorFlowLiteInference()`.  It assigns
`buffer_index`, `buffer_full`, `predicted_class` and `confidence`; the two arrays are left
uninitialised, so their initial contents are arguments. -/
def TensorFlowLiteInference.new (input_buffer0 predictions0 : List ℚ) :
    TensorFlowLiteInference :=
  { input_buffer := input_buffer0
    buffer_index := 0
    buffer_full := false
    predictions := predictions0
    predicted_class := -1
    confidence := 0 }

/-- The member `TensorFlowLiteInference::addDataPoint(float* sensor_data)`: nine stores at
`buffer_index * kFeatureDim + i`, the increment, and, once the index reaches
`kSequenceLength`, the flag, the in-place left shift by one sample and the index reset. -/
def addDataPoint (s : TensorFlowLiteInference) (sensor_data : List ℚ) :
    TensorFlowLiteInference :=
  let buf := (List.range kFeatureDim).foldl
    (fun b i => b.set (s.buffer_index * kFeatureDim + i) (sensor_data.getD i 0))
    s.input_buffer
  let idx := s.buffer_index + 1
  if idx ≥ kSequenceLength then
    { s with
      input_buffer := (List.range ((kSequenceLength - 1) * kFeatureDim)).foldl
        (fun b i => b.set i (b.getD (i + kFeatureDim) 0)) buf
      buffer_index := kSequenceLength - 1
      buffer_full := true }
  else
    { s with input_buffer := buf, buffer_index := idx }

/-- The member `TensorFlowLiteInference::isBufferReady()`. -/
def isBufferReady (s : TensorFlowLiteInference) : Bool :=
  s.buffer_full

/-- The member `TensorFlowLiteInference::clearBuffer()`.  The array `predictions` is not
assigned by the source. -/
def clearBuffer (s : TensorFlowLiteInference) : TensorFlowLiteInference :=
  { s with
    buffer_index := 0
    buffer_full := false
    predicted_class := -1
    confidence := 0
    input_buffer := (List.range (kSequenceLength * kFeatureDim)).foldl
      (fun b i => b.set i 0) s.input_buffer }

/-- The member `TensorFlowLiteInference::getBufferFillLevel()`. -/
def getBufferFillLevel (s : TensorFlowLiteInference) : Nat :=
  s.buffer_index

/-- The member `TensorFlowLiteInference::getPredictedClass()`. -/
def getPredictedClass (s : TensorFlowLiteInference) : Int :=
  s.predicted_class + 1

/-- The member `TensorFlowLiteInference::getConfidence()`. -/
def getConfidence (s : TensorFlowLiteInference) : ℚ :=
  s.confidence

/-- The member `TensorFlowLiteInference::getAllPredictions()`. -/
def getAllPredictions (s : TensorFlowLiteInference) : List ℚ :=
  s.predictions

/-- Element types of a tensor that `runInference` distinguishes: `kTfLiteFloat32`,
`kTfLiteInt8`, and any other type tag. -/
inductive TfLiteType where
  | kTfLiteFloat32
  | kTfLiteInt8
  | kTfLiteOther
  deriving DecidableEq, Repr

/-- Invocation status of the executor: `kTfLiteOk` or a non-success status. -/
inductive TfLiteStatus where
  | kTfLiteOk
  | kTfLiteError
  deriving DecidableEq, Repr

/-- The struct `TfLiteIntArray` behind `tensor->dims`: the rank `size` and the extents
`data`. -/
structure TfLiteIntArray where
  /-- Field `size`. -/
  size : Int
  /-- Field `data`. -/
  data : List Int

/-- The part of a `TfLiteTensor` the source touches: the type tag, the two views `data.f`
and `data.int8` of its storage, and the shape `dims`, which only `begin` reads. -/
structure TfLiteTensor where
  /-- Field `type`. -/
  type : TfLiteType
  /-- View `data.f`. -/
  f : List ℚ
  /-- View `data.int8`. -/
  int8 : List Int
  /-- Field `dims`. -/
  dims : TfLiteIntArray := { size := 0, data := [] }

/-- The external executor as seen by `runInference`: the input tensor it exposes, and
`Invoke`, which maps the filled input tensor to a status and the output tensor. -/
structure MicroInterpreter where
  /-- Tensor `interpreter->input(0)`. -/
  input : TfLiteTensor
  /-- Call `interpreter->Invoke()`, followed by reading `interpreter->output(0)`. -/
  Invoke : TfLiteTensor → TfLiteStatus × TfLiteTensor

/-- The C conversion `(int8_t)(x)` of a float: truncation toward zero, then reduction to
the range `-128..127` (the source does not guard the range). -/
def toInt8 (x : ℚ) : Int :=
  let t : Int := if 0 ≤ x then ⌊x⌋ else ⌈x⌉
  (t + 128) % 256 - 128

/-- The sum loop of demo mode followed by the division:
`average_activity = (Σ_{i<450} input_buffer[i]) / 450`. -/
def averageActivity (input_buffer : List ℚ) : ℚ :=
  (List.range (kSequenceLength * kFeatureDim)).foldl
    (fun acc i => acc + input_buffer.getD i 0) 0 / ((kSequenceLength * kFeatureDim : Nat) : ℚ)

/-- The value `predictions[i]` read back from the output tensor in model mode: `data.f[i]`
for float32, `data.int8[i] / 127.0f` for int8, and the old entry for any other type. -/
def readOutput (output : TfLiteTensor) (old : List ℚ) (i : Nat) : ℚ :=
  match output.type with
  | .kTfLiteFloat32 => output.f.getD i 0
  | .kTfLiteInt8 => ((output.int8.getD i 0 : Int) : ℚ) / 127
  | .kTfLiteOther => old.getD i 0

/-- The input copy loop of model mode: for float32 the buffer entry is stored in
`data.f[i]`, for int8 `(int8_t)(input_buffer[i] * 127.0f)` is stored in `data.int8[i]`. -/
def fillInput (input : TfLiteTensor) (input_buffer : List ℚ) : TfLiteTensor :=
  (List.range (kSequenceLength * kFeatureDim)).foldl
    (fun t i =>
      match t.type with
      | .kTfLiteFloat32 => { t with f := t.f.set i (input_buffer.getD i 0) }
      | .kTfLiteInt8 =>
        { t with int8 := t.int8.set i (toInt8 (input_buffer.getD i 0 * 127)) }
      | .kTfLiteOther => t)
    input

/-- The result extraction block of model mode (`// 提取結果`): `confidence = 0.0`,
`predicted_class = 0`, then for each class the entry is read back into `predictions[i]` and
compared with the running `confidence`. -/
def extractResult (output : TfLiteTensor) (s : TensorFlowLiteInference) :
    TensorFlowLiteInference :=
  (List.range kNumClasses).foldl
    (fun (st : TensorFlowLiteInference) (i : Nat) =>
      let preds := st.predictions.set i (readOutput output st.predictions i)
      if preds.getD i 0 > st.confidence then
        { st with
          predictions := preds, confidence := preds.getD i 0, predicted_class := (i : Int) }
      else
        { st with predictions := preds })
    { s with confidence := 0, predicted_class := 0 }

/-- The member `TensorFlowLiteInference::runInference()`.  `model_data_len` is the length of
the model blob of `model_data.h`; `interp` is the executor.  The result is the returned
`bool` and the object state after the call. -/
def runInference (model_data_len : Nat) (interp : MicroInterpreter)
    (s : TensorFlowLiteInference) : Bool × TensorFlowLiteInference :=
  if !s.buffer_full then
    (false, s)
  else if model_data_len < 1000 then
    let average_activity := averageActivity s.input_buffer
    let s1 : TensorFlowLiteInference :=
      if average_activity < 0.2 then
        { s with predicted_class := 0, confidence := 0.75 }
      else if average_activity < 0.4 then
        { s with predicted_class := 1, confidence := 0.80 }
      else if average_activity < 0.6 then
        { s with predicted_class := 2, confidence := 0.85 }
      else if average_activity < 0.8 then
        { s with predicted_class := 3, confidence := 0.82 }
      else
        { s with predicted_class := 4, confidence := 0.78 }
    let preds := (List.range kNumClasses).foldl
      (fun (p : List ℚ) (i : Nat) => p.set i
        (if (i : Int) = s1.predicted_class then s1.confidence else (1 - s1.confidence) / 4))
      s1.predictions
    (true, { s1 with predictions := preds })
  else
    let filled := fillInput interp.input s.input_buffer
    let (invoke_status, output) := interp.Invoke filled
    if invoke_status ≠ TfLiteStatus.kTfLiteOk then
      (false, s)
    else
      (true, extractResult output s)

/-- The member `TensorFlowLiteInference::begin()`.  `model_data_len` is the length of the
model blob, `model_version` the value of `model->version()`, `schema_version` the constant
`TFLITE_SCHEMA_VERSION`, `allocate_status` the status of `AllocateTensors()`, and `input`,
`output` the tensors `interpreter->input(0)` and `interpreter->output(0)`.  The result is
the returned `bool` and the object state after the call. -/
def begin (model_data_len : Nat) (model_version schema_version : Nat)
    (allocate_status : TfLiteStatus) (input output : TfLiteTensor)
    (s : TensorFlowLiteInference) : Bool × TensorFlowLiteInference :=
  if model_data_len < 1000 then
    (true, s)
  else if model_version ≠ schema_version then
    (false, s)
  else if allocate_status ≠ TfLiteStatus.kTfLiteOk then
    (false, s)
  else if input.dims.size ≠ 3 ∨ input.dims.data.getD 1 0 ≠ (kSequenceLength : Int) ∨
      input.dims.data.getD 2 0 ≠ (kFeatureDim : Int) then
    (false, s)
  else if output.dims.size ≠ 2 ∨ output.dims.data.getD 1 0 ≠ (kNumClasses : Int) then
    (false, s)
  else
    (true, clearBuffer s)

/-- The member `TensorFlowLiteInference::getParkinsonLevelDescription()`: the `switch` on
`getPredictedClass()`. -/
def getParkinsonLevelDescription (s : TensorFlowLiteInference) : String :=
  let level := getPredictedClass s
  if level = 1 then "輕度症狀"
  else if level = 2 then "輕中度症狀"
  else if level = 3 then "中度症狀"
  else if level = 4 then "中重度症狀"
  else if level = 5 then "重度症狀"
  else "未知"

/-- The member `TensorFlowLiteInference::getRecommendation()`: the `switch` on
`getPredictedClass()`. -/
def getRecommendation (s : TensorFlowLiteInference) : String :=
  let level := getPredictedClass s
  if level = 1 then "建議進行溫和的靈活性訓練，舵機阻力設定30度"
  else if level = 2 then "增加協調性練習，舵機阻力設定60度"
  else if level = 3 then "重點改善精細動作控制，舵機阻力設定90度"
  else if level = 4 then "加強肌肉力量和平衡訓練，舵機阻力設定120度"
  else if level = 5 then "進行輔助性康復訓練，舵機阻力設定150度"
  else "請重新進行評估"

/-- One call made on a `TensorFlowLiteInference` object by its driver: `addDataPoint` with a
sample, or `clearBuffer`. -/
inductive WindowCall where
  | addDataPoint (sensor_data : List ℚ)
  | clearBuffer

/-- The state after one `WindowCall`. -/
def WindowCall.run (s : TensorFlowLiteInference) : WindowCall → TensorFlowLiteInference
  | .addDataPoint sensor_data => ParkinsonDevice.addDataPoint s sensor_data
  | .clearBuffer => ParkinsonDevice.clearBuffer s

/-! ## optimized_speech_model.h -/

/-- Source constant `SPEECH_FEATURE_DIM = 8`. -/
def SPEECH_FEATURE_DIM : Nat := 8

/-- The file-level parameter tables of the header, gathered in one record so that
statements about other parameter values can be made. -/
structure SpeechModel (α : Type) where
  /-- Table `SPEECH_WEIGHTS[SPEECH_FEATURE_DIM]`. -/
  SPEECH_WEIGHTS : List α
  /-- Scalar `SPEECH_BIAS`. -/
  SPEECH_BIAS : α
  /-- Table `SPEECH_SCALER_MEAN[SPEECH_FEATURE_DIM]`. -/
  SPEECH_SCALER_MEAN : List α
  /-- Table `SPEECH_SCALER_STD[SPEECH_FEATURE_DIM]`. -/
  SPEECH_SCALER_STD : List α

/-- The parameter values written in `optimized_speech_model.h`. -/
def generatedSpeechModel (α : Type) [LinearOrderedField α] : SpeechModel α :=
  { SPEECH_WEIGHTS :=
      [0.241657, 0.192907, 0.433479, 0.236201, -0.106987, 0.389098, 0.231503, 0.319372]
    SPEECH_BIAS := 0.007460
    SPEECH_SCALER_MEAN :=
      [167.149536, 50.995689, 0.112678, 0.145572, 16.374725, 49.916370, 12.472878, 7.284639]
    SPEECH_SCALER_STD :=
      [31.394131, 29.428452, 0.118310, 0.127497, 3.880464, 36.009792, 11.939612, 8.477983] }

/-- The struct `SpeechAnalysisResult`. -/
structure SpeechAnalysisResult (α : Type) where
  /-- Field `float probability`. -/
  probability : α
  /-- Field `int predicted_class`. -/
  predicted_class : Int
  /-- Field `float confidence`. -/
  confidence : α
  /-- Field `bool is_valid`. -/
  is_valid : Bool

/-- The function `sigmoid(float x)`; `exp` is the library exponential. -/
def sigmoid {α : Type} [LinearOrderedField α] (exp : α → α) (x : α) : α :=
  if x > 10 then 1
  else if x < -10 then 0
  else 1 / (1 + exp (-x))

/-- The function `normalizeSpeechFeatures(float* features)`, in place on `features`. -/
def normalizeSpeechFeatures {α : Type} [LinearOrderedField α] (m : SpeechModel α)
    (features : List α) : List α :=
  (List.range SPEECH_FEATURE_DIM).foldl
    (fun (f : List α) (i : Nat) =>
      f.set i ((f.getD i 0 - m.SPEECH_SCALER_MEAN.getD i 0) / m.SPEECH_SCALER_STD.getD i 0))
    features

/-- The function `analyzeSpeechArray(const float* feature_array)`.  The local array
`normalized_features` has `SPEECH_FEATURE_DIM` entries, all of which the copy loop
overwrites. -/
def analyzeSpeechArray {α : Type} [LinearOrderedField α] (m : SpeechModel α) (exp : α → α)
    (feature_array : List α) : SpeechAnalysisResult α :=
  let copied := (List.range SPEECH_FEATURE_DIM).foldl
    (fun (f : List α) (i : Nat) => f.set i (feature_array.getD i 0))
    (List.replicate SPEECH_FEATURE_DIM 0)
  let normalized_features := normalizeSpeechFeatures m copied
  let z := (List.range SPEECH_FEATURE_DIM).foldl
    (fun (z : α) (i : Nat) => z + m.SPEECH_WEIGHTS.getD i 0 * normalized_features.getD i 0)
    m.SPEECH_BIAS
  let probability := sigmoid exp z
  let predicted_class : Int := if probability > 0.5 then 1 else 0
  let confidence := if predicted_class = 1 then probability else 1 - probability
  { probability := probability
    predicted_class := predicted_class
    confidence := confidence
    is_valid := true }

/-- The function `analyzeSpeechFeatures(const SpeechFeatures& features)`: the eight fields
in declaration order, passed to `analyzeSpeechArray`. -/
def analyzeSpeechFeatures {α : Type} [LinearOrderedField α] (m : SpeechModel α) (exp : α → α)
    (f0_mean f0_std jitter shimmer hnr mfcc1 mfcc2 mfcc3 : α) : SpeechAnalysisResult α :=
  analyzeSpeechArray m exp [f0_mean, f0_std, jitter, shimmer, hnr, mfcc1, mfcc2, mfcc3]

/-! ## speech_features.h

The extractor is written over an ordered field `α` with a floor function; the library
function `log10` is an argument of `extractHNR`.  The members `extractF0Std` and
`extractMFCC` (which call `sqrt`, `log` and `cos`) are not embedded. -/

/-- Source constant `AUDIO_SAMPLE_RATE = 16000`. -/
def AUDIO_SAMPLE_RATE : Nat := 16000

/-- Source constant `AUDIO_BUFFER_SIZE = 1024`. -/
def AUDIO_BUFFER_SIZE : Nat := 1024

/-- Data members of `ArduinoSpeechFeatureExtractor`. -/
structure ArduinoSpeechFeatureExtractor (α : Type) where
  /-- Field `float audio_buffer[AUDIO_BUFFER_SIZE]`. -/
  audio_buffer : List α
  /-- Field `int buffer_index`. -/
  buffer_index : Nat

namespace ArduinoSpeechFeatureExtractor

/-- The member `resetBuffer()`. -/
def resetBuffer {α : Type} [LinearOrderedField α] (s : ArduinoSpeechFeatureExtractor α) :
    ArduinoSpeechFeatureExtractor α :=
  { buffer_index := 0
    audio_buffer := (List.range AUDIO_BUFFER_SIZE).foldl
      (fun (b : List α) (i : Nat) => b.set i 0) s.audio_buffer }

/-- The constructor: `buffer_index = 0`, then `resetBuffer()`.  The array is uninitialised
on entry, so its initial contents are an argument. -/
def new {α : Type} [LinearOrderedField α] (audio_buffer0 : List α) :
    ArduinoSpeechFeatureExtractor α :=
  resetBuffer { audio_buffer := audio_buffer0, buffer_index := 0 }

/-- The member `addAudioSample(float sample)`. -/
def addAudioSample {α : Type} (s : ArduinoSpeechFeatureExtractor α) (sample : α) :
    ArduinoSpeechFeatureExtractor α :=
  if s.buffer_index < AUDIO_BUFFER_SIZE then
    { audio_buffer := s.audio_buffer.set s.buffer_index sample
      buffer_index := s.buffer_index + 1 }
  else
    s

/-- The member `isBufferReady()`. -/
def isBufferReady {α : Type} (s : ArduinoSpeechFeatureExtractor α) : Bool :=
  decide (s.buffer_index ≥ AUDIO_BUFFER_SIZE)

/-- The member `autocorrelation(data, size, lag)`: the loop accumulates `sum` and `count`
over `i < size - lag`. -/
def autocorrelation {α : Type} [LinearOrderedField α] (data : List α) (size lag : Nat) : α :=
  let r := (List.range (size - lag)).foldl
    (fun (acc : α × Nat) (i : Nat) => (acc.1 + data.getD i 0 * data.getD (i + lag) 0, acc.2 + 1))
    (0, 0)
  if r.2 > 0 then r.1 / (r.2 : α) else 0

/-- The periods visited by the loop of `extractF0Mean`: from `min_period` upwards while
`period < max_period && period < AUDIO_BUFFER_SIZE / 2`. -/
def f0Periods : List Nat :=
  let min_period := AUDIO_SAMPLE_RATE / 500
  let max_period := AUDIO_SAMPLE_RATE / 75
  (List.range' min_period (max_period - min_period)).takeWhile
    (fun period => decide (period < AUDIO_BUFFER_SIZE / 2))

/-- The member `extractF0Mean()`. -/
def extractF0Mean {α : Type} [LinearOrderedField α] (s : ArduinoSpeechFeatureExtractor α) : α :=
  let r := f0Periods.foldl
    (fun (acc : α × Nat) (period : Nat) =>
      let corr := autocorrelation s.audio_buffer AUDIO_BUFFER_SIZE period
      if corr > acc.1 then (corr, period) else acc)
    (0, 0)
  if r.2 > 0 then (AUDIO_SAMPLE_RATE : α) / (r.2 : α) else 150

/-- The Arduino `abs(x)`, `((x) > 0 ? (x) : -(x))`. -/
def absF {α : Type} [LinearOrderedField α] (x : α) : α :=
  if x > 0 then x else -x

/-- The C conversion `(int)(x)` of a float: truncation toward zero. -/
def toInt {α : Type} [LinearOrderedField α] [FloorRing α] (x : α) : Int :=
  if 0 ≤ x then ⌊x⌋ else ⌈x⌉

/-- The inner loop of `extractJitter` for the block starting at `i`: the pair
`(curr_energy, next_energy)`, accumulated over `j < period` while `i + j` is in the
buffer. -/
def jitterBlock {α : Type} [LinearOrderedField α] (audio_buffer : List α) (period i : Nat) :
    α × α :=
  ((List.range period).takeWhile (fun j => decide (i + j < AUDIO_BUFFER_SIZE))).foldl
    (fun (acc : α × α) (j : Nat) =>
      (acc.1 + audio_buffer.getD (i + j) 0 * audio_buffer.getD (i + j) 0,
       if i + period + j < AUDIO_BUFFER_SIZE then
         acc.2 + audio_buffer.getD (i + period + j) 0 * audio_buffer.getD (i + period + j) 0
       else acc.2))
    (0, 0)

/-- The outer loop of `extractJitter`, `for (i = period; i < AUDIO_BUFFER_SIZE - period;
i += period)`, entered at `i` with the running `(jitter_sum, count)`.  Each iteration uses
one unit of `fuel`; the result is `none` when the fuel runs out before the loop exits. -/
def jitterLoop {α : Type} [LinearOrderedField α] (audio_buffer : List α) (period : Nat) :
    Nat → Nat → α × Nat → Option (α × Nat)
  | 0, _, _ => none
  | fuel + 1, i, acc =>
    if (i : Int) < (AUDIO_BUFFER_SIZE : Int) - (period : Int) then
      let e := jitterBlock audio_buffer period i
      if e.1 > 0 ∧ e.2 > 0 then
        jitterLoop audio_buffer period fuel (i + period) (acc.1 + absF (e.1 - e.2) / e.1, acc.2 + 1)
      else
        jitterLoop audio_buffer period fuel (i + period) acc
    else
      some acc

/-- The member `extractJitter()`, with `fuel` iterations allowed to its outer loop. -/
def extractJitter {α : Type} [LinearOrderedField α] [FloorRing α] (fuel : Nat)
    (s : ArduinoSpeechFeatureExtractor α) : Option α :=
  let f0 := extractF0Mean s
  if f0 < 50 ∨ f0 > 500 then some 0.01
  else
    let period := (toInt ((AUDIO_SAMPLE_RATE : α) / f0)).toNat
    match jitterLoop s.audio_buffer period fuel period (0, 0) with
    | none => none
    | some r => some (if r.2 > 0 then r.1 / (r.2 : α) else 0.01)

/-- The member `extractShimmer()`. -/
def extractShimmer {α : Type} [LinearOrderedField α] (s : ArduinoSpeechFeatureExtractor α) : α :=
  let r := (List.range' 1 (AUDIO_BUFFER_SIZE - 1)).foldl
    (fun (acc : α × Nat) (i : Nat) =>
      let curr_amp := absF (s.audio_buffer.getD i 0)
      let prev_amp := absF (s.audio_buffer.getD (i - 1) 0)
      if prev_amp > 0.001 then (acc.1 + absF (curr_amp - prev_amp) / prev_amp, acc.2 + 1)
      else acc)
    (0, 0)
  if r.2 > 0 then r.1 / (r.2 : α) else 0.05

/-- The member `extractHNR()`; `log10` is the library logarithm. -/
def extractHNR {α : Type} [LinearOrderedField α] (log10 : α → α)
    (s : ArduinoSpeechFeatureExtractor α) : α :=
  let signal_power := (List.range AUDIO_BUFFER_SIZE).foldl
    (fun (acc : α) (i : Nat) => acc + s.audio_buffer.getD i 0 * s.audio_buffer.getD i 0) 0 /
      (AUDIO_BUFFER_SIZE : α)
  let noise_power := (List.range' 1 (AUDIO_BUFFER_SIZE - 1)).foldl
    (fun (acc : α) (i : Nat) =>
      let diff := s.audio_buffer.getD i 0 - s.audio_buffer.getD (i - 1) 0
      acc + diff * diff) 0 / ((AUDIO_BUFFER_SIZE - 1 : Nat) : α)
  if noise_power > 0 then 10 * log10 (signal_power / noise_power) else 15

/-- The local `signal_power` of `extractHNR` after its division: the mean of the squared
samples. -/
def hnrSignalPower {α : Type} [LinearOrderedField α] (s : ArduinoSpeechFeatureExtractor α) : α :=
  (List.range AUDIO_BUFFER_SIZE).foldl
    (fun (acc : α) (i : Nat) => acc + s.audio_buffer.getD i 0 * s.audio_buffer.getD i 0) 0 /
      (AUDIO_BUFFER_SIZE : α)

/-- The local `noise_power` of `extractHNR` after its division: the mean of the squared
first differences. -/
def hnrNoisePower {α : Type} [LinearOrderedField α] (s : ArduinoSpeechFeatureExtractor α) : α :=
  (List.range' 1 (AUDIO_BUFFER_SIZE - 1)).foldl
    (fun (acc : α) (i : Nat) =>
      let diff := s.audio_buffer.getD i 0 - s.audio_buffer.getD (i - 1) 0
      acc + diff * diff) 0 / ((AUDIO_BUFFER_SIZE - 1 : Nat) : α)

end ArduinoSpeechFeatureExtractor

/-! ## Binary32 arithmetic

The definitions above read a C `float` as an exact number.  Where the result of the code
depends on rounding, overflow or underflow, the code is read a second time below, as the
target computes it: in IEEE 754 binary32 (and binary64 for `double` subexpressions), every
operation rounded to nearest with ties to even, with subnormal numbers, infinities and NaN.
Each C operation is one rounded operation (no fused multiply-add, no excess precision).
The sign of a zero is not tracked; it could only show in a division by zero, where the
quotient here takes the sign of the dividend. -/

/-- A value of a binary floating-point type: NaN, an infinity with its sign, or a finite
value, held as the exact rational it stands for. -/
inductive FloatVal where
  | nan
  | inf (negative : Bool)
  | fin (q : ℚ)
  deriving DecidableEq, Repr

/-- A binary floating-point format: the precision in bits (hidden bit included), the
exponent of the smallest normal number and the exponent of the largest finite number. -/
structure FloatFormat where
  /-- Bits of precision. -/
  prec : Nat
  /-- Exponent of the smallest normal number. -/
  emin : Int
  /-- Exponent of the largest finite number. -/
  emax : Int

/-- The format of a C `float`. -/
def binary32 : FloatFormat := { prec := 24, emin := -126, emax := 127 }

/-- The format of a C `double`. -/
def binary64 : FloatFormat := { prec := 53, emin := -1022, emax := 1023 }

/-- The power of two `2 ^ e` as a rational, for an integer exponent. -/
def pow2 (e : Int) : ℚ :=
  if 0 ≤ e then ((2 ^ e.toNat : Nat) : ℚ) else 1 / ((2 ^ (-e).toNat : Nat) : ℚ)

/-- The number of halvings that take `n` below `2`, at most `fuel` of them. -/
def halvings : Nat → Nat → Nat
  | 0, _ => 0
  | fuel + 1, n => if n < 2 then 0 else halvings fuel (n / 2) + 1

/-- The exponent `⌊log₂ n⌋` of a number `1 ≤ n < 2 ^ 2 ^ j`, found bit by bit from the
highest of its `j` bits. -/
def log2Search : Nat → Nat → Nat
  | 0, _ => 0
  | j + 1, n =>
    if 2 ^ 2 ^ j ≤ n then 2 ^ j + log2Search j (n / 2 ^ 2 ^ j) else log2Search j n

/-- The exponent `⌊log₂ n⌋` of a positive natural number `n`. -/
def natLog2 (n : Nat) : Nat :=
  if n < 2 ^ 2 ^ 12 then log2Search 12 n else halvings n n

/-- The exponent `⌊log₂ a⌋` of a positive rational `a`: the difference of the exponents of
numerator and denominator, or one less. -/
def floorLog2 (a : ℚ) : Int :=
  let e0 : Int := (natLog2 a.num.natAbs : Int) - (natLog2 a.den : Int)
  if a < pow2 e0 then e0 - 1 else e0

/-- The integer nearest to `x`, the even one of the two when `x` lies half way. -/
def roundHalfEven (x : ℚ) : Int :=
  let n : Int := ⌊x⌋
  let r : ℚ := x - n
  if r < 1 / 2 then n
  else if r > 1 / 2 then n + 1
  else if n % 2 = 0 then n else n + 1

/-- Rounding of an exact result `q` into format `f`: to the nearest multiple of the unit in
the last place of `q` (that of the subnormal range below `2 ^ emin`), ties to the even
multiple; a result of magnitude `2 ^ (emax + 1)` or more is an infinity. -/
def roundQ (f : FloatFormat) (q : ℚ) : FloatVal :=
  if q = 0 then .fin 0
  else
    let a := |q|
    let e := max (floorLog2 a) f.emin
    let ulp := pow2 (e - ((f.prec : Int) - 1))
    let r := (roundHalfEven (a / ulp) : ℚ) * ulp
    if r ≥ pow2 (f.emax + 1) then .inf (decide (q < 0))
    else .fin (if q < 0 then -r else r)

namespace FloatVal

/-- The number a finite value stands for (`0` for NaN and the infinities). -/
def toRat : FloatVal → ℚ
  | fin q => q
  | _ => 0

/-- Whether a value is finite (neither NaN nor an infinity). -/
def isFinite : FloatVal → Bool
  | fin _ => true
  | _ => false

/-- Conversion of a value to format `f` (`double` to `float` on assignment or return). -/
def round (f : FloatFormat) : FloatVal → FloatVal
  | nan => nan
  | inf s => inf s
  | fin q => roundQ f q

/-- Unary minus. -/
def neg : FloatVal → FloatVal
  | nan => nan
  | inf s => inf (!s)
  | fin x => fin (-x)

/-- Addition in format `f`. -/
def add (f : FloatFormat) : FloatVal → FloatVal → FloatVal
  | nan, _ => nan
  | _, nan => nan
  | inf s, inf t => if s = t then inf s else nan
  | inf s, fin _ => inf s
  | fin _, inf t => inf t
  | fin x, fin y => roundQ f (x + y)

/-- Subtraction in format `f`. -/
def sub (f : FloatFormat) (a b : FloatVal) : FloatVal :=
  add f a (neg b)

/-- Multiplication in format `f`. -/
def mul (f : FloatFormat) : FloatVal → FloatVal → FloatVal
  | nan, _ => nan
  | _, nan => nan
  | inf s, inf t => inf (s != t)
  | inf s, fin y => if y = 0 then nan else inf (s != decide (y < 0))
  | fin x, inf t => if x = 0 then nan else inf (decide (x < 0) != t)
  | fin x, fin y => roundQ f (x * y)

/-- Division in format `f`. -/
def div (f : FloatFormat) : FloatVal → FloatVal → FloatVal
  | nan, _ => nan
  | _, nan => nan
  | inf _, inf _ => nan
  | inf s, fin y => inf (s != decide (y < 0))
  | fin _, inf _ => fin 0
  | fin x, fin y =>
    if y = 0 then (if x = 0 then nan else inf (decide (x < 0))) else roundQ f (x / y)

/-- The comparison `a < b` of C: false when either side is NaN. -/
def lt : FloatVal → FloatVal → Bool
  | nan, _ => false
  | _, nan => false
  | inf s, inf t => s && !t
  | inf s, fin _ => s
  | fin _, inf t => !t
  | fin x, fin y => decide (x < y)

/-- The comparison `a <= b` of C: false when either side is NaN. -/
def le : FloatVal → FloatVal → Bool
  | nan, _ => false
  | _, nan => false
  | inf s, inf t => s || !t
  | inf s, fin _ => s
  | fin _, inf t => !t
  | fin x, fin y => decide (x ≤ y)

end FloatVal

/-- A decimal literal with suffix `f`, such as `0.5f`. -/
def floatLit (q : ℚ) : FloatVal :=
  roundQ binary32 q

/-- A decimal literal without suffix, such as `0.2`: a `double`. -/
def doubleLit (q : ℚ) : FloatVal :=
  roundQ binary64 q

/-! ## The rounding-sensitive code in binary32

Demo mode of `runInference`, the speech classifier and `extractHNR`, read in binary32. -/

namespace Machine

/-- Data members of `TensorFlowLiteInference`, the `float` ones as binary32 values. -/
structure TensorFlowLiteInference where
  /-- Field `float input_buffer[kSequenceLength * kFeatureDim]`. -/
  input_buffer : List FloatVal
  /-- Field `int buffer_index`. -/
  buffer_index : Nat
  /-- Field `bool buffer_full`. -/
  buffer_full : Bool
  /-- Field `float predictions[kNumClasses]`. -/
  predictions : List FloatVal
  /-- Field `int predicted_class`. -/
  predicted_class : Int
  /-- Field `float confidence`. -/
  confidence : FloatVal

/-- The local `average_activity` of demo mode after its division: a `float` that starts at
`0.0`, takes `average_activity += input_buffer[i]` for `i = 0 .. 449` and then
`average_activity /= (kSequenceLength * kFeatureDim)`, the `int` divisor converted to
`float`. -/
def averageActivity (input_buffer : List FloatVal) : FloatVal :=
  FloatVal.div binary32
    ((List.range (kSequenceLength * kFeatureDim)).foldl
      (fun acc i => FloatVal.add binary32 acc (input_buffer.getD i (.fin 0)))
      (FloatVal.round binary32 (doubleLit 0.0)))
    (roundQ binary32 ((kSequenceLength * kFeatureDim : Nat) : ℚ))

/-- The member `TensorFlowLiteInference::runInference()` in binary32.  The model-mode branch
is the argument `modelMode`.  In demo mode the comparisons are made in `double` against
`double` literals, the confidences are `double` literals converted to `float`, and
`(1.0 - confidence) / 4.0` is computed in `double` and converted on the store. -/
def runInference (model_data_len : Nat)
    (modelMode : TensorFlowLiteInference → Bool × TensorFlowLiteInference)
    (s : TensorFlowLiteInference) : Bool × TensorFlowLiteInference :=
  if !s.buffer_full then
    (false, s)
  else if model_data_len < 1000 then
    let average_activity := averageActivity s.input_buffer
    let s1 : TensorFlowLiteInference :=
      if FloatVal.lt average_activity (doubleLit 0.2) then
        { s with predicted_class := 0, confidence := FloatVal.round binary32 (doubleLit 0.75) }
      else if FloatVal.lt average_activity (doubleLit 0.4) then
        { s with predicted_class := 1, confidence := FloatVal.round binary32 (doubleLit 0.80) }
      else if FloatVal.lt average_activity (doubleLit 0.6) then
        { s with predicted_class := 2, confidence := FloatVal.round binary32 (doubleLit 0.85) }
      else if FloatVal.lt average_activity (doubleLit 0.8) then
        { s with predicted_class := 3, confidence := FloatVal.round binary32 (doubleLit 0.82) }
      else
        { s with predicted_class := 4, confidence := FloatVal.round binary32 (doubleLit 0.78) }
    let preds := (List.range kNumClasses).foldl
      (fun (p : List FloatVal) (i : Nat) => p.set i
        (FloatVal.round binary32
          (if (i : Int) = s1.predicted_class then s1.confidence
           else FloatVal.div binary64 (FloatVal.sub binary64 (doubleLit 1.0) s1.confidence)
             (doubleLit 4.0))))
      s1.predictions
    (true, { s1 with predictions := preds })
  else
    modelMode s

/-- The parameter values written in `optimized_speech_model.h`, each a literal with suffix
`f`. -/
def generatedSpeechModel : SpeechModel FloatVal :=
  { SPEECH_WEIGHTS :=
      [floatLit 0.241657, floatLit 0.192907, floatLit 0.433479, floatLit 0.236201,
       FloatVal.neg (floatLit 0.106987), floatLit 0.389098, floatLit 0.231503,
       floatLit 0.319372]
    SPEECH_BIAS := floatLit 0.007460
    SPEECH_SCALER_MEAN :=
      [floatLit 167.149536, floatLit 50.995689, floatLit 0.112678, floatLit 0.145572,
       floatLit 16.374725, floatLit 49.916370, floatLit 12.472878, floatLit 7.284639]
    SPEECH_SCALER_STD :=
      [floatLit 31.394131, floatLit 29.428452, floatLit 0.118310, floatLit 0.127497,
       floatLit 3.880464, floatLit 36.009792, floatLit 11.939612, floatLit 8.477983] }

/-- The function `sigmoid(float x)` in binary32.  `exp` is the library exponential and
`mathType` the floating type of its result (`float` or `double`), in which
`1.0f + exp(-x)` and the quotient are computed before the conversion to the `float` return
type. -/
def sigmoid (mathType : FloatFormat) (exp : FloatVal → FloatVal) (x : FloatVal) : FloatVal :=
  if FloatVal.lt (floatLit 10.0) x then floatLit 1.0
  else if FloatVal.lt x (FloatVal.neg (floatLit 10.0)) then floatLit 0.0
  else FloatVal.round binary32
    (FloatVal.div mathType (floatLit 1.0)
      (FloatVal.add mathType (floatLit 1.0) (exp (FloatVal.neg x))))

/-- The function `normalizeSpeechFeatures(float* features)` in binary32. -/
def normalizeSpeechFeatures (m : SpeechModel FloatVal) (features : List FloatVal) :
    List FloatVal :=
  (List.range SPEECH_FEATURE_DIM).foldl
    (fun (f : List FloatVal) (i : Nat) =>
      f.set i (FloatVal.div binary32
        (FloatVal.sub binary32 (f.getD i (.fin 0)) (m.SPEECH_SCALER_MEAN.getD i (.fin 0)))
        (m.SPEECH_SCALER_STD.getD i (.fin 0))))
    features

/-- The local `z` of `analyzeSpeechArray` after its loop, in binary32: the bias, then
`z += SPEECH_WEIGHTS[i] * normalized_features[i]` for `i = 0 .. 7`. -/
def speechScore (m : SpeechModel FloatVal) (feature_array : List FloatVal) : FloatVal :=
  let copied := (List.range SPEECH_FEATURE_DIM).foldl
    (fun (f : List FloatVal) (i : Nat) => f.set i (feature_array.getD i (.fin 0)))
    (List.replicate SPEECH_FEATURE_DIM (.fin 0))
  let normalized_features := normalizeSpeechFeatures m copied
  (List.range SPEECH_FEATURE_DIM).foldl
    (fun (z : FloatVal) (i : Nat) =>
      FloatVal.add binary32 z
        (FloatVal.mul binary32 (m.SPEECH_WEIGHTS.getD i (.fin 0))
          (normalized_features.getD i (.fin 0))))
    m.SPEECH_BIAS

/-- The function `analyzeSpeechArray(const float* feature_array)` in binary32. -/
def analyzeSpeechArray (m : SpeechModel FloatVal) (mathType : FloatFormat)
    (exp : FloatVal → FloatVal) (feature_array : List FloatVal) :
    SpeechAnalysisResult FloatVal :=
  let copied := (List.range SPEECH_FEATURE_DIM).foldl
    (fun (f : List FloatVal) (i : Nat) => f.set i (feature_array.getD i (.fin 0)))
    (List.replicate SPEECH_FEATURE_DIM (.fin 0))
  let normalized_features := normalizeSpeechFeatures m copied
  let z := (List.range SPEECH_FEATURE_DIM).foldl
    (fun (z : FloatVal) (i : Nat) =>
      FloatVal.add binary32 z
        (FloatVal.mul binary32 (m.SPEECH_WEIGHTS.getD i (.fin 0))
          (normalized_features.getD i (.fin 0))))
    m.SPEECH_BIAS
  let probability := sigmoid mathType exp z
  let predicted_class : Int := if FloatVal.lt (floatLit 0.5) probability then 1 else 0
  let confidence :=
    if predicted_class = 1 then probability
    else FloatVal.sub binary32 (floatLit 1.0) probability
  { probability := probability
    predicted_class := predicted_class
    confidence := confidence
    is_valid := true }

/-- The local `signal_power` of `extractHNR` after its division, in binary32. -/
def hnrSignalPower (s : ArduinoSpeechFeatureExtractor FloatVal) : FloatVal :=
  FloatVal.div binary32
    ((List.range AUDIO_BUFFER_SIZE).foldl
      (fun (acc : FloatVal) (i : Nat) =>
        FloatVal.add binary32 acc
          (FloatVal.mul binary32 (s.audio_buffer.getD i (.fin 0))
            (s.audio_buffer.getD i (.fin 0))))
      (floatLit 0.0))
    (roundQ binary32 (AUDIO_BUFFER_SIZE : ℚ))

/-- The local `noise_power` of `extractHNR` after its division, in binary32. -/
def hnrNoisePower (s : ArduinoSpeechFeatureExtractor FloatVal) : FloatVal :=
  FloatVal.div binary32
    ((List.range' 1 (AUDIO_BUFFER_SIZE - 1)).foldl
      (fun (acc : FloatVal) (i : Nat) =>
        let diff := FloatVal.sub binary32 (s.audio_buffer.getD i (.fin 0))
          (s.audio_buffer.getD (i - 1) (.fin 0))
        FloatVal.add binary32 acc (FloatVal.mul binary32 diff diff))
      (floatLit 0.0))
    (roundQ binary32 ((AUDIO_BUFFER_SIZE - 1 : Nat) : ℚ))

/-- The member `extractHNR()` in binary32.  `log10` is the library logarithm and `mathType`
the floating type of its result, in which the product with `10.0f` is computed before the
conversion to the `float` return type. -/
def extractHNR (mathType : FloatFormat) (log10 : FloatVal → FloatVal)
    (s : ArduinoSpeechFeatureExtractor FloatVal) : FloatVal :=
  let signal_power := FloatVal.div binary32
    ((List.range AUDIO_BUFFER_SIZE).foldl
      (fun (acc : FloatVal) (i : Nat) =>
        FloatVal.add binary32 acc
          (FloatVal.mul binary32 (s.audio_buffer.getD i (.fin 0))
            (s.audio_buffer.getD i (.fin 0))))
      (floatLit 0.0))
    (roundQ binary32 (AUDIO_BUFFER_SIZE : ℚ))
  let noise_power := FloatVal.div binary32
    ((List.range' 1 (AUDIO_BUFFER_SIZE - 1)).foldl
      (fun (acc : FloatVal) (i : Nat) =>
        let diff := FloatVal.sub binary32 (s.audio_buffer.getD i (.fin 0))
          (s.audio_buffer.getD (i - 1) (.fin 0))
        FloatVal.add binary32 acc (FloatVal.mul binary32 diff diff))
      (floatLit 0.0))
    (roundQ binary32 ((AUDIO_BUFFER_SIZE - 1 : Nat) : ℚ))
  if FloatVal.lt (floatLit 0.0) noise_power then
    FloatVal.round binary32
      (FloatVal.mul mathType (floatLit 10.0)
        (log10 (FloatVal.div binary32 signal_power noise_power)))
  else floatLit 15.0

end Machine

/-! ## Concrete inputs used in the statements below -/

/-- A freshly constructed object whose two arrays happen to hold zeros. -/
def freshObject : TensorFlowLiteInference :=
  TensorFlowLiteInference.new (List.replicate 450 0) (List.replicate 5 0)

/-- Fifty samples; sample number `k` (counted from 1) has all nine features equal to `k`. -/
def rampSamples : List (List ℚ) :=
  (List.range 50).map (fun (k : Nat) => List.replicate 9 ((k : ℚ) + 1))

/-- A ready window all of whose scalars equal `v`. -/
def constantWindow (v : ℚ) : TensorFlowLiteInference :=
  { input_buffer := List.replicate 450 v
    buffer_index := 49
    buffer_full := true
    predictions := List.replicate 5 0
    predicted_class := -1
    confidence := 0 }

/-- An executor with a float32 input tensor whose invocation reports `status` and exposes
`output`. -/
def fixedInterpreter (status : TfLiteStatus) (output : TfLiteTensor) : MicroInterpreter :=
  { input := { type := TfLiteType.kTfLiteFloat32, f := List.replicate 450 0, int8 := [] }
    Invoke := fun _ => (status, output) }

/-- An int8 output tensor whose five raw entries are all negative; the largest is entry 3. -/
def negativeInt8Output : TfLiteTensor :=
  { type := TfLiteType.kTfLiteInt8, f := [], int8 := [-128, -128, -128, -100, -128] }

/-- A float32 output tensor holding a probability vector whose largest entry is entry 2. -/
def peakedFloatOutput : TfLiteTensor :=
  { type := TfLiteType.kTfLiteFloat32, f := [0.1, 0.2, 0.4, 0.2, 0.1], int8 := [] }

/-- A tensor of element type `t` with shape `dims` and empty storage. -/
def shapedTensor (t : TfLiteType) (dims : List Int) : TfLiteTensor :=
  { type := t, f := [], int8 := [], dims := { size := (dims.length : Int), data := dims } }

/-- The state a successful demo inference leaves from the all-zero ready window. -/
def afterDemoInference : TensorFlowLiteInference :=
  (runInference 0 (fixedInterpreter TfLiteStatus.kTfLiteError negativeInt8Output)
    (constantWindow 0)).2

/-- An extractor whose 1024-sample buffer is full and holds a unit pulse every 213 samples
(at indices 0, 213, 426, 639, 852) and zero elsewhere. -/
def pulseExtractor : ArduinoSpeechFeatureExtractor ℚ :=
  { audio_buffer := (List.range 1024).map (fun (i : Nat) => if i % 213 = 0 then (1 : ℚ) else 0)
    buffer_index := 1024 }

/-- An extractor whose 1024-sample buffer is full and holds zeros. -/
def silentExtractor : ArduinoSpeechFeatureExtractor ℚ :=
  { audio_buffer := List.replicate 1024 0, buffer_index := 1024 }

/-- A ready binary32 window all of whose scalars equal `v`. -/
def Machine.constantWindow (v : FloatVal) : Machine.TensorFlowLiteInference :=
  { input_buffer := List.replicate 450 v
    buffer_index := 49
    buffer_full := true
    predictions := List.replicate 5 (.fin 0)
    predicted_class := -1
    confidence := .fin 0 }

/-- An extractor whose 1024-sample buffer is full and alternates between `1.25 * 2 ^ (-76)`
(even indices) and its negative (odd indices). -/
def underflowExtractor : ArduinoSpeechFeatureExtractor FloatVal :=
  { audio_buffer := (List.range 1024).map
      (fun (i : Nat) =>
        if i % 2 = 0 then FloatVal.fin (5 / 4 * pow2 (-76))
        else FloatVal.fin (-(5 / 4 * pow2 (-76))))
    buffer_index := 1024 }

/-- A binary32 parameter record with zero bias and zero weights; the scaler tables are those
of the header. -/
def Machine.zeroSpeechModel : SpeechModel FloatVal :=
  { Machine.generatedSpeechModel with
    SPEECH_WEIGHTS := List.replicate 8 (.fin 0)
    SPEECH_BIAS := .fin 0 }

/-- A feature vector of finite `float` values whose jitter entry is `1e38f`. -/
def hugeJitterFeatures : List FloatVal :=
  [floatLit 150.0, floatLit 20.0, floatLit 1e38, floatLit 0.05, floatLit 15.0, floatLit 1.0,
   floatLit 2.0, floatLit 3.0]

/-- A feature vector of finite `float` values whose jitter entry is `1e38f` and whose
shimmer entry is `-1e38f`; the other entries are zero. -/
def hugeJitterShimmerFeatures : List FloatVal :=
  [floatLit 0.0, floatLit 0.0, floatLit 1e38, FloatVal.neg (floatLit 1e38), floatLit 0.0,
   floatLit 0.0, floatLit 0.0, floatLit 0.0]

/-- A feature vector of ordinary size. -/
def ordinaryFeatures : List FloatVal :=
  [floatLit 150.0, floatLit 20.0, floatLit 0.01, floatLit 0.05, floatLit 15.0, floatLit 1.0,
   floatLit 2.0, floatLit 3.0]

/-- A binary32 extractor whose 1024-sample buffer is full and holds zeros. -/
def Machine.silentExtractor : ArduinoSpeechFeatureExtractor FloatVal :=
  { audio_buffer := List.replicate 1024 (.fin 0), buffer_index := 1024 }

/-- A ready binary32 window whose first scalar is `90` and whose other 449 scalars are
zero. -/
def Machine.spikeWindow : Machine.TensorFlowLiteInference :=
  { input_buffer := .fin 90 :: List.replicate 449 (.fin 0)
    buffer_index := 49
    buffer_full := true
    predictions := List.replicate 5 (.fin 0)
    predicted_class := -1
    confidence := .fin 0 }

/-! ## Loops and buffer contents -/

/-- A load after a store: the stored value at the stored index when it is in range,
the old value elsewhere. -/
theorem getD_set_eq (l : List ℚ) (i j : Nat) (v : ℚ) :
    (l.set i v).getD j 0 = if j = i ∧ i < l.length then v else l.getD j 0 := by
  simp only [List.getD_eq_getElem?_getD, List.getElem?_set]
  by_cases hji : j = i
  · subst hji
    by_cases hlt : j < l.length
    · simp [hlt]
    · simp [hlt, List.getElem?_eq_none (Nat.le_of_not_lt hlt)]
  · have : ¬ i = j := fun h => hji h.symm
    simp [hji, this]

/-- The sample-store loop of `addDataPoint`, run for `n` features. -/
theorem writeLoop_spec (b x : List ℚ) (base n : Nat) :
    ((List.range n).foldl (fun b i => b.set (base + i) (x.getD i 0)) b).length = b.length ∧
    ∀ j, ((List.range n).foldl (fun b i => b.set (base + i) (x.getD i 0)) b).getD j 0 =
      if base ≤ j ∧ j < base + n ∧ j < b.length then x.getD (j - base) 0 else b.getD j 0 := by
  induction n with
  | zero =>
    refine ⟨rfl, fun j => ?_⟩
    have : ¬ (base ≤ j ∧ j < base + 0 ∧ j < b.length) := by omega
    simp only [List.range_zero, List.foldl_nil, this, if_false]
  | succ n ih =>
    rw [List.range_succ, List.foldl_append]
    obtain ⟨hlen, hget⟩ := ih
    refine ⟨by simp only [List.foldl_cons, List.foldl_nil, List.length_set]; exact hlen,
      fun j => ?_⟩
    simp only [List.foldl_cons, List.foldl_nil, getD_set_eq, hget, hlen]
    by_cases h1 : j = base + n
    · subst h1
      by_cases h2 : base + n < b.length
      · simp [h2]
      · simp [h2]
    · simp only [h1, false_and, if_false]
      by_cases h3 : base ≤ j ∧ j < base + n ∧ j < b.length
      · have : base ≤ j ∧ j < base + (n + 1) ∧ j < b.length := ⟨h3.1, by omega, h3.2.2⟩
        simp [h3, this]
      · have : ¬ (base ≤ j ∧ j < base + (n + 1) ∧ j < b.length) := by
          intro h; exact h3 ⟨h.1, by omega, h.2.2⟩
        simp [h3, this]

/-- The shift loop of `addDataPoint`, run for `n` scalars with stride `d`. -/
theorem shiftLoop_spec (b : List ℚ) (d n : Nat) :
    ((List.range n).foldl (fun b i => b.set i (b.getD (i + d) 0)) b).length = b.length ∧
    ∀ j, ((List.range n).foldl (fun b i => b.set i (b.getD (i + d) 0)) b).getD j 0 =
      if j < n ∧ j < b.length then b.getD (j + d) 0 else b.getD j 0 := by
  induction n with
  | zero =>
    refine ⟨rfl, fun j => ?_⟩
    have : ¬ (j < 0 ∧ j < b.length) := by omega
    simp only [List.range_zero, List.foldl_nil, this, if_false]
  | succ n ih =>
    rw [List.range_succ, List.foldl_append]
    obtain ⟨hlen, hget⟩ := ih
    refine ⟨by simp only [List.foldl_cons, List.foldl_nil, List.length_set]; exact hlen,
      fun j => ?_⟩
    simp only [List.foldl_cons, List.foldl_nil, getD_set_eq, hget, hlen]
    by_cases h1 : j = n
    · subst h1
      have hn : ¬ (j + d < j ∧ j + d < b.length) := by omega
      by_cases h2 : j < b.length
      · simp [h2, hn]
      · simp [h2]
    · simp only [h1, false_and, if_false]
      by_cases h3 : j < n ∧ j < b.length
      · have : j < n + 1 ∧ j < b.length := ⟨by omega, h3.2⟩
        simp [h3, this]
      · have : ¬ (j < n + 1 ∧ j < b.length) := by
          intro h; exact h3 ⟨by omega, h.2⟩
        simp [h3, this]

/-- The fields of `addDataPoint` other than the buffer contents. -/
theorem addDataPoint_fields (s : TensorFlowLiteInference) (x : List ℚ) :
    (addDataPoint s x).buffer_index = (if s.buffer_index + 1 ≥ 50 then 49 else s.buffer_index + 1) ∧
    (addDataPoint s x).buffer_full = (if s.buffer_index + 1 ≥ 50 then true else s.buffer_full) ∧
    (addDataPoint s x).predictions = s.predictions ∧
    (addDataPoint s x).predicted_class = s.predicted_class ∧
    (addDataPoint s x).confidence = s.confidence ∧
    (addDataPoint s x).input_buffer.length = s.input_buffer.length := by
  refine ⟨?_, ?_, ?_, ?_, ?_, ?_⟩
  all_goals
    unfold addDataPoint
    simp only [kSequenceLength, kFeatureDim]
    split_ifs with h
  all_goals first
    | rw [(shiftLoop_spec _ 9 ((50 - 1) * 9)).1, (writeLoop_spec _ x _ 9).1]
    | rw [(writeLoop_spec _ x _ 9).1]
    | rfl

/-- The buffer contents after `addDataPoint`, scalar by scalar. -/
theorem addDataPoint_getD (s : TensorFlowLiteInference) (x : List ℚ)
    (hlen : s.input_buffer.length = 450) (j : Nat) (hj : j < 450) :
    (addDataPoint s x).input_buffer.getD j 0 =
      if s.buffer_index + 1 ≥ 50 then
        (if j < 441 then
          (if s.buffer_index * 9 ≤ j + 9 ∧ j + 9 < s.buffer_index * 9 + 9 then
            x.getD (j + 9 - s.buffer_index * 9) 0 else s.input_buffer.getD (j + 9) 0)
        else
          (if s.buffer_index * 9 ≤ j ∧ j < s.buffer_index * 9 + 9 then
            x.getD (j - s.buffer_index * 9) 0 else s.input_buffer.getD j 0))
      else
        (if s.buffer_index * 9 ≤ j ∧ j < s.buffer_index * 9 + 9 then
          x.getD (j - s.buffer_index * 9) 0 else s.input_buffer.getD j 0) := by
  unfold addDataPoint
  simp only [kSequenceLength, kFeatureDim]
  by_cases h : s.buffer_index + 1 ≥ 50
  · simp only [h, if_true]
    rw [(shiftLoop_spec _ 9 ((50 - 1) * 9)).2,
      (writeLoop_spec _ x _ 9).1, (writeLoop_spec _ x _ 9).2, (writeLoop_spec _ x _ 9).2, hlen]
    by_cases h1 : j < 441
    · have e1 : (j < (50 - 1) * 9 ∧ j < 450) := ⟨by omega, hj⟩
      simp only [e1, h1, if_true, and_self]
      by_cases h2 : s.buffer_index * 9 ≤ j + 9 ∧ j + 9 < s.buffer_index * 9 + 9
      · have e2 : s.buffer_index * 9 ≤ j + 9 ∧ j + 9 < s.buffer_index * 9 + 9 ∧ j + 9 < 450 :=
          ⟨h2.1, h2.2, by omega⟩
        simp only [h2, e2, and_self, if_true]
      · have e2 : ¬ (s.buffer_index * 9 ≤ j + 9 ∧ j + 9 < s.buffer_index * 9 + 9 ∧ j + 9 < 450) :=
          fun h => h2 ⟨h.1, h.2.1⟩
        simp only [h2, e2, if_false]
    · have e1 : ¬ (j < (50 - 1) * 9 ∧ j < 450) := by omega
      simp only [e1, h1, if_false]
      by_cases h2 : s.buffer_index * 9 ≤ j ∧ j < s.buffer_index * 9 + 9
      · have e2 : s.buffer_index * 9 ≤ j ∧ j < s.buffer_index * 9 + 9 ∧ j < 450 :=
          ⟨h2.1, h2.2, hj⟩
        simp only [h2, e2, and_self, if_true, false_and, if_false]
      · have e2 : ¬ (s.buffer_index * 9 ≤ j ∧ j < s.buffer_index * 9 + 9 ∧ j < 450) :=
          fun h => h2 ⟨h.1, h.2.1⟩
        simp only [h2, e2, if_false, false_and]
  · simp only [h, if_false]
    rw [(writeLoop_spec _ x _ 9).2, hlen]
    by_cases h2 : s.buffer_index * 9 ≤ j ∧ j < s.buffer_index * 9 + 9
    · have e2 : s.buffer_index * 9 ≤ j ∧ j < s.buffer_index * 9 + 9 ∧ j < 450 :=
        ⟨h2.1, h2.2, hj⟩
      simp only [h2, e2, and_self, if_true]
    · have e2 : ¬ (s.buffer_index * 9 ≤ j ∧ j < s.buffer_index * 9 + 9 ∧ j < 450) :=
        fun h => h2 ⟨h.1, h.2.1⟩
      simp only [h2, e2, if_false]

/-- The fields of `clearBuffer`, and its zeroed buffer. -/
theorem clearBuffer_fields (s : TensorFlowLiteInference) :
    (clearBuffer s).buffer_index = 0 ∧ (clearBuffer s).buffer_full = false ∧
    (clearBuffer s).predictions = s.predictions ∧ (clearBuffer s).predicted_class = -1 ∧
    (clearBuffer s).confidence = 0 ∧
    (clearBuffer s).input_buffer.length = s.input_buffer.length := by
  unfold clearBuffer
  refine ⟨rfl, rfl, rfl, rfl, rfl, ?_⟩
  simp only
  generalize kSequenceLength * kFeatureDim = n
  induction n with
  | zero => rfl
  | succ n ih =>
    rw [List.range_succ, List.foldl_append]
    simp only [List.foldl_cons, List.foldl_nil, List.length_set]
    exact ih

/-- Fill level and ready flag after any number of pushes from a cleared buffer. -/
theorem pushes_fields (s : TensorFlowLiteInference) (xs : List (List ℚ)) :
    (xs.foldl addDataPoint (clearBuffer s)).buffer_index =
      (if xs.length < 50 then xs.length else 49) ∧
    (xs.foldl addDataPoint (clearBuffer s)).buffer_full =
      (if xs.length < 50 then false else true) ∧
    (xs.foldl addDataPoint (clearBuffer s)).input_buffer.length = s.input_buffer.length := by
  induction xs using List.reverseRecOn with
  | nil =>
    obtain ⟨h1, h2, -, -, -, h3⟩ := clearBuffer_fields s
    simp [h1, h2, h3]
  | append_singleton xs x ih =>
    obtain ⟨h1, h2, h3⟩ := ih
    obtain ⟨g1, g2, -, -, -, g3⟩ := addDataPoint_fields (xs.foldl addDataPoint (clearBuffer s)) x
    rw [List.foldl_append]
    simp only [List.foldl_cons, List.foldl_nil, List.length_append, List.length_singleton]
    rw [g1, g2, g3, h1, h2, h3]
    refine ⟨?_, ?_, rfl⟩
    · split_ifs <;> omega
    · split_ifs <;> first | rfl | omega

/-- Pushes after a clear leave the `predictions` array as it was. -/
theorem pushes_predictions (s : TensorFlowLiteInference) (xs : List (List ℚ)) :
    (xs.foldl addDataPoint (clearBuffer s)).predictions = s.predictions := by
  induction xs using List.reverseRecOn with
  | nil => exact (clearBuffer_fields s).2.2.1
  | append_singleton xs x ih =>
    rw [List.foldl_append]
    simp only [List.foldl_cons, List.foldl_nil]
    rw [(addDataPoint_fields _ x).2.2.1, ih]

/-- Reading a sequence of samples extended by one more sample. -/
theorem getD_append_one (xs : List (List ℚ)) (x : List ℚ) (m : Nat) :
    (xs ++ [x]).getD m [] = if m < xs.length then xs.getD m [] else if m = xs.length then x else [] := by
  simp only [List.getD_eq_getElem?_getD]
  by_cases h1 : m < xs.length
  · simp [h1, List.getElem?_append_left h1]
  · by_cases h2 : m = xs.length
    · subst h2
      simp
    · have h3 : xs.length + 1 ≤ m := by omega
      have : (xs ++ [x])[m]? = none := List.getElem?_eq_none (by simpa using h3)
      simp [h1, h2, this]

/-- What the window holds after `n` pushes from a cleared buffer.  Before the window fills
(`n < 50`) slot `k < n` holds sample `k`.  From the 50th push on, slots `0..48` hold the 49
most recent samples, oldest first, and slot `49` holds the most recent sample a second
time.  Samples are numbered from `0`. -/
theorem pushes_contents (s : TensorFlowLiteInference) (hlen : s.input_buffer.length = 450)
    (xs : List (List ℚ)) :
    ∀ k i, k < xs.length → k < 50 → i < 9 →
      (xs.foldl addDataPoint (clearBuffer s)).input_buffer.getD (9 * k + i) 0 =
        (xs.getD (if xs.length < 50 then k else if k < 49 then xs.length - 49 + k
          else xs.length - 1) []).getD i 0 := by
  induction xs using List.reverseRecOn with
  | nil => intro k i hk; simp at hk
  | append_singleton xs x ih =>
    intro k i hk h50 hi
    obtain ⟨hidx, -, hl⟩ := pushes_fields s xs
    rw [hlen] at hl
    simp only [List.length_append, List.length_singleton] at hk ⊢
    rw [List.foldl_append]
    simp only [List.foldl_cons, List.foldl_nil]
    rw [addDataPoint_getD _ x hl (9 * k + i) (by omega), hidx, getD_append_one]
    rcases Nat.lt_or_ge xs.length 49 with hn | hn
    · have a1 : xs.length < 50 := by omega
      have a2 : ¬ (xs.length + 1 ≥ 50) := by omega
      have a3 : xs.length + 1 < 50 := by omega
      simp only [a1, a2, a3, if_true, if_false]
      by_cases hkn : k = xs.length
      · subst hkn
        have b1 : xs.length * 9 ≤ 9 * xs.length + i ∧ 9 * xs.length + i < xs.length * 9 + 9 := by
          omega
        have b2 : 9 * xs.length + i - xs.length * 9 = i := by omega
        simp only [b1, and_self, if_true, b2, lt_irrefl, if_false]
      · have b0 : k < xs.length := by omega
        have b1 : ¬ (xs.length * 9 ≤ 9 * k + i ∧ 9 * k + i < xs.length * 9 + 9) := by omega
        simp only [b1, if_false, b0, if_true]
        rw [ih k i b0 h50 hi]
        simp only [a1, if_true]
    · by_cases hn' : xs.length = 49
      · have a1 : xs.length < 50 := by omega
        have a2 : xs.length + 1 ≥ 50 := by omega
        have a3 : ¬ (xs.length + 1 < 50) := by omega
        simp only [a1, a2, a3, if_true, if_false]
        by_cases hk49 : k < 49
        · have c1 : 9 * k + i < 441 := by omega
          simp only [c1, hk49, if_true]
          by_cases hk48 : k = 48
          · subst hk48
            have b1 : xs.length * 9 ≤ 9 * 48 + i + 9 ∧ 9 * 48 + i + 9 < xs.length * 9 + 9 := by
              omega
            have b2 : 9 * 48 + i + 9 - xs.length * 9 = i := by omega
            have b3 : ¬ (xs.length + 1 - 49 + 48 < xs.length) := by omega
            have b4 : xs.length + 1 - 49 + 48 = xs.length := by omega
            simp only [b1, and_self, if_true, b2, b3, b4, if_false, lt_irrefl]
          · have b1 : ¬ (xs.length * 9 ≤ 9 * k + i + 9 ∧ 9 * k + i + 9 < xs.length * 9 + 9) := by
              omega
            have b3 : xs.length + 1 - 49 + k < xs.length := by omega
            simp only [b1, if_false, b3, if_true]
            have e : 9 * k + i + 9 = 9 * (k + 1) + i := by ring
            rw [e, ih (k + 1) i (by omega) (by omega) hi]
            simp only [a1, if_true]
            have e2 : xs.length + 1 - 49 + k = k + 1 := by omega
            rw [e2]
        · have hk' : k = 49 := by omega
          subst hk'
          have c1 : ¬ (9 * 49 + i < 441) := by omega
          have b1 : xs.length * 9 ≤ 9 * 49 + i ∧ 9 * 49 + i < xs.length * 9 + 9 := by omega
          have b2 : 9 * 49 + i - xs.length * 9 = i := by omega
          have b3 : ¬ (xs.length + 1 - 1 < xs.length) := by omega
          have b4 : xs.length + 1 - 1 = xs.length := by omega
          simp only [c1, if_false, b1, and_self, if_true, b2, lt_irrefl, b3, b4]
      · have a1 : ¬ (xs.length < 50) := by omega
        have a2 : (49 : Nat) + 1 ≥ 50 := by omega
        have a3 : ¬ (xs.length + 1 < 50) := by omega
        simp only [a1, a2, a3, if_true, if_false]
        by_cases hk49 : k < 49
        · have c1 : 9 * k + i < 441 := by omega
          simp only [c1, hk49, if_true]
          by_cases hk48 : k = 48
          · subst hk48
            have b1 : 49 * 9 ≤ 9 * 48 + i + 9 ∧ 9 * 48 + i + 9 < 49 * 9 + 9 := by omega
            have b2 : 9 * 48 + i + 9 - 49 * 9 = i := by omega
            have b3 : ¬ (xs.length + 1 - 49 + 48 < xs.length) := by omega
            have b4 : xs.length + 1 - 49 + 48 = xs.length := by omega
            simp only [b1, and_self, if_true, b2, b3, b4, if_false, lt_irrefl]
          · have b1 : ¬ (49 * 9 ≤ 9 * k + i + 9 ∧ 9 * k + i + 9 < 49 * 9 + 9) := by omega
            have b3 : xs.length + 1 - 49 + k < xs.length := by omega
            simp only [b1, if_false, b3, if_true]
            have e : 9 * k + i + 9 = 9 * (k + 1) + i := by ring
            rw [e, ih (k + 1) i (by omega) (by omega) hi]
            have e3 : k + 1 < 49 := by omega
            simp only [a1, if_false, e3, if_true]
            have e2 : xs.length + 1 - 49 + k = xs.length - 49 + (k + 1) := by omega
            rw [e2]
        · have hk' : k = 49 := by omega
          subst hk'
          have c1 : ¬ (9 * 49 + i < 441) := by omega
          have b1 : 49 * 9 ≤ 9 * 49 + i ∧ 9 * 49 + i < 49 * 9 + 9 := by omega
          have b2 : 9 * 49 + i - 49 * 9 = i := by omega
          have b3 : ¬ (xs.length + 1 - 1 < xs.length) := by omega
          have b4 : xs.length + 1 - 1 = xs.length := by omega
          simp only [c1, if_false, b1, and_self, if_true, b2, lt_irrefl, b3, b4]

/-- Reading a constant list. -/
theorem replicate_getD (k i : Nat) (v : ℚ) :
    (List.replicate k v).getD i 0 = if i < k then v else 0 := by
  simp only [List.getD_eq_getElem?_getD, List.getElem?_replicate]
  split_ifs <;> rfl

/-- Reading a run of equal samples. -/
theorem replicate_sample_getD (n m : Nat) (r : List ℚ) :
    (List.replicate n r).getD m [] = if m < n then r else [] := by
  simp only [List.getD_eq_getElem?_getD, List.getElem?_replicate]
  split_ifs <;> rfl

/-- Reading any feature of any sample of a run of all-zero samples gives zero. -/
theorem zeroSamples_getD (n m i : Nat) :
    ((List.replicate n (List.replicate 9 (0 : ℚ))).getD m []).getD i 0 = 0 := by
  rw [replicate_sample_getD]
  split_ifs
  · rw [replicate_getD]
    split_ifs <;> rfl
  · rfl

/-- The mean of a window whose 450 scalars all equal `v` is `v`. -/
theorem averageActivity_const (b : List ℚ) (v : ℚ) (h : ∀ j, j < 450 → b.getD j 0 = v) :
    averageActivity b = v := by
  unfold averageActivity
  have key : ∀ n, n ≤ 450 →
      (List.range n).foldl (fun acc i => acc + b.getD i 0) 0 = (n : ℚ) * v := by
    intro n
    induction n with
    | zero => intro _; simp
    | succ n ih =>
      intro hn
      rw [List.range_succ, List.foldl_append]
      simp only [List.foldl_cons, List.foldl_nil]
      rw [ih (by omega), h n (by omega)]
      push_cast
      ring
  have e : kSequenceLength * kFeatureDim = 450 := by decide
  rw [e, key 450 (le_refl _)]
  norm_num

/-- The mean of a window whose 450 scalars are all zero is zero. -/
theorem averageActivity_zero (b : List ℚ) (h : ∀ j, j < 450 → b.getD j 0 = 0) :
    averageActivity b = 0 :=
  averageActivity_const b 0 h

/-- The mean of `constantWindow v` is `v`. -/
theorem averageActivity_constantWindow (v : ℚ) :
    averageActivity (constantWindow v).input_buffer = v := by
  apply averageActivity_const
  intro j hj
  simp only [constantWindow, replicate_getD, hj, if_true]

/-- Fifty all-zero samples pushed into a cleared window leave every scalar zero. -/
theorem zero_pushes_getD (s0 : TensorFlowLiteInference) (h0 : s0.input_buffer.length = 450)
    (j : Nat) (hj : j < 450) :
    ((List.replicate 50 (List.replicate 9 (0 : ℚ))).foldl addDataPoint
      (clearBuffer s0)).input_buffer.getD j 0 = 0 := by
  have h := pushes_contents s0 h0 (List.replicate 50 (List.replicate 9 (0 : ℚ))) (j / 9) (j % 9)
    (by simp only [List.length_replicate]; omega) (by omega) (Nat.mod_lt _ (by decide))
  have e : 9 * (j / 9) + j % 9 = j := Nat.div_add_mod j 9
  rw [e] at h
  rw [h, zeroSamples_getD]

/-- The distribution loop of demo mode on a five-entry array. -/
theorem demo_predictions (p : List ℚ) (hp : p.length = 5) (c : Int) (conf : ℚ) :
    (List.range kNumClasses).foldl
      (fun (p : List ℚ) (i : Nat) => p.set i (if (i : Int) = c then conf else (1 - conf) / 4)) p =
    [if (0 : Int) = c then conf else (1 - conf) / 4,
     if (1 : Int) = c then conf else (1 - conf) / 4,
     if (2 : Int) = c then conf else (1 - conf) / 4,
     if (3 : Int) = c then conf else (1 - conf) / 4,
     if (4 : Int) = c then conf else (1 - conf) / 4] := by
  match p, hp with
  | [a0, a1, a2, a3, a4], _ =>
    have hr : List.range kNumClasses = [0, 1, 2, 3, 4] := by decide
    rw [hr]
    simp only [List.foldl_cons, List.foldl_nil, List.set_cons_zero, List.set_cons_succ]
    norm_num

/-- Demo mode on a ready window: the call succeeds, and class, confidence and distribution
are those of the band the mean falls in. -/
theorem runInference_demo (len : Nat) (hlen : len < 1000) (I : MicroInterpreter)
    (s : TensorFlowLiteInference) (hfull : s.buffer_full = true) :
    ∃ (c : Int) (conf : ℚ),
      runInference len I s = (true, { s with
        predicted_class := c, confidence := conf,
        predictions := (List.range kNumClasses).foldl
          (fun (p : List ℚ) (i : Nat) => p.set i (if (i : Int) = c then conf else (1 - conf) / 4))
          s.predictions }) ∧
      ((averageActivity s.input_buffer < 0.2 ∧ c = 0 ∧ conf = 0.75) ∨
       (0.2 ≤ averageActivity s.input_buffer ∧ averageActivity s.input_buffer < 0.4 ∧
          c = 1 ∧ conf = 0.80) ∨
       (0.4 ≤ averageActivity s.input_buffer ∧ averageActivity s.input_buffer < 0.6 ∧
          c = 2 ∧ conf = 0.85) ∨
       (0.6 ≤ averageActivity s.input_buffer ∧ averageActivity s.input_buffer < 0.8 ∧
          c = 3 ∧ conf = 0.82) ∨
       (0.8 ≤ averageActivity s.input_buffer ∧ c = 4 ∧ conf = 0.78)) := by
  unfold runInference
  simp only [hfull, Bool.not_true, Bool.false_eq_true, if_false, hlen, if_true]
  by_cases h1 : averageActivity s.input_buffer < 0.2
  · exact ⟨0, 0.75, by simp only [h1, if_true], Or.inl ⟨h1, rfl, rfl⟩⟩
  · by_cases h2 : averageActivity s.input_buffer < 0.4
    · exact ⟨1, 0.80, by simp only [h1, h2, if_true, if_false],
        Or.inr (Or.inl ⟨not_lt.mp h1, h2, rfl, rfl⟩)⟩
    · by_cases h3 : averageActivity s.input_buffer < 0.6
      · exact ⟨2, 0.85, by simp only [h1, h2, h3, if_true, if_false],
          Or.inr (Or.inr (Or.inl ⟨not_lt.mp h2, h3, rfl, rfl⟩))⟩
      · by_cases h4 : averageActivity s.input_buffer < 0.8
        · exact ⟨3, 0.82, by simp only [h1, h2, h3, h4, if_true, if_false],
            Or.inr (Or.inr (Or.inr (Or.inl ⟨not_lt.mp h3, h4, rfl, rfl⟩)))⟩
        · exact ⟨4, 0.78, by simp only [h1, h2, h3, h4, if_false],
            Or.inr (Or.inr (Or.inr (Or.inr ⟨not_lt.mp h4, rfl, rfl⟩)))⟩

/-- Reading the features of `rampSamples`. -/
theorem rampSamples_getD (m i : Nat) :
    (rampSamples.getD m []).getD i 0 = if m < 50 ∧ i < 9 then (m : ℚ) + 1 else 0 := by
  have e : rampSamples.getD m [] = if m < 50 then List.replicate 9 ((m : ℚ) + 1) else [] := by
    unfold rampSamples
    simp only [List.getD_eq_getElem?_getD, List.getElem?_map]
    by_cases h1 : m < 50
    · rw [List.getElem?_range h1, if_pos h1]
      rfl
    · rw [List.getElem?_eq_none (by simpa using h1), if_neg h1]
      rfl
  rw [e]
  by_cases h1 : m < 50
  · rw [if_pos h1, replicate_getD]
    by_cases h2 : i < 9
    · rw [if_pos h2, if_pos ⟨h1, h2⟩]
    · rw [if_neg h2, if_neg (fun h => h2 h.2)]
  · rw [if_neg h1, if_neg (fun h => h1 h.1)]
    rfl

/-! ## Model mode -/

/-- With a float32 or int8 output tensor the value read back does not depend on the old
contents of `predictions`. -/
theorem readOutput_indep (output : TfLiteTensor) (hty : output.type ≠ TfLiteType.kTfLiteOther)
    (p q : List ℚ) (i : Nat) : readOutput output p i = readOutput output q i := by
  unfold readOutput
  cases h : output.type with
  | kTfLiteFloat32 => rfl
  | kTfLiteInt8 => rfl
  | kTfLiteOther => exact absurd h hty

/-- Invariant of the extraction loop of model mode after `n ≤ 5` iterations: the first `n`
entries of `predictions` are the values read back, `confidence` is non-negative and bounds
them, and either nothing exceeded `0` so far (class `0`, confidence `0`) or the class is
the first index of a strictly positive running maximum.  The other fields are untouched. -/
theorem extractLoop_invariant (output : TfLiteTensor)
    (hty : output.type ≠ TfLiteType.kTfLiteOther) (s : TensorFlowLiteInference)
    (hp : s.predictions.length = 5) (n : Nat) (hn : n ≤ 5) (r : TensorFlowLiteInference)
    (hr : r = (List.range n).foldl
      (fun (st : TensorFlowLiteInference) (i : Nat) =>
        let preds := st.predictions.set i (readOutput output st.predictions i)
        if preds.getD i 0 > st.confidence then
          { st with
            predictions := preds, confidence := preds.getD i 0, predicted_class := (i : Int) }
        else
          { st with predictions := preds })
      { s with confidence := 0, predicted_class := 0 }) :
    r.predictions.length = 5 ∧
    (∀ i, i < n → r.predictions.getD i 0 = readOutput output s.predictions i) ∧
    (∀ i, i < n → readOutput output s.predictions i ≤ r.confidence) ∧
    ((r.confidence = 0 ∧ r.predicted_class = 0) ∨
     (∃ k : Nat, k < n ∧ r.predicted_class = (k : Int) ∧
      r.confidence = readOutput output s.predictions k ∧
      0 < readOutput output s.predictions k ∧
      ∀ i, i < k → readOutput output s.predictions i < readOutput output s.predictions k)) ∧
    r.input_buffer = s.input_buffer ∧ r.buffer_index = s.buffer_index ∧
    r.buffer_full = s.buffer_full := by
  subst hr
  induction n with
  | zero =>
    refine ⟨hp, fun i hi => absurd hi (Nat.not_lt_zero i), fun i hi => absurd hi (Nat.not_lt_zero i),
      Or.inl ⟨rfl, rfl⟩, rfl, rfl, rfl⟩
  | succ n ih =>
    obtain ⟨h1, h2, h3, h4, h5, h6, h7⟩ := ih (by omega)
    rw [List.range_succ, List.foldl_append]
    simp only [List.foldl_cons, List.foldl_nil]
    generalize (List.range n).foldl
      (fun (st : TensorFlowLiteInference) (i : Nat) =>
        let preds := st.predictions.set i (readOutput output st.predictions i)
        if preds.getD i 0 > st.confidence then
          { st with
            predictions := preds, confidence := preds.getD i 0, predicted_class := (i : Int) }
        else
          { st with predictions := preds })
      { s with confidence := 0, predicted_class := 0 } = st at h1 h2 h3 h4 h5 h6 h7 ⊢
    have hv : readOutput output st.predictions n = readOutput output s.predictions n :=
      readOutput_indep output hty _ _ n
    have hget : (st.predictions.set n (readOutput output st.predictions n)).getD n 0 =
        readOutput output s.predictions n := by
      rw [getD_set_eq, if_pos ⟨rfl, by omega⟩, hv]
    have hpre : ∀ i, i < n + 1 →
        (st.predictions.set n (readOutput output st.predictions n)).getD i 0 =
          readOutput output s.predictions i := by
      intro i hi
      by_cases hin : i = n
      · subst hin; exact hget
      · rw [getD_set_eq, if_neg (fun h => hin h.1)]
        exact h2 i (by omega)
    have hconf0 : 0 ≤ st.confidence := by
      rcases h4 with ⟨h, _⟩ | ⟨k, _, _, h, hk, _⟩
      · rw [h]
      · rw [h]; exact le_of_lt hk
    rw [hget]
    by_cases hgt : readOutput output s.predictions n > st.confidence
    · rw [if_pos hgt]
      refine ⟨by simp only [List.length_set]; exact h1, hpre, ?_, ?_, h5, h6, h7⟩
      · intro i hi
        by_cases hin : i = n
        · subst hin; exact le_refl _
        · exact le_of_lt (lt_of_le_of_lt (h3 i (by omega)) hgt)
      · refine Or.inr ⟨n, Nat.lt_succ_self n, rfl, rfl, lt_of_le_of_lt hconf0 hgt, ?_⟩
        intro i hi
        exact lt_of_le_of_lt (h3 i hi) hgt
    · rw [if_neg hgt]
      refine ⟨by simp only [List.length_set]; exact h1, hpre, ?_, ?_, h5, h6, h7⟩
      · intro i hi
        by_cases hin : i = n
        · subst hin; exact not_lt.mp hgt
        · exact h3 i (by omega)
      · rcases h4 with h | ⟨k, hk, hrest⟩
        · exact Or.inl h
        · exact Or.inr ⟨k, by omega, hrest⟩

/-- After `extractResult` on a float32 or int8 output tensor: the five entries read back,
a non-negative confidence that bounds them, and the class as in `extractLoop_invariant`. -/
theorem extractResult_spec (output : TfLiteTensor)
    (hty : output.type ≠ TfLiteType.kTfLiteOther) (s : TensorFlowLiteInference)
    (hp : s.predictions.length = 5) :
    (extractResult output s).predictions.length = 5 ∧
    (∀ i, i < 5 → (extractResult output s).predictions.getD i 0 =
      readOutput output s.predictions i) ∧
    (∀ i, i < 5 → readOutput output s.predictions i ≤ (extractResult output s).confidence) ∧
    (((extractResult output s).confidence = 0 ∧ (extractResult output s).predicted_class = 0) ∨
     (∃ k : Nat, k < 5 ∧ (extractResult output s).predicted_class = (k : Int) ∧
      (extractResult output s).confidence = readOutput output s.predictions k ∧
      0 < readOutput output s.predictions k ∧
      ∀ i, i < k → readOutput output s.predictions i < readOutput output s.predictions k)) ∧
    (extractResult output s).input_buffer = s.input_buffer ∧
    (extractResult output s).buffer_index = s.buffer_index ∧
    (extractResult output s).buffer_full = s.buffer_full :=
  extractLoop_invariant output hty s hp 5 (le_refl _) (extractResult output s) rfl

/-- Model mode on a ready window whose invocation succeeds: the call returns `true` and
the state `extractResult` computes from the output tensor. -/
theorem runInference_model (len : Nat) (hlen : 1000 ≤ len) (I : MicroInterpreter)
    (s : TensorFlowLiteInference) (hs : s.buffer_full = true) (output : TfLiteTensor)
    (hinv : I.Invoke (fillInput I.input s.input_buffer) = (TfLiteStatus.kTfLiteOk, output)) :
    runInference len I s = (true, extractResult output s) := by
  unfold runInference
  simp only [hs, Bool.not_true, Bool.false_eq_true, if_false, not_lt.mpr hlen, hinv, ne_eq,
    not_true_eq_false]

/-- In model mode, on a ready window with a five-entry `predictions` array, after a
successful invocation whose output tensor is float32 or int8, `runInference` returns `true`
and stores the five values read back (float32 as they are, int8 divided by 127).  The
running maximum of the extraction loop starts at `0.0` with class `0`: when the values are
all non-negative, or one of them is strictly positive, the class is the first index of
their maximum and the confidence is that maximum; when none of them is positive, the class
is `0` and the confidence is `0`, whatever the values. -/
theorem extractResult_running_maximum (len : Nat) (hlen : 1000 ≤ len) (I : MicroInterpreter)
    (s : TensorFlowLiteInference) (hs : s.buffer_full = true)
    (hp : s.predictions.length = 5) (output : TfLiteTensor)
    (hinv : I.Invoke (fillInput I.input s.input_buffer) = (TfLiteStatus.kTfLiteOk, output))
    (hty : output.type ≠ TfLiteType.kTfLiteOther) :
    (runInference len I s).1 = true ∧
    (∀ i, i < 5 → (getAllPredictions (runInference len I s).2).getD i 0 =
      readOutput output s.predictions i) ∧
    (((∀ i, i < 5 → 0 ≤ readOutput output s.predictions i) ∨
        (∃ i, i < 5 ∧ 0 < readOutput output s.predictions i)) →
      ∃ k : Nat, k < 5 ∧ (runInference len I s).2.predicted_class = (k : Int) ∧
        getConfidence (runInference len I s).2 = readOutput output s.predictions k ∧
        (∀ i, i < 5 → readOutput output s.predictions i ≤ readOutput output s.predictions k) ∧
        (∀ i, i < k →
          readOutput output s.predictions i < readOutput output s.predictions k)) ∧
    ((∀ i, i < 5 → readOutput output s.predictions i ≤ 0) →
      (runInference len I s).2.predicted_class = 0 ∧
      getConfidence (runInference len I s).2 = 0) := by
  rw [runInference_model len hlen I s hs output hinv]
  obtain ⟨-, h2, h3, h4, -, -, -⟩ := extractResult_spec output hty s hp
  refine ⟨rfl, h2, ?_, ?_⟩
  · intro hnn
    simp only [getConfidence]
    rcases h4 with ⟨hc, hk⟩ | ⟨k, hk, hcls, hconf, hpos, hfirst⟩
    · rcases hnn with hall | ⟨i, hi, hipos⟩
      · have hz : ∀ i, i < 5 → readOutput output s.predictions i = 0 := fun i hi =>
          le_antisymm (hc ▸ h3 i hi) (hall i hi)
        refine ⟨0, by decide, hk, by rw [hc, hz 0 (by decide)], ?_, ?_⟩
        · intro i hi
          rw [hz i hi, hz 0 (by decide)]
        · intro i hi
          exact absurd hi (Nat.not_lt_zero i)
      · exfalso
        have := h3 i hi
        rw [hc] at this
        linarith
    · refine ⟨k, hk, hcls, hconf, ?_, hfirst⟩
      intro i hi
      rw [← hconf]
      exact h3 i hi
  · intro hneg
    simp only [getConfidence]
    rcases h4 with ⟨hc, hk⟩ | ⟨k, hk, -, -, hpos, -⟩
    · exact ⟨hk, hc⟩
    · exfalso
      have := hneg k hk
      linarith

/-! ## Speech classifier -/

/-- Between the two guards `sigmoid` is the logistic function. -/
theorem sigmoid_mid (x : ℝ) (h1 : -10 ≤ x) (h2 : x ≤ 10) :
    sigmoid Real.exp x = 1 / (1 + Real.exp (-x)) := by
  unfold sigmoid
  rw [if_neg (not_lt.mpr h2), if_neg (not_lt.mpr h1)]

/-- `sigmoid` takes values in `[0, 1]`. -/
theorem sigmoid_bounds (x : ℝ) : 0 ≤ sigmoid Real.exp x ∧ sigmoid Real.exp x ≤ 1 := by
  unfold sigmoid
  have hpos := Real.exp_pos (-x)
  split_ifs
  · exact ⟨zero_le_one, le_refl _⟩
  · exact ⟨le_refl _, zero_le_one⟩
  · constructor
    · positivity
    · rw [div_le_one (by linarith)]
      linarith

/-- The linear score `z` that `analyzeSpeechArray` passes to `sigmoid`, in closed form. -/
theorem analyzeSpeechArray_probability_eq (m : SpeechModel ℝ) (x : List ℝ) :
    (analyzeSpeechArray m Real.exp x).probability =
      sigmoid Real.exp (m.SPEECH_BIAS + ∑ i in Finset.range 8,
        m.SPEECH_WEIGHTS.getD i 0 *
          ((x.getD i 0 - m.SPEECH_SCALER_MEAN.getD i 0) / m.SPEECH_SCALER_STD.getD i 0)) := by
  have hr : List.range SPEECH_FEATURE_DIM = [0, 1, 2, 3, 4, 5, 6, 7] := by decide
  have hz : List.replicate SPEECH_FEATURE_DIM (0 : ℝ) = [0, 0, 0, 0, 0, 0, 0, 0] := rfl
  unfold analyzeSpeechArray normalizeSpeechFeatures
  simp only [hr, hz, List.foldl_cons, List.foldl_nil, List.set_cons_zero, List.set_cons_succ,
    List.getD_cons_zero, List.getD_cons_succ, Finset.sum_range_succ, Finset.sum_range_zero]
  congr 1
  ring

/-- The class and confidence fields of `analyzeSpeechArray` in terms of its probability. -/
theorem analyzeSpeechArray_fields (m : SpeechModel ℝ) (x : List ℝ) :
    (analyzeSpeechArray m Real.exp x).predicted_class =
      (if (analyzeSpeechArray m Real.exp x).probability > 0.5 then 1 else 0) ∧
    (analyzeSpeechArray m Real.exp x).confidence =
      (if (analyzeSpeechArray m Real.exp x).predicted_class = 1
        then (analyzeSpeechArray m Real.exp x).probability
        else 1 - (analyzeSpeechArray m Real.exp x).probability) ∧
    (analyzeSpeechArray m Real.exp x).is_valid = true :=
  ⟨rfl, rfl, rfl⟩

/-- Exact reading (no rounding, no overflow): with zero bias and zero weights
`analyzeSpeechArray` returns probability `0.5`, class `0` and confidence `0.5` for every
input. -/
theorem analyzeSpeechArray_zero_weights_exact (m : SpeechModel ℝ) (hb : m.SPEECH_BIAS = 0)
    (hw : ∀ i, i < 8 → m.SPEECH_WEIGHTS.getD i 0 = 0)
    (_hstd : ∀ i, i < 8 → m.SPEECH_SCALER_STD.getD i 0 ≠ 0) (x : List ℝ) :
    (analyzeSpeechArray m Real.exp x).probability = 0.5 ∧
    (analyzeSpeechArray m Real.exp x).predicted_class = 0 ∧
    (analyzeSpeechArray m Real.exp x).confidence = 0.5 ∧
    (analyzeSpeechArray m Real.exp x).is_valid = true := by
  have hp : (analyzeSpeechArray m Real.exp x).probability = 0.5 := by
    rw [analyzeSpeechArray_probability_eq m x]
    have hsum : ∑ i in Finset.range 8, m.SPEECH_WEIGHTS.getD i 0 *
        ((x.getD i 0 - m.SPEECH_SCALER_MEAN.getD i 0) / m.SPEECH_SCALER_STD.getD i 0) = 0 := by
      apply Finset.sum_eq_zero
      intro i hi
      rw [hw i (Finset.mem_range.mp hi), zero_mul]
    rw [hsum, hb, add_zero, sigmoid_mid 0 (by norm_num) (by norm_num)]
    norm_num
  obtain ⟨hc, hconf, hv⟩ := analyzeSpeechArray_fields m x
  have hc0 : (analyzeSpeechArray m Real.exp x).predicted_class = 0 := by
    rw [hc, hp, if_neg (lt_irrefl _)]
  refine ⟨hp, hc0, ?_, hv⟩
  rw [hconf, hc0, hp, if_neg (by decide)]
  norm_num

/-- Exact reading (no rounding, no overflow): for every parameter record and feature vector
`analyzeSpeechArray` returns a probability `p` in `[0, 1]`, a class in `{0, 1}` that is `1`
exactly when `p > 0.5`, the confidence `max p (1 - p)`, which lies in `[0.5, 1]`, and
`is_valid = true`. -/
theorem analyzeSpeechArray_result_ranges_exact (m : SpeechModel ℝ) (x : List ℝ) :
    0 ≤ (analyzeSpeechArray m Real.exp x).probability ∧
    (analyzeSpeechArray m Real.exp x).probability ≤ 1 ∧
    ((analyzeSpeechArray m Real.exp x).predicted_class = 0 ∨
      (analyzeSpeechArray m Real.exp x).predicted_class = 1) ∧
    ((analyzeSpeechArray m Real.exp x).predicted_class = 1 ↔
      (analyzeSpeechArray m Real.exp x).probability > 0.5) ∧
    (analyzeSpeechArray m Real.exp x).confidence =
      max (analyzeSpeechArray m Real.exp x).probability
        (1 - (analyzeSpeechArray m Real.exp x).probability) ∧
    0.5 ≤ (analyzeSpeechArray m Real.exp x).confidence ∧
    (analyzeSpeechArray m Real.exp x).confidence ≤ 1 ∧
    (analyzeSpeechArray m Real.exp x).is_valid = true := by
  obtain ⟨hc, hconf, hv⟩ := analyzeSpeechArray_fields m x
  have hp : 0 ≤ (analyzeSpeechArray m Real.exp x).probability ∧
      (analyzeSpeechArray m Real.exp x).probability ≤ 1 := by
    rw [analyzeSpeechArray_probability_eq m x]
    exact sigmoid_bounds _
  generalize (analyzeSpeechArray m Real.exp x).probability = p at hc hconf hp
  generalize (analyzeSpeechArray m Real.exp x).predicted_class = c at hc hconf
  generalize (analyzeSpeechArray m Real.exp x).confidence = conf at hconf
  obtain ⟨hp0, hp1⟩ := hp
  by_cases hgt : p > 0.5
  · rw [if_pos hgt] at hc
    subst hc
    rw [if_pos rfl] at hconf
    subst hconf
    refine ⟨hp0, hp1, Or.inr rfl, ⟨fun _ => hgt, fun _ => rfl⟩, ?_, ?_, hp1, hv⟩
    · rw [max_eq_left]
      norm_num at hgt ⊢
      linarith
    · norm_num at hgt ⊢
      linarith
  · rw [if_neg hgt] at hc
    subst hc
    rw [if_neg (by decide)] at hconf
    subst hconf
    have hle : p ≤ 0.5 := not_lt.mp hgt
    refine ⟨hp0, hp1, Or.inl rfl, ⟨fun h => absurd h (by decide), fun h => absurd h hgt⟩,
      ?_, ?_, ?_, hv⟩
    · rw [max_eq_right]
      norm_num at hle ⊢
      linarith
    · norm_num at hle ⊢
      linarith
    · linarith

/-! ## Result accessors -/

/-- An invariant of the start value that every step of a left fold preserves holds of
the result. -/
theorem foldl_preserves {β γ : Type} (P : β → Prop) (f : β → γ → β) (l : List γ)
    (hstep : ∀ b x, x ∈ l → P b → P (f b x)) (b : β) (hb : P b) : P (l.foldl f b) := by
  induction l generalizing b with
  | nil => exact hb
  | cons x xs ih =>
    rw [List.foldl_cons]
    exact ih (fun b y hy hP => hstep b y (List.mem_cons_of_mem x hy) hP) (f b x)
      (hstep b x (List.mem_cons_self x xs) hb)

/-- Whatever the output tensor holds, `extractResult` leaves a class index in `0..4`. -/
theorem extractResult_class_range (output : TfLiteTensor) (s : TensorFlowLiteInference) :
    0 ≤ (extractResult output s).predicted_class ∧
    (extractResult output s).predicted_class < 5 := by
  unfold extractResult
  refine foldl_preserves
    (fun (st : TensorFlowLiteInference) => 0 ≤ st.predicted_class ∧ st.predicted_class < 5)
    _ _ ?_ _ ⟨le_refl _, by show (0 : Int) < 5; decide⟩
  intro st i hi hP
  have hi5 : i < 5 := List.mem_range.mp hi
  simp only
  split_ifs
  · exact ⟨by simp only; omega, by simp only; omega⟩
  · exact hP

/-- A reported level in `1..5` never maps to the sentinel strings. -/
theorem level_strings_not_sentinel (s : TensorFlowLiteInference)
    (h1 : 1 ≤ getPredictedClass s) (h5 : getPredictedClass s ≤ 5) :
    getParkinsonLevelDescription s ≠ "未知" ∧ getRecommendation s ≠ "請重新進行評估" := by
  unfold getParkinsonLevelDescription getRecommendation
  generalize getPredictedClass s = level at h1 h5
  interval_cases level <;> decide

/-- Two object states with equal fields are equal. -/
theorem state_ext (a b : TensorFlowLiteInference) (h1 : a.input_buffer = b.input_buffer)
    (h2 : a.buffer_index = b.buffer_index) (h3 : a.buffer_full = b.buffer_full)
    (h4 : a.predictions = b.predictions) (h5 : a.predicted_class = b.predicted_class)
    (h6 : a.confidence = b.confidence) : a = b := by
  cases a
  cases b
  simp only at h1 h2 h3 h4 h5 h6
  subst h1 h2 h3 h4 h5 h6
  rfl

/-- Two lists of the same length that agree at every index are equal. -/
theorem list_ext_getD (l₁ l₂ : List ℚ) (hlen : l₁.length = l₂.length)
    (h : ∀ j, j < l₁.length → l₁.getD j 0 = l₂.getD j 0) : l₁ = l₂ := by
  apply List.ext_getElem hlen
  intro j h1 h2
  have := h j h1
  rw [List.getD_eq_getElem _ _ h1, List.getD_eq_getElem _ _ h2] at this
  exact this

/-- The zeroing loop of `clearBuffer`, run for `n` scalars. -/
theorem clearLoop_spec (b : List ℚ) (n : Nat) :
    ((List.range n).foldl (fun b i => b.set i 0) b).length = b.length ∧
    ∀ j, ((List.range n).foldl (fun b i => b.set i 0) b).getD j 0 =
      if j < n then 0 else b.getD j 0 := by
  induction n with
  | zero =>
    refine ⟨rfl, fun j => ?_⟩
    simp only [List.range_zero, List.foldl_nil, Nat.not_lt_zero, if_false]
  | succ n ih =>
    rw [List.range_succ, List.foldl_append]
    obtain ⟨hlen, hget⟩ := ih
    refine ⟨by simp only [List.foldl_cons, List.foldl_nil, List.length_set]; exact hlen,
      fun j => ?_⟩
    simp only [List.foldl_cons, List.foldl_nil, getD_set_eq, hget, hlen]
    by_cases h1 : j = n
    · subst h1
      by_cases h2 : j < b.length
      · simp only [h2, and_self, if_true, Nat.lt_succ_self]
      · have h3 : b.getD j 0 = 0 := by
          rw [List.getD_eq_getElem?_getD, List.getElem?_eq_none (Nat.le_of_not_lt h2)]
          rfl
        simp only [h2, and_false, if_false, lt_irrefl, h3, Nat.lt_succ_self, if_true]
    · simp only [h1, false_and, if_false]
      by_cases h3 : j < n
      · simp only [h3, if_true, Nat.lt_succ_of_lt h3]
      · have : ¬ j < n + 1 := by omega
        simp only [h3, this, if_false]

/-- On a 450-entry buffer `clearBuffer` leaves 450 zeros. -/
theorem clearBuffer_input_buffer (s : TensorFlowLiteInference)
    (hlen : s.input_buffer.length = 450) :
    (clearBuffer s).input_buffer = List.replicate 450 0 := by
  have e : kSequenceLength * kFeatureDim = 450 := by decide
  unfold clearBuffer
  simp only [e]
  obtain ⟨h1, h2⟩ := clearLoop_spec s.input_buffer 450
  apply list_ext_getD
  · rw [h1, hlen, List.length_replicate]
  · intro j hj
    rw [h1, hlen] at hj
    rw [h2, if_pos hj, replicate_getD, if_pos hj]

/-- The distribution the demo inference leaves from the all-zero ready window. -/
theorem afterDemoInference_predictions :
    afterDemoInference.predictions = [0.75, 0.0625, 0.0625, 0.0625, 0.0625] := by
  unfold afterDemoInference
  obtain ⟨c, conf, hr, hb⟩ := runInference_demo 0 (by decide)
    (fixedInterpreter TfLiteStatus.kTfLiteError negativeInt8Output) (constantWindow 0) rfl
  rw [hr]
  simp only
  rw [demo_predictions _ (by simp only [constantWindow, List.length_replicate])]
  rw [averageActivity_constantWindow] at hb
  rcases hb with ⟨_, h1, h2⟩ | ⟨h, _⟩ | ⟨h, _⟩ | ⟨h, _⟩ | ⟨h, _⟩
  · subst h1; subst h2
    norm_num
  all_goals (exfalso; norm_num at h)

/-- Model mode on a ready window whose invocation fails: the call returns `false` and the
state it was given. -/
theorem invoke_failure_returns_state (len : Nat) (hlen : 1000 ≤ len) (I : MicroInterpreter)
    (s : TensorFlowLiteInference) (hs : s.buffer_full = true)
    (hinv : (I.Invoke (fillInput I.input s.input_buffer)).1 ≠ TfLiteStatus.kTfLiteOk) :
    runInference len I s = (false, s) := by
  unfold runInference
  rw [ne_eq] at hinv
  simp only [hs, Bool.not_true, Bool.false_eq_true, if_false, not_lt.mpr hlen, ne_eq]
  rw [if_pos hinv]

/-! ## Audio buffer and acoustic features -/

section AudioFeatures

open ArduinoSpeechFeatureExtractor

/-- A load after a store, for a list of any scalars. -/
theorem getD_set_any {α : Type} (d : α) (l : List α) (i j : Nat) (v : α) :
    (l.set i v).getD j d = if j = i ∧ i < l.length then v else l.getD j d := by
  simp only [List.getD_eq_getElem?_getD, List.getElem?_set]
  by_cases hji : j = i
  · subst hji
    by_cases hlt : j < l.length
    · simp [hlt]
    · simp [hlt, List.getElem?_eq_none (Nat.le_of_not_lt hlt)]
  · have : ¬ i = j := fun h => hji h.symm
    simp [hji, this]

/-- Reading past the end of a list gives the default. -/
theorem getD_of_length_le {α : Type} (d : α) (l : List α) (j : Nat) (h : l.length ≤ j) :
    l.getD j d = d := by
  rw [List.getD_eq_getElem?_getD, List.getElem?_eq_none h]
  rfl

/-- The zeroing loop of `resetBuffer`, run for `n` samples. -/
theorem resetLoop_spec {α : Type} [LinearOrderedField α] (b : List α) (n : Nat) :
    ((List.range n).foldl (fun (b : List α) (i : Nat) => b.set i 0) b).length = b.length ∧
    ∀ j, ((List.range n).foldl (fun (b : List α) (i : Nat) => b.set i 0) b).getD j 0 =
      if j < n then 0 else b.getD j 0 := by
  induction n with
  | zero =>
    refine ⟨rfl, fun j => ?_⟩
    simp only [List.range_zero, List.foldl_nil, Nat.not_lt_zero, if_false]
  | succ n ih =>
    rw [List.range_succ, List.foldl_append]
    obtain ⟨hlen, hget⟩ := ih
    refine ⟨by simp only [List.foldl_cons, List.foldl_nil, List.length_set]; exact hlen,
      fun j => ?_⟩
    simp only [List.foldl_cons, List.foldl_nil, getD_set_any, hget, hlen]
    by_cases h1 : j = n
    · subst h1
      by_cases h2 : j < b.length
      · simp only [h2, and_self, if_true, Nat.lt_succ_self]
      · have h3 : b.getD j 0 = 0 := getD_of_length_le 0 b j (Nat.le_of_not_lt h2)
        simp only [h2, and_false, if_false, lt_irrefl, h3, Nat.lt_succ_self, if_true]
    · simp only [h1, false_and, if_false]
      by_cases h3 : j < n
      · simp only [h3, if_true, Nat.lt_succ_of_lt h3]
      · have : ¬ j < n + 1 := by omega
        simp only [h3, this, if_false]

/-- After `resetBuffer`: index `0`, the same number of entries, zeros below 1024. -/
theorem resetBuffer_spec {α : Type} [LinearOrderedField α] (s : ArduinoSpeechFeatureExtractor α) :
    (resetBuffer s).buffer_index = 0 ∧
    (resetBuffer s).audio_buffer.length = s.audio_buffer.length ∧
    ∀ j, (resetBuffer s).audio_buffer.getD j 0 = if j < 1024 then 0 else s.audio_buffer.getD j 0 := by
  obtain ⟨h1, h2⟩ := resetLoop_spec s.audio_buffer 1024
  unfold resetBuffer
  simp only [AUDIO_BUFFER_SIZE]
  exact ⟨trivial, h1, h2⟩

/-- Reading a sequence of audio samples extended by one more sample. -/
theorem getD_append_sample {α : Type} [LinearOrderedField α] (xs : List α) (x : α) (m : Nat) :
    (xs ++ [x]).getD m 0 = if m < xs.length then xs.getD m 0
      else if m = xs.length then x else 0 := by
  simp only [List.getD_eq_getElem?_getD]
  by_cases h1 : m < xs.length
  · simp [h1, List.getElem?_append_left h1]
  · by_cases h2 : m = xs.length
    · subst h2
      simp
    · have h3 : xs.length + 1 ≤ m := by omega
      have : (xs ++ [x])[m]? = none := List.getElem?_eq_none (by simpa using h3)
      simp [h1, h2, this]

/-- A write into a full ring returns the state unchanged. -/
theorem addAudioSample_full {α : Type} (s : ArduinoSpeechFeatureExtractor α) (x : α)
    (h : 1024 ≤ s.buffer_index) : addAudioSample s x = s := by
  unfold addAudioSample
  simp only [AUDIO_BUFFER_SIZE]
  rw [if_neg (by omega)]

/-- The ring after a reset and any sequence of writes: the write index is `min n 1024`, the
buffer keeps its 1024 entries, the first `min n 1024` entries are the first samples written
and the others are zero. -/
theorem audio_writes_spec {α : Type} [LinearOrderedField α] (s0 : ArduinoSpeechFeatureExtractor α)
    (h0 : s0.audio_buffer.length = 1024) (xs : List α) :
    (xs.foldl addAudioSample (resetBuffer s0)).buffer_index = min xs.length 1024 ∧
    (xs.foldl addAudioSample (resetBuffer s0)).audio_buffer.length = 1024 ∧
    ∀ k, (xs.foldl addAudioSample (resetBuffer s0)).audio_buffer.getD k 0 =
      if k < min xs.length 1024 then xs.getD k 0 else 0 := by
  induction xs using List.reverseRecOn with
  | nil =>
    obtain ⟨h1, h2, h3⟩ := resetBuffer_spec s0
    refine ⟨h1, by rw [← h0]; exact h2, fun k => ?_⟩
    simp only [List.foldl_nil, List.length_nil, Nat.zero_min, Nat.not_lt_zero, if_false]
    rw [h3]
    split_ifs with hk
    · rfl
    · exact getD_of_length_le 0 _ k (by omega)
  | append_singleton xs x ih =>
    obtain ⟨h1, h2, h3⟩ := ih
    rw [List.foldl_append]
    simp only [List.foldl_cons, List.foldl_nil, List.length_append, List.length_singleton]
    generalize xs.foldl addAudioSample (resetBuffer s0) = st at h1 h2 h3 ⊢
    unfold addAudioSample
    simp only [AUDIO_BUFFER_SIZE]
    by_cases hfull : st.buffer_index < 1024
    · rw [if_pos hfull]
      have hn : xs.length < 1024 := by
        rw [h1] at hfull
        omega
      have hidx : st.buffer_index = xs.length := by rw [h1]; omega
      refine ⟨?_, ?_, fun k => ?_⟩
      · simp only; omega
      · simp only [List.length_set]; exact h2
      · simp only
        rw [getD_set_any, h3, getD_append_sample, hidx, h2]
        by_cases hk : k = xs.length
        · rw [hk]
          have e1 : xs.length < min (xs.length + 1) 1024 := by omega
          simp only [hn, and_self, if_true, e1, lt_irrefl, if_false]
        · simp only [hk, false_and, if_false]
          by_cases hk2 : k < xs.length
          · have e1 : k < min xs.length 1024 := by omega
            have e2 : k < min (xs.length + 1) 1024 := by omega
            simp only [e1, e2, if_true, hk2]
          · have e1 : ¬ k < min xs.length 1024 := by omega
            have e2 : ¬ k < min (xs.length + 1) 1024 := by omega
            simp only [e1, e2, if_false]
    · rw [if_neg hfull]
      have hn : 1024 ≤ xs.length := by
        rw [h1] at hfull
        omega
      refine ⟨by rw [h1]; omega, h2, fun k => ?_⟩
      rw [h3, getD_append_sample]
      by_cases hk : k < 1024
      · have e1 : k < min xs.length 1024 := by omega
        have e2 : k < min (xs.length + 1) 1024 := by omega
        have e3 : k < xs.length := by omega
        simp only [e1, e2, e3, if_true]
      · have e1 : ¬ k < min xs.length 1024 := by omega
        have e2 : ¬ k < min (xs.length + 1) 1024 := by omega
        simp only [e1, e2, if_false]

/-- The accumulation loop of `autocorrelation`: the sum of the terms and their number. -/
theorem sum_count_loop {α : Type} [LinearOrderedField α] (f : Nat → α) (n : Nat) :
    (List.range n).foldl (fun (acc : α × Nat) (i : Nat) => (acc.1 + f i, acc.2 + 1)) (0, 0) =
      (∑ i in Finset.range n, f i, n) := by
  induction n with
  | zero => rfl
  | succ n ih =>
    rw [List.range_succ, List.foldl_append, ih]
    simp only [List.foldl_cons, List.foldl_nil, Finset.sum_range_succ]

/-- The member `autocorrelation` in closed form: the mean of the `size - lag` products, or
`0` when there is none. -/
theorem autocorrelation_eq {α : Type} [LinearOrderedField α] (data : List α) (size lag : Nat) :
    autocorrelation data size lag =
      if size - lag > 0 then
        (∑ i in Finset.range (size - lag), data.getD i 0 * data.getD (i + lag) 0) /
          ((size - lag : Nat) : α)
      else 0 := by
  unfold autocorrelation
  simp only [sum_count_loop (fun i => data.getD i 0 * data.getD (i + lag) 0)]

/-- The lags `extractF0Mean` visits are `32, 33, ..., 212`. -/
theorem mem_f0Periods (p : Nat) : p ∈ f0Periods ↔ 32 ≤ p ∧ p < 213 := by
  have e : f0Periods = List.range' 32 181 := by
    unfold f0Periods
    simp only [AUDIO_SAMPLE_RATE, AUDIO_BUFFER_SIZE, Nat.reduceDiv, Nat.reduceSub]
    rw [List.takeWhile_eq_self_iff]
    intro x hx
    rw [List.mem_range'_1] at hx
    rw [decide_eq_true_iff]
    omega
  rw [e, List.mem_range'_1]

/-- The running maximum of `extractF0Mean` over a list of lags `ps`: the result bounds
every visited correlation from above, and is either the start value `(0, 0)` or a visited
lag together with its strictly positive correlation. -/
theorem f0Loop_spec {α : Type} [LinearOrderedField α] (corr : Nat → α) (ps : List Nat) :
    (∀ p, p ∈ ps → corr p ≤
      (ps.foldl (fun (acc : α × Nat) (period : Nat) =>
        if corr period > acc.1 then (corr period, period) else acc) (0, 0)).1) ∧
    (ps.foldl (fun (acc : α × Nat) (period : Nat) =>
        if corr period > acc.1 then (corr period, period) else acc) (0, 0) = (0, 0) ∨
      ((ps.foldl (fun (acc : α × Nat) (period : Nat) =>
        if corr period > acc.1 then (corr period, period) else acc) (0, 0)).2 ∈ ps ∧
       (ps.foldl (fun (acc : α × Nat) (period : Nat) =>
        if corr period > acc.1 then (corr period, period) else acc) (0, 0)).1 =
        corr (ps.foldl (fun (acc : α × Nat) (period : Nat) =>
          if corr period > acc.1 then (corr period, period) else acc) (0, 0)).2 ∧
       0 < (ps.foldl (fun (acc : α × Nat) (period : Nat) =>
        if corr period > acc.1 then (corr period, period) else acc) (0, 0)).1)) := by
  induction ps using List.reverseRecOn with
  | nil =>
    exact ⟨fun p hp => absurd hp (List.not_mem_nil p), Or.inl rfl⟩
  | append_singleton ps q ih =>
    obtain ⟨h1, h2⟩ := ih
    rw [List.foldl_append]
    simp only [List.foldl_cons, List.foldl_nil]
    generalize ps.foldl (fun (acc : α × Nat) (period : Nat) =>
        if corr period > acc.1 then (corr period, period) else acc) (0, 0) = r at h1 h2 ⊢
    have hr0 : 0 ≤ r.1 := by
      rcases h2 with h | ⟨_, _, h⟩
      · rw [h]
      · exact le_of_lt h
    by_cases hgt : corr q > r.1
    · rw [if_pos hgt]
      refine ⟨fun p hp => ?_, Or.inr ⟨List.mem_append_right _ (List.mem_singleton_self q), rfl,
        lt_of_le_of_lt hr0 hgt⟩⟩
      rcases List.mem_append.mp hp with hp | hp
      · exact le_of_lt (lt_of_le_of_lt (h1 p hp) hgt)
      · rw [List.mem_singleton.mp hp]
    · rw [if_neg hgt]
      refine ⟨fun p hp => ?_, ?_⟩
      · rcases List.mem_append.mp hp with hp | hp
        · exact h1 p hp
        · rw [List.mem_singleton.mp hp]
          exact not_lt.mp hgt
      · rcases h2 with h | ⟨ha, hb, hc⟩
        · exact Or.inl h
        · exact Or.inr ⟨List.mem_append_left _ ha, hb, hc⟩

/-- When some visited lag has a strictly positive autocorrelation, `extractF0Mean` returns
`16000 / p` for a visited lag `p` whose autocorrelation is maximal among the visited lags. -/
theorem extractF0Mean_of_pos {α : Type} [LinearOrderedField α]
    (s : ArduinoSpeechFeatureExtractor α) (q : Nat) (hq : 32 ≤ q ∧ q < 213)
    (hpos : 0 < autocorrelation s.audio_buffer 1024 q) :
    ∃ p : Nat, 32 ≤ p ∧ p < 213 ∧ extractF0Mean s = 16000 / (p : α) ∧
      ∀ p', 32 ≤ p' → p' < 213 →
        autocorrelation s.audio_buffer 1024 p' ≤ autocorrelation s.audio_buffer 1024 p := by
  obtain ⟨h1, h2⟩ := f0Loop_spec (fun p => autocorrelation s.audio_buffer 1024 p) f0Periods
  unfold extractF0Mean
  simp only [AUDIO_BUFFER_SIZE, AUDIO_SAMPLE_RATE, Nat.cast_ofNat]
  generalize f0Periods.foldl (fun (acc : α × Nat) (period : Nat) =>
      if autocorrelation s.audio_buffer 1024 period > acc.1
        then (autocorrelation s.audio_buffer 1024 period, period) else acc) (0, 0) = r
    at h1 h2 ⊢
  rcases h2 with h | ⟨ha, hb, hc⟩
  · exfalso
    have := h1 q ((mem_f0Periods q).mpr hq)
    rw [h] at this
    exact absurd hpos (not_lt.mpr this)
  · have hm := (mem_f0Periods r.2).mp ha
    refine ⟨r.2, hm.1, hm.2, ?_, ?_⟩
    · rw [if_pos (by omega)]
    · intro p' hp1 hp2
      have := h1 p' ((mem_f0Periods p').mpr ⟨hp1, hp2⟩)
      rw [hb] at this
      exact this

/-- When no visited lag has a strictly positive autocorrelation, `extractF0Mean` returns
the default `150`. -/
theorem extractF0Mean_of_nonpos {α : Type} [LinearOrderedField α]
    (s : ArduinoSpeechFeatureExtractor α)
    (h : ∀ p, 32 ≤ p → p < 213 → autocorrelation s.audio_buffer 1024 p ≤ 0) :
    extractF0Mean s = 150 := by
  obtain ⟨h1, h2⟩ := f0Loop_spec (fun p => autocorrelation s.audio_buffer 1024 p) f0Periods
  unfold extractF0Mean
  simp only [AUDIO_BUFFER_SIZE, AUDIO_SAMPLE_RATE, Nat.cast_ofNat]
  generalize f0Periods.foldl (fun (acc : α × Nat) (period : Nat) =>
      if autocorrelation s.audio_buffer 1024 period > acc.1
        then (autocorrelation s.audio_buffer 1024 period, period) else acc) (0, 0) = r
    at h1 h2 ⊢
  rcases h2 with h0 | ⟨ha, hb, hc⟩
  · rw [h0, if_neg (lt_irrefl _)]
  · exfalso
    have hm := (mem_f0Periods r.2).mp ha
    have := h r.2 hm.1 hm.2
    rw [← hb] at this
    exact absurd hc (not_lt.mpr this)

/-- On an all-zero buffer every autocorrelation is zero. -/
theorem autocorrelation_zero {α : Type} [LinearOrderedField α] (data : List α)
    (hz : ∀ i, data.getD i 0 = 0) (size lag : Nat) : autocorrelation data size lag = 0 := by
  rw [autocorrelation_eq]
  have hsum : ∑ i in Finset.range (size - lag), data.getD i 0 * data.getD (i + lag) 0 = 0 := by
    apply Finset.sum_eq_zero
    intro i _
    rw [hz i, zero_mul]
  rw [hsum, zero_div]
  split_ifs <;> rfl

/-- On an all-zero buffer both block energies of `extractJitter` are zero. -/
theorem jitterBlock_zero {α : Type} [LinearOrderedField α] (data : List α)
    (hz : ∀ i, data.getD i 0 = 0) (period i : Nat) : jitterBlock data period i = (0, 0) := by
  unfold jitterBlock
  refine foldl_preserves (fun (acc : α × α) => acc = (0, 0)) _ _ ?_ _ rfl
  intro acc j _ hacc
  rw [hacc]
  simp only [hz, mul_zero, add_zero, ite_self]

/-- On an all-zero buffer the outer loop of `extractJitter` exits with its accumulator
unchanged, provided it is given one unit of fuel more than the number of blocks. -/
theorem jitterLoop_zero {α : Type} [LinearOrderedField α] (data : List α)
    (hz : ∀ i, data.getD i 0 = 0) (period : Nat) (fuel : Nat) :
    ∀ (i : Nat) (acc : α × Nat), (1024 : Int) - (period : Int) ≤ (i : Int) + fuel * period →
      jitterLoop data period (fuel + 1) i acc = some acc := by
  induction fuel with
  | zero =>
    intro i acc h
    unfold jitterLoop
    simp only [AUDIO_BUFFER_SIZE, Nat.cast_ofNat]
    rw [if_neg (by push_cast at h; omega)]
  | succ fuel ih =>
    intro i acc h
    unfold jitterLoop
    simp only [AUDIO_BUFFER_SIZE, Nat.cast_ofNat, jitterBlock_zero data hz, lt_irrefl, and_self,
      if_false, gt_iff_lt]
    split_ifs
    · exact ih (i + period) acc (by push_cast at h ⊢; linarith)
    · rfl

/-- The truncation `(int)(16000 / 150.0f)` is `106`. -/
theorem toInt_default_period {α : Type} [LinearOrderedField α] [FloorRing α] :
    (toInt ((16000 : α) / 150)).toNat = 106 := by
  have h0 : (0 : α) ≤ 16000 / 150 := by positivity
  have hf : ⌊(16000 : α) / 150⌋ = 106 := by
    rw [Int.floor_eq_iff]
    constructor <;> norm_num
  unfold toInt
  rw [if_pos h0, hf]
  rfl

/-- The four extractors on an all-zero buffer: the fallbacks `150`, `15`, `0.01`, `0.05`. -/
theorem zero_buffer_defaults {α : Type} [LinearOrderedField α] [FloorRing α] (log10 : α → α)
    (s : ArduinoSpeechFeatureExtractor α) (hz : ∀ i, s.audio_buffer.getD i 0 = 0)
    (fuel : Nat) (hf : 9 ≤ fuel) :
    extractF0Mean s = 150 ∧ extractHNR log10 s = 15 ∧ extractJitter fuel s = some 0.01 ∧
    extractShimmer s = 0.05 := by
  have hF0 : extractF0Mean s = 150 :=
    extractF0Mean_of_nonpos s (fun p _ _ => le_of_eq (autocorrelation_zero _ hz _ _))
  refine ⟨hF0, ?_, ?_, ?_⟩
  · unfold extractHNR
    have hn : (List.range' 1 (AUDIO_BUFFER_SIZE - 1)).foldl
        (fun (acc : α) (i : Nat) =>
          let diff := s.audio_buffer.getD i 0 - s.audio_buffer.getD (i - 1) 0
          acc + diff * diff) 0 = 0 := by
      refine foldl_preserves (fun (acc : α) => acc = 0) _ _ ?_ _ rfl
      intro acc i _ hacc
      rw [hacc]
      simp only [hz, sub_self, mul_zero, add_zero]
    simp only [hn, zero_div, lt_irrefl, gt_iff_lt, if_false]
  · unfold extractJitter
    rw [hF0]
    have hg : ¬ ((150 : α) < 50 ∨ (150 : α) > 500) := by
      intro h
      rcases h with h | h <;> norm_num at h
    simp only [if_neg hg, AUDIO_SAMPLE_RATE, Nat.cast_ofNat]
    rw [toInt_default_period]
    obtain ⟨f', rfl⟩ : ∃ f', fuel = f' + 1 := ⟨fuel - 1, by omega⟩
    rw [jitterLoop_zero s.audio_buffer hz 106 f' 106 (0, 0) (by push_cast; omega)]
    simp only [lt_irrefl, gt_iff_lt, if_false]
  · unfold extractShimmer
    have hs : (List.range' 1 (AUDIO_BUFFER_SIZE - 1)).foldl
        (fun (acc : α × Nat) (i : Nat) =>
          let curr_amp := absF (s.audio_buffer.getD i 0)
          let prev_amp := absF (s.audio_buffer.getD (i - 1) 0)
          if prev_amp > 0.001 then (acc.1 + absF (curr_amp - prev_amp) / prev_amp, acc.2 + 1)
          else acc) (0, 0) = (0, 0) := by
      refine foldl_preserves (fun (acc : α × Nat) => acc = (0, 0)) _ _ ?_ _ rfl
      intro acc i _ hacc
      rw [hacc]
      have ha : absF (0 : α) = 0 := by
        unfold absF
        rw [if_neg (lt_irrefl _), neg_zero]
      have hsmall : ¬ ((0 : α) > 0.001) := by norm_num
      simp only [hz, ha, if_neg hsmall]
    simp only [hs, lt_irrefl, gt_iff_lt, if_false]

/-- Reading the buffer of `pulseExtractor`. -/
theorem pulse_getD (i : Nat) :
    pulseExtractor.audio_buffer.getD i 0 = if i < 1024 ∧ i % 213 = 0 then 1 else 0 := by
  unfold pulseExtractor
  simp only [List.getD_eq_getElem?_getD, List.getElem?_map]
  by_cases h1 : i < 1024
  · rw [List.getElem?_range h1]
    by_cases h2 : i % 213 = 0
    · simp only [Option.map_some', h2, if_true, Option.getD_some, h1, and_self]
    · simp only [Option.map_some', h2, if_false, Option.getD_some, and_false]
  · rw [List.getElem?_eq_none (by simpa using h1), if_neg (fun h => h1 h.1)]
    rfl

/-- The result of `extractF0Mean` is the default `150` or `16000 / p` for a visited lag. -/
theorem extractF0Mean_cases {α : Type} [LinearOrderedField α]
    (s : ArduinoSpeechFeatureExtractor α) :
    extractF0Mean s = 150 ∨ ∃ p : Nat, 32 ≤ p ∧ p < 213 ∧ extractF0Mean s = 16000 / (p : α) := by
  by_cases h : ∃ q, 32 ≤ q ∧ q < 213 ∧ 0 < autocorrelation s.audio_buffer 1024 q
  · obtain ⟨q, hq1, hq2, hq3⟩ := h
    obtain ⟨p, hp1, hp2, hp3, -⟩ := extractF0Mean_of_pos s q ⟨hq1, hq2⟩ hq3
    exact Or.inr ⟨p, hp1, hp2, hp3⟩
  · refine Or.inl (extractF0Mean_of_nonpos s (fun p hp1 hp2 => ?_))
    by_contra hc
    exact h ⟨p, hp1, hp2, not_le.mp hc⟩

/-- The result of `extractF0Mean` lies in `[75, 500]`. -/
theorem extractF0Mean_range {α : Type} [LinearOrderedField α]
    (s : ArduinoSpeechFeatureExtractor α) :
    75 ≤ extractF0Mean s ∧ extractF0Mean s ≤ 500 := by
  rcases extractF0Mean_cases s with h | ⟨p, hp1, hp2, h⟩
  · rw [h]
    constructor <;> norm_num
  · rw [h]
    have h32 : (32 : α) ≤ (p : α) := by exact_mod_cast hp1
    have h212 : (p : α) ≤ 212 := by exact_mod_cast Nat.lt_succ_iff.mp hp2
    have hpos : (0 : α) < (p : α) := by linarith
    constructor
    · rw [le_div_iff₀ hpos]
      linarith
    · rw [div_le_iff₀ hpos]
      linarith

/-- The period `(int)(16000 / f0)` that `extractJitter` derives from the result of
`extractF0Mean` is the lag found, or `106` for the default; it lies in `32..212`. -/
theorem jitter_period_range {α : Type} [LinearOrderedField α] [FloorRing α]
    (s : ArduinoSpeechFeatureExtractor α) :
    32 ≤ (toInt ((AUDIO_SAMPLE_RATE : α) / extractF0Mean s)).toNat ∧
    (toInt ((AUDIO_SAMPLE_RATE : α) / extractF0Mean s)).toNat ≤ 212 := by
  simp only [AUDIO_SAMPLE_RATE, Nat.cast_ofNat]
  rcases extractF0Mean_cases s with h | ⟨p, hp1, hp2, h⟩
  · rw [h, toInt_default_period]
    constructor <;> decide
  · rw [h]
    have h32 : (32 : α) ≤ (p : α) := by exact_mod_cast hp1
    have hpos : (0 : α) < (p : α) := by linarith
    have e : (16000 : α) / (16000 / (p : α)) = ((p : Int) : α) := by
      rw [Int.cast_natCast]
      field_simp
    have e2 : toInt ((16000 : α) / (16000 / (p : α))) = (p : Int) := by
      unfold toInt
      rw [e, if_pos (by rw [Int.cast_natCast]; exact le_of_lt hpos), Int.floor_intCast]
    rw [e2, Int.toNat_natCast]
    constructor <;> omega

/-- With a period of at least one sample the outer loop of `extractJitter` exits, provided
it is given one unit of fuel more than the number of blocks. -/
theorem jitterLoop_terminates {α : Type} [LinearOrderedField α] (data : List α)
    (period : Nat) (fuel : Nat) :
    ∀ (i : Nat) (acc : α × Nat), (1024 : Int) - (period : Int) ≤ (i : Int) + fuel * period →
      ∃ r, jitterLoop data period (fuel + 1) i acc = some r := by
  induction fuel with
  | zero =>
    intro i acc h
    unfold jitterLoop
    simp only [AUDIO_BUFFER_SIZE, Nat.cast_ofNat]
    rw [if_neg (by push_cast at h; omega)]
    exact ⟨acc, rfl⟩
  | succ fuel ih =>
    intro i acc h
    unfold jitterLoop
    simp only [AUDIO_BUFFER_SIZE, Nat.cast_ofNat]
    have h' : (1024 : Int) - (period : Int) ≤ ((i + period : Nat) : Int) + fuel * period := by
      push_cast at h ⊢
      linarith
    split_ifs
    · exact ih (i + period) _ h'
    · exact ih (i + period) _ h'
    · exact ⟨acc, rfl⟩

/-- The accumulation loop of `signal_power`: a sum over `i < n`. -/
theorem sum_loop {α : Type} [LinearOrderedField α] (f : Nat → α) (n : Nat) :
    (List.range n).foldl (fun (acc : α) (i : Nat) => acc + f i) 0 =
      ∑ i in Finset.range n, f i := by
  induction n with
  | zero => rfl
  | succ n ih =>
    rw [List.range_succ, List.foldl_append, ih]
    simp only [List.foldl_cons, List.foldl_nil, Finset.sum_range_succ]

/-- The accumulation loop of `noise_power`: a sum over `1 ≤ i ≤ n`. -/
theorem sum_loop_from_one {α : Type} [LinearOrderedField α] (g : Nat → α) (n : Nat) :
    (List.range' 1 n).foldl (fun (acc : α) (i : Nat) => acc + g i) 0 =
      ∑ i in Finset.range n, g (i + 1) := by
  induction n with
  | zero => rfl
  | succ n ih =>
    rw [List.range'_1_concat, List.foldl_append, ih]
    simp only [List.foldl_cons, List.foldl_nil, Finset.sum_range_succ, Nat.add_comm 1 n]

/-- The signal power in closed form. -/
theorem hnrSignalPower_eq {α : Type} [LinearOrderedField α]
    (s : ArduinoSpeechFeatureExtractor α) :
    hnrSignalPower s =
      (∑ i in Finset.range 1024, s.audio_buffer.getD i 0 * s.audio_buffer.getD i 0) / 1024 := by
  unfold hnrSignalPower
  simp only [AUDIO_BUFFER_SIZE, Nat.cast_ofNat]
  rw [sum_loop (fun i => s.audio_buffer.getD i 0 * s.audio_buffer.getD i 0)]

/-- The noise power in closed form. -/
theorem hnrNoisePower_eq {α : Type} [LinearOrderedField α]
    (s : ArduinoSpeechFeatureExtractor α) :
    hnrNoisePower s =
      (∑ i in Finset.range 1023,
        (s.audio_buffer.getD (i + 1) 0 - s.audio_buffer.getD i 0) *
          (s.audio_buffer.getD (i + 1) 0 - s.audio_buffer.getD i 0)) / 1023 := by
  unfold hnrNoisePower
  simp only [AUDIO_BUFFER_SIZE, Nat.reduceSub, Nat.cast_ofNat]
  rw [sum_loop_from_one (fun i => (s.audio_buffer.getD i 0 - s.audio_buffer.getD (i - 1) 0) *
    (s.audio_buffer.getD i 0 - s.audio_buffer.getD (i - 1) 0))]
  simp only [Nat.add_sub_cancel]

/-- The member `extractHNR` in terms of its two powers. -/
theorem extractHNR_eq {α : Type} [LinearOrderedField α] (log10 : α → α)
    (s : ArduinoSpeechFeatureExtractor α) :
    extractHNR log10 s =
      if hnrNoisePower s > 0 then 10 * log10 (hnrSignalPower s / hnrNoisePower s) else 15 :=
  rfl

/-- The signal power is never negative. -/
theorem hnrSignalPower_nonneg {α : Type} [LinearOrderedField α]
    (s : ArduinoSpeechFeatureExtractor α) : 0 ≤ hnrSignalPower s := by
  rw [hnrSignalPower_eq]
  apply div_nonneg
  · exact Finset.sum_nonneg (fun i _ => mul_self_nonneg _)
  · norm_num

/-- A buffer with zero signal power has zero noise power. -/
theorem hnrNoisePower_of_signal_zero {α : Type} [LinearOrderedField α]
    (s : ArduinoSpeechFeatureExtractor α) (h : hnrSignalPower s = 0) : hnrNoisePower s = 0 := by
  rw [hnrSignalPower_eq, div_eq_zero_iff] at h
  have hsum : ∑ i in Finset.range 1024, s.audio_buffer.getD i 0 * s.audio_buffer.getD i 0 = 0 := by
    rcases h with h | h
    · exact h
    · norm_num at h
  have hall : ∀ i, i < 1024 → s.audio_buffer.getD i 0 = 0 := by
    intro i hi
    have := (Finset.sum_eq_zero_iff_of_nonneg (fun i _ => mul_self_nonneg _)).mp hsum i
      (Finset.mem_range.mpr hi)
    exact mul_self_eq_zero.mp this
  rw [hnrNoisePower_eq]
  have hz : ∑ i in Finset.range 1023,
      (s.audio_buffer.getD (i + 1) 0 - s.audio_buffer.getD i 0) *
        (s.audio_buffer.getD (i + 1) 0 - s.audio_buffer.getD i 0) = 0 := by
    apply Finset.sum_eq_zero
    intro i hi
    have hi' := Finset.mem_range.mp hi
    rw [hall (i + 1) (by omega), hall i (by omega), sub_self, mul_zero]
  rw [hz, zero_div]

/-- Exact reading (no rounding, no underflow): in `extractHNR` a strictly positive noise
power forces a strictly positive signal power, so the argument of `log10` is strictly
positive whenever that branch is taken, and a buffer with zero signal power has zero noise
power and yields the default `15`. -/
theorem extractHNR_log_argument_positive_exact {α : Type} [LinearOrderedField α] (log10 : α → α)
    (s t : ArduinoSpeechFeatureExtractor α) (hn : 0 < hnrNoisePower s)
    (hz : hnrSignalPower t = 0) :
    0 < hnrSignalPower s ∧ 0 < hnrSignalPower s / hnrNoisePower s ∧
    extractHNR log10 s = 10 * log10 (hnrSignalPower s / hnrNoisePower s) ∧
    hnrNoisePower t = 0 ∧ extractHNR log10 t = 15 := by
  have hs : 0 < hnrSignalPower s := by
    rcases lt_or_eq_of_le (hnrSignalPower_nonneg s) with h | h
    · exact h
    · exfalso
      have := hnrNoisePower_of_signal_zero s h.symm
      rw [this] at hn
      exact lt_irrefl _ hn
  have ht := hnrNoisePower_of_signal_zero t hz
  refine ⟨hs, div_pos hs hn, ?_, ht, ?_⟩
  · rw [extractHNR_eq, if_pos hn]
  · rw [extractHNR_eq, ht, if_neg (lt_irrefl _)]

end AudioFeatures

/-! ## Binary32 arithmetic: known values -/

/-- The exponent function on a few numbers, among them the two ends of its fast range. -/
theorem natLog2_known_values :
    natLog2 1 = 0 ∧ natLog2 2 = 1 ∧ natLog2 3 = 1 ∧ natLog2 4 = 2 ∧ natLog2 1023 = 9 ∧
    natLog2 1024 = 10 ∧ natLog2 (2 ^ 4096 - 1) = 4095 ∧ natLog2 (2 ^ 4096) = 4096 ∧
    floorLog2 (3 / 8) = -2 ∧ floorLog2 (1 / 2) = -1 ∧ floorLog2 1 = 0 ∧ floorLog2 (7 / 2) = 1 := by
  decide!

/-- Rounding on values whose binary32 and binary64 neighbours are known: a decimal
fraction, the two kinds of tie (down and up to the even neighbour), the largest finite
number and the overflow threshold, the subnormal range, and a negative value. -/
theorem roundQ_known_values :
    roundQ binary32 (1 / 10) = .fin (13421773 / 134217728) ∧
    roundQ binary64 (1 / 10) = .fin (3602879701896397 / 36028797018963968) ∧
    roundQ binary32 16777217 = .fin 16777216 ∧
    roundQ binary32 16777219 = .fin 16777220 ∧
    roundQ binary32 (pow2 128 - pow2 103 - 1) = .fin (pow2 128 - pow2 104) ∧
    roundQ binary32 (pow2 128 - pow2 103) = .inf false ∧
    roundQ binary32 (-(pow2 128)) = .inf true ∧
    roundQ binary32 (pow2 (-149)) = .fin (pow2 (-149)) ∧
    roundQ binary32 (pow2 (-150)) = .fin 0 ∧
    roundQ binary32 (3 * pow2 (-151)) = .fin (pow2 (-149)) ∧
    roundQ binary32 (pow2 (-126) - pow2 (-150)) = .fin (pow2 (-126)) ∧
    roundQ binary32 (-(1 / 3)) = .fin (-(11184811 / 33554432)) ∧
    floatLit 1e38 = .fin 99999996802856924650656260769173209088 := by
  decide!

/-- The special cases of the operations: an infinity minus itself, zero times an infinity
and zero over zero are NaN; a finite value over an infinity is zero; a non-zero value over
zero is an infinity. -/
theorem floatVal_special_cases :
    FloatVal.sub binary32 (.inf false) (.inf false) = .nan ∧
    FloatVal.add binary32 (.inf false) (.inf true) = .nan ∧
    FloatVal.mul binary32 (.fin 0) (.inf true) = .nan ∧
    FloatVal.div binary32 (.fin 0) (.fin 0) = .nan ∧
    FloatVal.div binary32 (.inf true) (.inf false) = .nan ∧
    FloatVal.div binary32 (.fin 1) (.inf true) = .fin 0 ∧
    FloatVal.div binary32 (.fin (-1)) (.fin 0) = .inf true ∧
    FloatVal.add binary32 (.fin 1) (.inf true) = .inf true ∧
    FloatVal.mul binary32 (.fin (-2)) (.inf true) = .inf false ∧
    FloatVal.lt .nan (.fin 0) = false ∧ FloatVal.le .nan .nan = false ∧
    FloatVal.lt (.inf true) (.fin 0) = true ∧ FloatVal.le (.fin 0) (.inf false) = true := by
  decide!

/-! ## Binary32 arithmetic: rounding to nearest -/

/-- `roundHalfEven x` is an integer nearest to `x`, and the even one when `x` lies half way
between two integers. -/
theorem roundHalfEven_spec (x : ℚ) :
    |x - (roundHalfEven x : ℚ)| ≤ 1 / 2 ∧
    (|x - (roundHalfEven x : ℚ)| = 1 / 2 → roundHalfEven x % 2 = 0) := by
  have h0 : (0 : ℚ) ≤ x - (⌊x⌋ : ℚ) := sub_nonneg.mpr (Int.floor_le x)
  have h1 : x - (⌊x⌋ : ℚ) < 1 := by
    have := Int.lt_floor_add_one x
    linarith
  unfold roundHalfEven
  simp only
  by_cases ha : x - (⌊x⌋ : ℚ) < 1 / 2
  · rw [if_pos ha, abs_of_nonneg h0]
    exact ⟨le_of_lt ha, fun h => absurd h (ne_of_lt ha)⟩
  · rw [if_neg ha]
    by_cases hb : x - (⌊x⌋ : ℚ) > 1 / 2
    · rw [if_pos hb]
      have hneg : x - ((⌊x⌋ + 1 : Int) : ℚ) < 0 := by
        push_cast
        linarith
      rw [abs_of_neg hneg]
      push_cast
      constructor
      · linarith
      · intro h
        exfalso
        linarith
    · rw [if_neg hb]
      have hr : x - (⌊x⌋ : ℚ) = 1 / 2 := le_antisymm (not_lt.mp hb) (not_lt.mp ha)
      by_cases hc : ⌊x⌋ % 2 = 0
      · rw [if_pos hc, abs_of_nonneg h0]
        exact ⟨le_of_eq hr, fun _ => hc⟩
      · rw [if_neg hc]
        have hneg : x - ((⌊x⌋ + 1 : Int) : ℚ) < 0 := by
          push_cast
          linarith
        rw [abs_of_neg hneg]
        push_cast
        refine ⟨by linarith, fun _ => ?_⟩
        omega

/-- `halvings` with enough fuel computes the exponent of the leading bit. -/
theorem halvings_spec (fuel n : Nat) (h1 : 1 ≤ n) (hf : n ≤ fuel) :
    2 ^ halvings fuel n ≤ n ∧ n < 2 ^ (halvings fuel n + 1) := by
  induction fuel generalizing n with
  | zero => omega
  | succ k ih =>
    unfold halvings
    by_cases h2 : n < 2
    · rw [if_pos h2]
      have : n = 1 := by omega
      subst this
      decide
    · rw [if_neg h2]
      obtain ⟨ha, hb⟩ := ih (n / 2) (by omega) (by omega)
      rw [pow_succ] at hb ⊢
      rw [pow_succ, pow_succ]
      constructor <;> omega

/-- `log2Search j` computes the exponent of the leading bit of a number below
`2 ^ 2 ^ j`. -/
theorem log2Search_spec (j n : Nat) (h1 : 1 ≤ n) (h2 : n < 2 ^ 2 ^ j) :
    2 ^ log2Search j n ≤ n ∧ n < 2 ^ (log2Search j n + 1) := by
  induction j generalizing n with
  | zero =>
    have : n = 1 := by
      simp only [pow_zero, pow_one] at h2
      omega
    subst this
    decide
  | succ k ih =>
    unfold log2Search
    have hP : 0 < 2 ^ 2 ^ k := Nat.pow_pos (by decide)
    have hsq : 2 ^ 2 ^ (k + 1) = 2 ^ 2 ^ k * 2 ^ 2 ^ k := by
      rw [pow_succ 2 k, Nat.mul_two, pow_add]
    by_cases hc : 2 ^ 2 ^ k ≤ n
    · rw [if_pos hc]
      have hm1 : 1 ≤ n / 2 ^ 2 ^ k := (Nat.one_le_div_iff hP).mpr hc
      have hm2 : n / 2 ^ 2 ^ k < 2 ^ 2 ^ k := by
        rw [Nat.div_lt_iff_lt_mul hP, ← hsq]
        exact h2
      obtain ⟨ha, hb⟩ := ih (n / 2 ^ 2 ^ k) hm1 hm2
      constructor
      · rw [pow_add]
        calc 2 ^ 2 ^ k * 2 ^ log2Search k (n / 2 ^ 2 ^ k)
            ≤ 2 ^ 2 ^ k * (n / 2 ^ 2 ^ k) := Nat.mul_le_mul_left _ ha
          _ ≤ n := Nat.mul_div_le n _
      · rw [Nat.add_assoc, pow_add]
        calc n < 2 ^ 2 ^ k * (n / 2 ^ 2 ^ k + 1) := Nat.lt_mul_div_succ n hP
          _ ≤ 2 ^ 2 ^ k * 2 ^ (log2Search k (n / 2 ^ 2 ^ k) + 1) :=
              Nat.mul_le_mul_left _ hb
    · rw [if_neg hc]
      exact ih n h1 (not_le.mp hc)

/-- `natLog2 n` is the exponent of the leading bit of a positive `n`. -/
theorem natLog2_spec (n : Nat) (h1 : 1 ≤ n) :
    2 ^ natLog2 n ≤ n ∧ n < 2 ^ (natLog2 n + 1) := by
  unfold natLog2
  by_cases h : n < 2 ^ 2 ^ 12
  · rw [if_pos h]
    exact log2Search_spec 12 n h1 h
  · rw [if_neg h]
    exact halvings_spec n n h1 (le_refl _)

/-- `pow2` is the integer power of two. -/
theorem pow2_eq_zpow (e : Int) : pow2 e = (2 : ℚ) ^ e := by
  unfold pow2
  by_cases h : 0 ≤ e
  · rw [if_pos h]
    obtain ⟨k, rfl⟩ := Int.eq_ofNat_of_zero_le h
    simp only [Int.toNat_ofNat, Nat.cast_pow, Nat.cast_ofNat, zpow_natCast]
  · rw [if_neg h]
    obtain ⟨k, hk⟩ := Int.eq_ofNat_of_zero_le (show 0 ≤ -e by omega)
    have he : e = -(k : Int) := by omega
    subst he
    simp only [neg_neg, Int.toNat_ofNat, Nat.cast_pow, Nat.cast_ofNat, zpow_neg, zpow_natCast,
      one_div]

/-- `pow2` is positive. -/
theorem pow2_pos (e : Int) : 0 < pow2 e := by
  rw [pow2_eq_zpow]
  exact zpow_pos (by norm_num) e

/-- A quotient of two positive numbers with known leading bits lies within a factor of two
of the quotient of the leading bits. -/
theorem quotient_bracket (N D L M : Nat) (hD : 0 < D) (n1 : 2 ^ L ≤ N) (n2 : N < 2 ^ (L + 1))
    (d1 : 2 ^ M ≤ D) (d2 : D < 2 ^ (M + 1)) :
    (2 : ℚ) ^ ((L : Int) - (M : Int) - 1) ≤ (N : ℚ) / (D : ℚ) ∧
    (N : ℚ) / (D : ℚ) < (2 : ℚ) ^ ((L : Int) - (M : Int) + 1) := by
  have hdq : (0 : ℚ) < (D : ℚ) := by exact_mod_cast hD
  have n1q : (2 : ℚ) ^ L ≤ (N : ℚ) := by exact_mod_cast n1
  have n2q : (N : ℚ) < (2 : ℚ) ^ (L + 1) := by exact_mod_cast n2
  have d1q : (2 : ℚ) ^ M ≤ (D : ℚ) := by exact_mod_cast d1
  have d2q : (D : ℚ) < (2 : ℚ) ^ (M + 1) := by exact_mod_cast d2
  have hpd : (0 : ℚ) < (2 : ℚ) ^ M := by positivity
  have hpd2 : (0 : ℚ) < (2 : ℚ) ^ (M + 1) := by positivity
  constructor
  · have e : (2 : ℚ) ^ ((L : Int) - (M : Int) - 1) = (2 : ℚ) ^ L / (2 : ℚ) ^ (M + 1) := by
      rw [show ((L : Int) - (M : Int) - 1) = (L : Int) - ((M + 1 : Nat) : Int) by
        push_cast; ring]
      rw [zpow_sub₀ (by norm_num), zpow_natCast, zpow_natCast]
    rw [e, div_le_div_iff₀ hpd2 hdq]
    calc (2 : ℚ) ^ L * (D : ℚ) ≤ (N : ℚ) * (D : ℚ) :=
          mul_le_mul_of_nonneg_right n1q (le_of_lt hdq)
      _ ≤ (N : ℚ) * (2 : ℚ) ^ (M + 1) :=
          mul_le_mul_of_nonneg_left (le_of_lt d2q) (by positivity)
  · have e : (2 : ℚ) ^ ((L : Int) - (M : Int) + 1) = (2 : ℚ) ^ (L + 1) / (2 : ℚ) ^ M := by
      rw [show ((L : Int) - (M : Int) + 1) = ((L + 1 : Nat) : Int) - (M : Int) by
        push_cast; ring]
      rw [zpow_sub₀ (by norm_num), zpow_natCast, zpow_natCast]
    rw [e, div_lt_div_iff₀ hdq hpd]
    calc (N : ℚ) * (2 : ℚ) ^ M < (2 : ℚ) ^ (L + 1) * (2 : ℚ) ^ M :=
          mul_lt_mul_of_pos_right n2q hpd
      _ ≤ (2 : ℚ) ^ (L + 1) * (D : ℚ) :=
          mul_le_mul_of_nonneg_left d1q (by positivity)

/-- `floorLog2 a` is the exponent of a positive rational `a`:
`2 ^ floorLog2 a ≤ a < 2 ^ (floorLog2 a + 1)`. -/
theorem floorLog2_spec (a : ℚ) (ha : 0 < a) :
    pow2 (floorLog2 a) ≤ a ∧ a < pow2 (floorLog2 a + 1) := by
  have hnum : 0 < a.num := Rat.num_pos.mpr ha
  have hn1 : 1 ≤ a.num.natAbs := by omega
  have hd1 : 1 ≤ a.den := a.den_pos
  obtain ⟨n1, n2⟩ := natLog2_spec a.num.natAbs hn1
  obtain ⟨d1, d2⟩ := natLog2_spec a.den hd1
  have hval : (a.num.natAbs : ℚ) / (a.den : ℚ) = a := by
    have h1 : ((a.num.natAbs : Int) : ℚ) = (a.num : ℚ) := by
      rw [Int.natAbs_of_nonneg (le_of_lt hnum)]
    rw [← Int.cast_natCast a.num.natAbs, h1]
    exact Rat.num_div_den a
  obtain ⟨hlow, hhigh⟩ := quotient_bracket a.num.natAbs a.den (natLog2 a.num.natAbs)
    (natLog2 a.den) hd1 n1 n2 d1 d2
  rw [hval] at hlow hhigh
  unfold floorLog2
  simp only
  by_cases hc : a < pow2 ((natLog2 a.num.natAbs : Int) - (natLog2 a.den : Int))
  · rw [if_pos hc]
    constructor
    · rw [pow2_eq_zpow]
      exact hlow
    · rw [sub_add_cancel]
      exact hc
  · rw [if_neg hc]
    constructor
    · exact not_lt.mp hc
    · rw [pow2_eq_zpow]
      exact hhigh

/-- A finite result of `roundQ` is a multiple of the unit in the last place of `q` that
lies within half a unit of `q`: rounding is to nearest.  The unit is
`2 ^ (e - (prec - 1))` for the exponent `e` of `q`, or of the subnormal range. -/
theorem roundQ_nearest (f : FloatFormat) (q r : ℚ) (hq : q ≠ 0)
    (h : roundQ f q = FloatVal.fin r) :
    ∃ n : Int, r = (n : ℚ) * pow2 (max (floorLog2 |q|) f.emin - ((f.prec : Int) - 1)) ∧
      |q - r| ≤ pow2 (max (floorLog2 |q|) f.emin - ((f.prec : Int) - 1)) / 2 := by
  have hu := pow2_pos (max (floorLog2 |q|) f.emin - ((f.prec : Int) - 1))
  unfold roundQ at h
  rw [if_neg hq] at h
  simp only at h
  generalize pow2 (max (floorLog2 |q|) f.emin - ((f.prec : Int) - 1)) = u at h hu ⊢
  obtain ⟨hR, -⟩ := roundHalfEven_spec (|q| / u)
  generalize roundHalfEven (|q| / u) = R at h hR
  have hdist : |(|q| - (R : ℚ) * u)| ≤ u / 2 := by
    have e : |q| - (R : ℚ) * u = u * (|q| / u - (R : ℚ)) := by
      field_simp
      ring
    rw [e, abs_mul, abs_of_pos hu]
    calc u * |(|q| / u - (R : ℚ))| ≤ u * (1 / 2) :=
          mul_le_mul_of_nonneg_left hR (le_of_lt hu)
      _ = u / 2 := by ring
  split_ifs at h with h1 h2
  · have hr := FloatVal.fin.inj h
    refine ⟨-R, ?_, ?_⟩
    · rw [← hr]
      push_cast
      ring
    · rw [← hr]
      have e : q - -((R : ℚ) * u) = -(|q| - (R : ℚ) * u) := by
        rw [abs_of_neg h2]
        ring
      rw [e, abs_neg]
      exact hdist
  · have hr := FloatVal.fin.inj h
    refine ⟨R, hr.symm, ?_⟩
    rw [← hr]
    have e : q - (R : ℚ) * u = |q| - (R : ℚ) * u := by
      rw [abs_of_nonneg (not_lt.mp h2)]
    rw [e]
    exact hdist

/-- A finite result of `roundQ` has at most `prec` bits: its magnitude is at most
`2 ^ prec` units in the last place of `q` (exactly that many only when rounding carries
into the next binade). -/
theorem roundQ_mantissa_bound (f : FloatFormat) (q r : ℚ) (hq : q ≠ 0)
    (h : roundQ f q = FloatVal.fin r) :
    |r| ≤ (2 : ℚ) ^ f.prec * pow2 (max (floorLog2 |q|) f.emin - ((f.prec : Int) - 1)) := by
  have hu := pow2_pos (max (floorLog2 |q|) f.emin - ((f.prec : Int) - 1))
  have ha : 0 < |q| := abs_pos.mpr hq
  obtain ⟨-, hlt⟩ := floorLog2_spec |q| ha
  have hle : pow2 (floorLog2 |q| + 1) ≤ pow2 (max (floorLog2 |q|) f.emin + 1) := by
    rw [pow2_eq_zpow, pow2_eq_zpow]
    exact zpow_le_zpow_right₀ (by norm_num) (by omega)
  have hsplit : pow2 (max (floorLog2 |q|) f.emin + 1) =
      (2 : ℚ) ^ f.prec * pow2 (max (floorLog2 |q|) f.emin - ((f.prec : Int) - 1)) := by
    rw [pow2_eq_zpow, pow2_eq_zpow, ← zpow_natCast, ← zpow_add₀ (by norm_num)]
    congr 1
    ring
  obtain ⟨n, hn, hd⟩ := roundQ_nearest f q r hq h
  generalize pow2 (max (floorLog2 |q|) f.emin - ((f.prec : Int) - 1)) = u at hu hsplit hn hd ⊢
  have hqa : |q| < (2 : ℚ) ^ f.prec * u := by
    rw [← hsplit]
    exact lt_of_lt_of_le hlt hle
  have hr1 : |r| < ((2 : ℚ) ^ f.prec + 1) * u := by
    have : |r| ≤ |q| + |q - r| := by
      have := abs_sub_abs_le_abs_sub r q
      rw [abs_sub_comm r q] at this
      linarith
    nlinarith
  have hrn : |r| = (|n| : ℚ) * u := by
    rw [hn, abs_mul, abs_of_pos hu]
  rw [hrn] at hr1 ⊢
  have hn1 : (|n| : ℚ) < (2 : ℚ) ^ f.prec + 1 := lt_of_mul_lt_mul_right hr1 (le_of_lt hu)
  have hn2 : |n| < 2 ^ f.prec + 1 := by exact_mod_cast hn1
  have hn3 : |n| ≤ 2 ^ f.prec := by omega
  have hn4 : (|n| : ℚ) ≤ (2 : ℚ) ^ f.prec := by exact_mod_cast hn3
  exact mul_le_mul_of_nonneg_right hn4 (le_of_lt hu)

/-! ## Binary32 arithmetic: the order of C -/

/-- The order of C on binary floating-point values: `a <= b` and `b < c` give `a < c`. -/
theorem floatVal_lt_of_le_lt (a b c : FloatVal) (h1 : FloatVal.le a b = true)
    (h2 : FloatVal.lt b c = true) : FloatVal.lt a c = true := by
  rcases a with _ | s | x <;> rcases b with _ | t | y <;> rcases c with _ | u | z <;>
    simp only [FloatVal.le, FloatVal.lt, Bool.false_eq_true, Bool.and_eq_true, Bool.or_eq_true,
      Bool.not_eq_true', decide_eq_true_eq] at h1 h2 ⊢
  · rcases h1 with h1 | h1 <;> simp_all
  · rcases h1 with h1 | h1 <;> simp_all
  · simp_all
  · simp_all
  · simp_all
  · simp_all
  · simp_all
  · exact h1.trans_lt h2

/-- When `b <= a` holds, `a < b` does not. -/
theorem floatVal_lt_eq_false_of_le (a b : FloatVal) (h : FloatVal.le b a = true) :
    FloatVal.lt a b = false := by
  rcases a with _ | s | x <;> rcases b with _ | t | y <;>
    simp only [FloatVal.le, FloatVal.lt, Bool.false_eq_true, Bool.and_eq_true, Bool.or_eq_true,
      Bool.not_eq_true', decide_eq_true_eq, decide_eq_false_iff_not, not_lt,
      Bool.and_eq_false_imp] at h ⊢
  · rcases h with h | h <;> simp_all
  · simp_all
  · simp_all
  · exact h

/-- When neither side is NaN and `a < b` does not hold, `b <= a` holds. -/
theorem floatVal_le_of_lt_eq_false (a b : FloatVal) (ha : a ≠ FloatVal.nan)
    (hb : b ≠ FloatVal.nan) (h : FloatVal.lt a b = false) : FloatVal.le b a = true := by
  rcases a with _ | s | x <;> rcases b with _ | t | y <;>
    simp only [FloatVal.le, FloatVal.lt, Bool.false_eq_true, Bool.and_eq_true, Bool.or_eq_true,
      Bool.not_eq_true', decide_eq_true_eq, decide_eq_false_iff_not, not_lt,
      Bool.and_eq_false_imp, ne_eq, not_true_eq_false] at h ha hb ⊢
  · cases s <;> cases t <;> simp_all
  · simp_all
  · simp_all
  · exact h

/-- A value that compares below another is not NaN. -/
theorem floatVal_ne_nan_of_lt (a b : FloatVal) (h : FloatVal.lt a b = true) :
    a ≠ FloatVal.nan := by
  intro ha
  subst ha
  simp [FloatVal.lt] at h

/-- Contrapositive of `floatVal_lt_of_le_lt`. -/
theorem floatVal_lt_eq_false_of_le_of_lt_eq_false (a b c : FloatVal)
    (h1 : FloatVal.le b a = true) (h2 : FloatVal.lt b c = false) : FloatVal.lt a c = false := by
  cases h : FloatVal.lt a c
  · rfl
  · rw [floatVal_lt_of_le_lt b a c h1 h] at h2
    exact absurd h2 (by decide)

/-! ## Binary32: demo mode -/

/-- A loop over the indices of a list that reads the list at its index is a fold over the
list. -/
theorem foldl_range_getD {α β : Type} (g : β → α → β) (d : α) (l : List α) (init : β) :
    (List.range l.length).foldl (fun acc i => g acc (l.getD i d)) init = l.foldl g init := by
  induction l using List.reverseRecOn generalizing init with
  | nil => rfl
  | append_singleton xs x ih =>
    rw [List.length_append, List.length_singleton, List.range_succ, List.foldl_append,
      List.foldl_append, List.foldl_cons, List.foldl_nil, List.foldl_cons, List.foldl_nil]
    have h1 : (List.range xs.length).foldl (fun acc i => g acc ((xs ++ [x]).getD i d)) init =
        (List.range xs.length).foldl (fun acc i => g acc (xs.getD i d)) init := by
      apply List.foldl_ext
      intro acc i hi
      have hi' : i < xs.length := List.mem_range.mp hi
      simp only [List.getD_eq_getElem?_getD, List.getElem?_append_left hi']
    have h2 : (xs ++ [x]).getD xs.length d = x := by
      simp only [List.getD_eq_getElem?_getD, List.getElem?_append_right (le_refl _),
        Nat.sub_self, List.getElem?_cons_zero, Option.getD_some]
    rw [h1, ih, h2]

/-- The four `double` thresholds of demo mode. -/
theorem doubleLit_thresholds :
    doubleLit 0.2 = .fin (3602879701896397 / 18014398509481984) ∧
    doubleLit 0.4 = .fin (3602879701896397 / 9007199254740992) ∧
    doubleLit 0.6 = .fin (5404319552844595 / 9007199254740992) ∧
    doubleLit 0.8 = .fin (3602879701896397 / 4503599627370496) := by
  decide!

/-- The five confidences of demo mode: each `double` literal converts to the `float` that
is nearest to the decimal. -/
theorem demo_confidences :
    FloatVal.round binary32 (doubleLit 0.75) = floatLit 0.75 ∧
    FloatVal.round binary32 (doubleLit 0.80) = floatLit 0.80 ∧
    FloatVal.round binary32 (doubleLit 0.85) = floatLit 0.85 ∧
    FloatVal.round binary32 (doubleLit 0.82) = floatLit 0.82 ∧
    FloatVal.round binary32 (doubleLit 0.78) = floatLit 0.78 := by
  decide!

/-- The `float` literals nearest the four thresholds. -/
theorem floatLit_thresholds :
    floatLit 0.2 = .fin (13421773 / 67108864) ∧
    floatLit 0.4 = .fin (13421773 / 33554432) ∧
    floatLit 0.6 = .fin (5033165 / 8388608) ∧
    floatLit 0.8 = .fin (13421773 / 16777216) := by
  decide!

/-- Demo mode on a ready window: the call succeeds, and class and confidence are chosen by
the first of the four comparisons that holds for the computed average. -/
theorem binary32_demo_cases (len : Nat) (hlen : len < 1000)
    (modelMode : Machine.TensorFlowLiteInference → Bool × Machine.TensorFlowLiteInference)
    (s : Machine.TensorFlowLiteInference) (hs : s.buffer_full = true) :
    (Machine.runInference len modelMode s).1 = true ∧
    ((FloatVal.lt (Machine.averageActivity s.input_buffer) (doubleLit 0.2) = true ∧
        (Machine.runInference len modelMode s).2.predicted_class = 0 ∧
        (Machine.runInference len modelMode s).2.confidence = floatLit 0.75) ∨
      (FloatVal.lt (Machine.averageActivity s.input_buffer) (doubleLit 0.2) = false ∧
        FloatVal.lt (Machine.averageActivity s.input_buffer) (doubleLit 0.4) = true ∧
        (Machine.runInference len modelMode s).2.predicted_class = 1 ∧
        (Machine.runInference len modelMode s).2.confidence = floatLit 0.80) ∨
      (FloatVal.lt (Machine.averageActivity s.input_buffer) (doubleLit 0.2) = false ∧
        FloatVal.lt (Machine.averageActivity s.input_buffer) (doubleLit 0.4) = false ∧
        FloatVal.lt (Machine.averageActivity s.input_buffer) (doubleLit 0.6) = true ∧
        (Machine.runInference len modelMode s).2.predicted_class = 2 ∧
        (Machine.runInference len modelMode s).2.confidence = floatLit 0.85) ∨
      (FloatVal.lt (Machine.averageActivity s.input_buffer) (doubleLit 0.2) = false ∧
        FloatVal.lt (Machine.averageActivity s.input_buffer) (doubleLit 0.4) = false ∧
        FloatVal.lt (Machine.averageActivity s.input_buffer) (doubleLit 0.6) = false ∧
        FloatVal.lt (Machine.averageActivity s.input_buffer) (doubleLit 0.8) = true ∧
        (Machine.runInference len modelMode s).2.predicted_class = 3 ∧
        (Machine.runInference len modelMode s).2.confidence = floatLit 0.82) ∨
      (FloatVal.lt (Machine.averageActivity s.input_buffer) (doubleLit 0.2) = false ∧
        FloatVal.lt (Machine.averageActivity s.input_buffer) (doubleLit 0.4) = false ∧
        FloatVal.lt (Machine.averageActivity s.input_buffer) (doubleLit 0.6) = false ∧
        FloatVal.lt (Machine.averageActivity s.input_buffer) (doubleLit 0.8) = false ∧
        (Machine.runInference len modelMode s).2.predicted_class = 4 ∧
        (Machine.runInference len modelMode s).2.confidence = floatLit 0.78)) := by
  obtain ⟨c1, c2, c3, c4, c5⟩ := demo_confidences
  unfold Machine.runInference
  simp only [hs, Bool.not_true, Bool.false_eq_true, if_false, if_pos hlen, c1, c2, c3, c4, c5]
  generalize Machine.averageActivity s.input_buffer = a
  refine ⟨trivial, ?_⟩
  cases h2 : FloatVal.lt a (doubleLit 0.2)
  · cases h4 : FloatVal.lt a (doubleLit 0.4)
    · cases h6 : FloatVal.lt a (doubleLit 0.6)
      · cases h8 : FloatVal.lt a (doubleLit 0.8)
        · simp
        · simp
      · simp
    · simp
  · simp

/-- The four thresholds of demo mode are finite and increase. -/
theorem doubleLit_thresholds_order :
    doubleLit 0.2 ≠ FloatVal.nan ∧ doubleLit 0.4 ≠ FloatVal.nan ∧
    doubleLit 0.6 ≠ FloatVal.nan ∧ doubleLit 0.8 ≠ FloatVal.nan ∧
    FloatVal.lt (doubleLit 0.4) (doubleLit 0.2) = false ∧
    FloatVal.lt (doubleLit 0.6) (doubleLit 0.2) = false ∧
    FloatVal.lt (doubleLit 0.6) (doubleLit 0.4) = false ∧
    FloatVal.lt (doubleLit 0.8) (doubleLit 0.2) = false ∧
    FloatVal.lt (doubleLit 0.8) (doubleLit 0.4) = false ∧
    FloatVal.lt (doubleLit 0.8) (doubleLit 0.6) = false ∧
    FloatVal.lt (doubleLit 0.8) (doubleLit 0.8) = false := by
  decide!

/-- Each `float` literal nearest a threshold lies in the band that starts at the
threshold. -/
theorem floatLit_thresholds_bands :
    FloatVal.le (doubleLit 0.2) (floatLit 0.2) = true ∧
    FloatVal.lt (floatLit 0.2) (doubleLit 0.4) = true ∧
    FloatVal.le (doubleLit 0.4) (floatLit 0.4) = true ∧
    FloatVal.lt (floatLit 0.4) (doubleLit 0.6) = true ∧
    FloatVal.le (doubleLit 0.6) (floatLit 0.6) = true ∧
    FloatVal.lt (floatLit 0.6) (doubleLit 0.8) = true ∧
    FloatVal.le (doubleLit 0.8) (floatLit 0.8) = true := by
  decide!

/-- The sum loop of demo mode, stopped after `n` iterations, follows any sequence `S` that
starts at `0` and obeys the recurrence of the loop body. -/
theorem binary32_sum_loop_running (buf : List FloatVal) (S : Nat → FloatVal)
    (hS0 : S 0 = FloatVal.fin 0)
    (hS : ∀ k, k < 450 → S (k + 1) = FloatVal.add binary32 (S k) (buf.getD k (.fin 0)))
    (n : Nat) (hn : n ≤ 450) :
    (List.range n).foldl (fun acc i => FloatVal.add binary32 acc (buf.getD i (.fin 0)))
      (FloatVal.fin 0) = S n := by
  induction n with
  | zero => simp only [List.range_zero, List.foldl_nil, hS0]
  | succ k ih =>
    rw [List.range_succ, List.foldl_append, ih (by omega), List.foldl_cons, List.foldl_nil,
      hS k (by omega)]

/-- The computed average is the last term of the running binary32 sum, divided by 450 in
binary32. -/
theorem binary32_averageActivity_running (buf : List FloatVal) (S : Nat → FloatVal)
    (hS0 : S 0 = FloatVal.fin 0)
    (hS : ∀ k, k < 450 → S (k + 1) = FloatVal.add binary32 (S k) (buf.getD k (.fin 0))) :
    Machine.averageActivity buf = FloatVal.div binary32 (S 450) (.fin 450) := by
  have e : kSequenceLength * kFeatureDim = 450 := by decide
  have h0 : FloatVal.round binary32 (doubleLit 0.0) = FloatVal.fin 0 := by decide!
  have h450 : roundQ binary32 ((450 : Nat) : ℚ) = FloatVal.fin 450 := by decide!
  unfold Machine.averageActivity
  rw [e, h0, h450, binary32_sum_loop_running buf S hS0 hS 450 (le_refl _)]

/-! ## Binary32: the speech classifier -/

/-- The function `analyzeSpeechArray` in binary32, in terms of its score `z`. -/
theorem binary32_analyzeSpeechArray_eq (m : SpeechModel FloatVal) (mathType : FloatFormat)
    (exp : FloatVal → FloatVal) (x : List FloatVal) :
    Machine.analyzeSpeechArray m mathType exp x =
      { probability := Machine.sigmoid mathType exp (Machine.speechScore m x)
        predicted_class :=
          if FloatVal.lt (floatLit 0.5)
            (Machine.sigmoid mathType exp (Machine.speechScore m x)) then 1 else 0
        confidence :=
          if (if FloatVal.lt (floatLit 0.5)
              (Machine.sigmoid mathType exp (Machine.speechScore m x)) then (1 : Int) else 0) = 1
          then Machine.sigmoid mathType exp (Machine.speechScore m x)
          else FloatVal.sub binary32 (floatLit 1.0)
            (Machine.sigmoid mathType exp (Machine.speechScore m x))
        is_valid := true } :=
  rfl

/-- A NaN score passes both saturation tests of `sigmoid`, and a library `exp` that maps
NaN to NaN makes the result NaN. -/
theorem binary32_sigmoid_nan (mathType : FloatFormat) (exp : FloatVal → FloatVal)
    (hexp : exp FloatVal.nan = FloatVal.nan) :
    Machine.sigmoid mathType exp FloatVal.nan = FloatVal.nan := by
  have h1 : FloatVal.lt (floatLit 10.0) FloatVal.nan = false := by decide!
  unfold Machine.sigmoid
  rw [h1]
  simp only [FloatVal.lt, FloatVal.neg, hexp, Bool.false_eq_true, if_false]
  cases h : floatLit 1.0 <;> simp only [FloatVal.add, FloatVal.div, FloatVal.round]

/-- A result whose score is NaN: probability and confidence are NaN, the class is `0`. -/
theorem binary32_analyzeSpeechArray_of_nan_score (m : SpeechModel FloatVal)
    (mathType : FloatFormat) (exp : FloatVal → FloatVal)
    (hexp : exp FloatVal.nan = FloatVal.nan) (x : List FloatVal)
    (hz : Machine.speechScore m x = FloatVal.nan) :
    (Machine.analyzeSpeechArray m mathType exp x).probability = FloatVal.nan ∧
    (Machine.analyzeSpeechArray m mathType exp x).predicted_class = 0 ∧
    (Machine.analyzeSpeechArray m mathType exp x).confidence = FloatVal.nan ∧
    (Machine.analyzeSpeechArray m mathType exp x).is_valid = true := by
  rw [binary32_analyzeSpeechArray_eq, hz, binary32_sigmoid_nan mathType exp hexp]
  have h1 : FloatVal.lt (floatLit 0.5) FloatVal.nan = false := by decide!
  have h2 : FloatVal.sub binary32 (floatLit 1.0) FloatVal.nan = FloatVal.nan := by decide!
  simp [h1, h2]

/-- The two saturation branches of `sigmoid` in binary32 and its middle branch: above
`10.0f` the value is `1`, below `-10.0f` it is `0`, and at `10.0f`, at `0` and elsewhere
between the guards it is the rounded quotient. -/
theorem binary32_sigmoid_cases (mathType : FloatFormat) (exp : FloatVal → FloatVal) :
    Machine.sigmoid mathType exp (floatLit 10.5) = .fin 1 ∧
    Machine.sigmoid mathType exp (.inf false) = .fin 1 ∧
    Machine.sigmoid mathType exp (FloatVal.neg (floatLit 10.5)) = .fin 0 ∧
    Machine.sigmoid mathType exp (.inf true) = .fin 0 ∧
    Machine.sigmoid mathType exp (floatLit 10.0) =
      FloatVal.round binary32
        (FloatVal.div mathType (.fin 1) (FloatVal.add mathType (.fin 1) (exp (.fin (-10))))) ∧
    Machine.sigmoid mathType exp (.fin 0) =
      FloatVal.round binary32
        (FloatVal.div mathType (.fin 1) (FloatVal.add mathType (.fin 1) (exp (.fin 0)))) := by
  have h1 : floatLit 1.0 = .fin 1 := by decide!
  have h0 : floatLit 0.0 = .fin 0 := by decide!
  have a1 : FloatVal.lt (floatLit 10.0) (floatLit 10.5) = true := by decide!
  have a2 : FloatVal.lt (floatLit 10.0) (.inf false) = true := by decide!
  have a3 : FloatVal.lt (floatLit 10.0) (FloatVal.neg (floatLit 10.5)) = false := by decide!
  have a4 : FloatVal.lt (FloatVal.neg (floatLit 10.5)) (FloatVal.neg (floatLit 10.0)) = true := by
    decide!
  have a5 : FloatVal.lt (floatLit 10.0) (.inf true) = false := by decide!
  have a6 : FloatVal.lt (.inf true) (FloatVal.neg (floatLit 10.0)) = true := by decide!
  have a7 : FloatVal.lt (floatLit 10.0) (floatLit 10.0) = false := by decide!
  have a8 : FloatVal.lt (floatLit 10.0) (.fin (-10)) = false := by decide!
  have a9 : FloatVal.lt (floatLit 10.0) (.fin 0) = false := by decide!
  have a10 : FloatVal.lt (.fin 0) (.fin (-10)) = false := by decide!
  have n10 : FloatVal.neg (floatLit 10.0) = .fin (-10) := by decide!
  have n0 : FloatVal.neg (.fin 0) = .fin 0 := by decide!
  refine ⟨?_, ?_, ?_, ?_, ?_, ?_⟩
  · simp only [Machine.sigmoid, a1, if_true, h1]
  · simp only [Machine.sigmoid, a2, if_true, h1]
  · simp only [Machine.sigmoid, a3, a4, if_true, h0, Bool.false_eq_true, if_false]
  · simp only [Machine.sigmoid, a5, a6, if_true, h0, Bool.false_eq_true, if_false]
  · simp only [Machine.sigmoid, n10, a7, a8, h1, Bool.false_eq_true, if_false]
  · simp only [Machine.sigmoid, n10, a9, a10, h1, n0, Bool.false_eq_true, if_false]

/-- The classifier in binary32 on `ordinaryFeatures`: the normalised features and the score
under the parameters of the header, and, under zero bias and zero weights with a library
`exp` that maps `0` to `1`, the score `0`, probability `0.5`, class `0` and confidence
`0.5`. -/
theorem binary32_classifier_known_values (mathType : FloatFormat)
    (exp : FloatVal → FloatVal) (hexp : exp (.fin 0) = .fin 1)
    (hmt : mathType = binary32 ∨ mathType = binary64) :
    Machine.normalizeSpeechFeatures Machine.generatedSpeechModel ordinaryFeatures =
      [.fin (-9164817 / 16777216), .fin (-8835351 / 8388608), .fin (-7280243 / 8388608),
       .fin (-12576235 / 16777216), .fin (-11887271 / 33554432), .fin (-11395241 / 8388608),
       .fin (-7358101 / 8388608), .fin (-2119735 / 4194304)] ∧
    Machine.speechScore Machine.generatedSpeechModel ordinaryFeatures =
      .fin (-14563595 / 8388608) ∧
    Machine.speechScore Machine.zeroSpeechModel ordinaryFeatures = .fin 0 ∧
    (Machine.analyzeSpeechArray Machine.zeroSpeechModel mathType exp
      ordinaryFeatures).probability = .fin (1 / 2) ∧
    (Machine.analyzeSpeechArray Machine.zeroSpeechModel mathType exp
      ordinaryFeatures).predicted_class = 0 ∧
    (Machine.analyzeSpeechArray Machine.zeroSpeechModel mathType exp
      ordinaryFeatures).confidence = .fin (1 / 2) := by
  have hz : Machine.speechScore Machine.zeroSpeechModel ordinaryFeatures = .fin 0 := by
    decide!
  have hs : Machine.sigmoid mathType exp (.fin 0) = .fin (1 / 2) := by
    rw [(binary32_sigmoid_cases mathType exp).2.2.2.2.2, hexp]
    rcases hmt with h | h <;> subst h <;> decide!
  have h1 : FloatVal.lt (floatLit 0.5) (.fin (1 / 2)) = false := by decide!
  have h2 : FloatVal.sub binary32 (floatLit 1.0) (.fin (1 / 2)) = .fin (1 / 2) := by decide!
  have h3 : ¬ ((0 : Int) = 1) := by decide
  refine ⟨by decide!, by decide!, hz, ?_, ?_, ?_⟩ <;>
    rw [binary32_analyzeSpeechArray_eq, hz, hs] <;>
    simp only [h1, h2, h3, Bool.false_eq_true, if_false]

/-! ## Binary32: `extractHNR` -/

/-- The member `extractHNR()` in binary32, in terms of its two locals. -/
theorem binary32_extractHNR_eq (mathType : FloatFormat) (log10 : FloatVal → FloatVal)
    (s : ArduinoSpeechFeatureExtractor FloatVal) :
    Machine.extractHNR mathType log10 s =
      if FloatVal.lt (floatLit 0.0) (Machine.hnrNoisePower s) then
        FloatVal.round binary32 (FloatVal.mul mathType (floatLit 10.0)
          (log10 (FloatVal.div binary32 (Machine.hnrSignalPower s) (Machine.hnrNoisePower s))))
      else floatLit 15.0 :=
  rfl

/-- The samples of `underflowExtractor`. -/
theorem underflowExtractor_getD (i : Nat) (hi : i < 1024) :
    underflowExtractor.audio_buffer.getD i (.fin 0) =
      if i % 2 = 0 then FloatVal.fin (5 / 4 * pow2 (-76))
      else FloatVal.fin (-(5 / 4 * pow2 (-76))) := by
  simp only [underflowExtractor, List.getD_eq_getElem?_getD, List.getElem?_map,
    List.getElem?_range hi, Option.map_some', Option.getD_some]

/-- The binary32 operations met on `underflowExtractor`: the squares of the samples
underflow to zero, the first differences are exact, and their squares round up to the
smallest subnormal number `2 ^ (-149)`. -/
theorem underflow_steps :
    FloatVal.mul binary32 (.fin (5 / 4 * pow2 (-76))) (.fin (5 / 4 * pow2 (-76))) = .fin 0 ∧
    FloatVal.mul binary32 (.fin (-(5 / 4 * pow2 (-76)))) (.fin (-(5 / 4 * pow2 (-76)))) =
      .fin 0 ∧
    FloatVal.mul binary32
      (FloatVal.sub binary32 (.fin (5 / 4 * pow2 (-76))) (.fin (-(5 / 4 * pow2 (-76)))))
      (FloatVal.sub binary32 (.fin (5 / 4 * pow2 (-76))) (.fin (-(5 / 4 * pow2 (-76))))) =
      .fin (pow2 (-149)) ∧
    FloatVal.mul binary32
      (FloatVal.sub binary32 (.fin (-(5 / 4 * pow2 (-76)))) (.fin (5 / 4 * pow2 (-76))))
      (FloatVal.sub binary32 (.fin (-(5 / 4 * pow2 (-76)))) (.fin (5 / 4 * pow2 (-76)))) =
      .fin (pow2 (-149)) ∧
    FloatVal.add binary32 (.fin 0) (.fin 0) = .fin 0 ∧
    floatLit 0.0 = .fin 0 := by
  decide!

/-- Adding `2 ^ (-149)` to a binary32 accumulator 1023 times from zero is exact. -/
theorem subnormal_sum :
    (List.range' 1 1023).foldl
      (fun (acc : FloatVal) (_ : Nat) => FloatVal.add binary32 acc (.fin (pow2 (-149))))
      (FloatVal.fin 0) = .fin (1023 * pow2 (-149)) := by
  decide!

/-- On `underflowExtractor` the computed signal power is zero. -/
theorem underflow_signal_power : Machine.hnrSignalPower underflowExtractor = .fin 0 := by
  obtain ⟨h1, h2, -, -, h5, h6⟩ := underflow_steps
  have e : AUDIO_BUFFER_SIZE = 1024 := rfl
  have hsum : (List.range 1024).foldl
      (fun (acc : FloatVal) (i : Nat) =>
        FloatVal.add binary32 acc
          (FloatVal.mul binary32 (underflowExtractor.audio_buffer.getD i (.fin 0))
            (underflowExtractor.audio_buffer.getD i (.fin 0))))
      (FloatVal.fin 0) = .fin 0 := by
    refine foldl_preserves (fun acc => acc = FloatVal.fin 0) _ _ ?_ _ rfl
    intro b i hi hb
    have hi' : i < 1024 := List.mem_range.mp hi
    rw [hb, underflowExtractor_getD i hi']
    split_ifs
    · rw [h1, h5]
    · rw [h2, h5]
  unfold Machine.hnrSignalPower
  rw [e, h6, hsum]
  decide!

/-- On `underflowExtractor` the computed noise power is the smallest subnormal number. -/
theorem underflow_noise_power :
    Machine.hnrNoisePower underflowExtractor = .fin (pow2 (-149)) := by
  obtain ⟨-, -, h3, h4, -, h6⟩ := underflow_steps
  have e : AUDIO_BUFFER_SIZE = 1024 := rfl
  have hbody : ∀ (acc : FloatVal) (i : Nat), i ∈ List.range' 1 1023 →
      (fun (acc : FloatVal) (i : Nat) =>
        let diff := FloatVal.sub binary32 (underflowExtractor.audio_buffer.getD i (.fin 0))
          (underflowExtractor.audio_buffer.getD (i - 1) (.fin 0))
        FloatVal.add binary32 acc (FloatVal.mul binary32 diff diff)) acc i =
      (fun (acc : FloatVal) (_ : Nat) =>
        FloatVal.add binary32 acc (.fin (pow2 (-149)))) acc i := by
    intro acc i hi
    obtain ⟨h1, h2⟩ := List.mem_range'_1.mp hi
    have hi' : i < 1024 := by omega
    have hj : i - 1 < 1024 := by omega
    simp only
    rw [underflowExtractor_getD i hi', underflowExtractor_getD (i - 1) hj]
    by_cases hp : i % 2 = 0
    · have hq : ¬ (i - 1) % 2 = 0 := by omega
      rw [if_pos hp, if_neg hq, h3]
    · have hq : (i - 1) % 2 = 0 := by omega
      rw [if_neg hp, if_pos hq, h4]
  unfold Machine.hnrNoisePower
  rw [e, h6, List.foldl_ext _ _ _ hbody, subnormal_sum]
  decide!

/-- On the all-zero buffer both computed powers are zero and `extractHNR` returns the
default `15`. -/
theorem binary32_extractHNR_silent (mathType : FloatFormat) (log10 : FloatVal → FloatVal) :
    Machine.hnrSignalPower Machine.silentExtractor = .fin 0 ∧
    Machine.hnrNoisePower Machine.silentExtractor = .fin 0 ∧
    Machine.extractHNR mathType log10 Machine.silentExtractor = .fin 15 := by
  have hg : ∀ i, Machine.silentExtractor.audio_buffer.getD i (.fin 0) = .fin 0 := by
    intro i
    simp only [Machine.silentExtractor, List.getD_eq_getElem?_getD, List.getElem?_replicate]
    split_ifs <;> rfl
  have e : AUDIO_BUFFER_SIZE = 1024 := rfl
  have h0 : floatLit 0.0 = .fin 0 := by decide!
  have hm : FloatVal.mul binary32 (.fin 0) (.fin 0) = .fin 0 := by decide!
  have ha : FloatVal.add binary32 (.fin 0) (.fin 0) = .fin 0 := by decide!
  have hsub : FloatVal.sub binary32 (.fin 0) (.fin 0) = .fin 0 := by decide!
  have hs : Machine.hnrSignalPower Machine.silentExtractor = .fin 0 := by
    have hsum : (List.range 1024).foldl
        (fun (acc : FloatVal) (i : Nat) =>
          FloatVal.add binary32 acc
            (FloatVal.mul binary32 (Machine.silentExtractor.audio_buffer.getD i (.fin 0))
              (Machine.silentExtractor.audio_buffer.getD i (.fin 0))))
        (FloatVal.fin 0) = .fin 0 := by
      refine foldl_preserves (fun acc => acc = FloatVal.fin 0) _ _ ?_ _ rfl
      intro b i _ hb
      rw [hb, hg, hm, ha]
    unfold Machine.hnrSignalPower
    rw [e, h0, hsum]
    decide!
  have hn : Machine.hnrNoisePower Machine.silentExtractor = .fin 0 := by
    have hsum : (List.range' 1 (1024 - 1)).foldl
        (fun (acc : FloatVal) (i : Nat) =>
          let diff := FloatVal.sub binary32
            (Machine.silentExtractor.audio_buffer.getD i (.fin 0))
            (Machine.silentExtractor.audio_buffer.getD (i - 1) (.fin 0))
          FloatVal.add binary32 acc (FloatVal.mul binary32 diff diff))
        (FloatVal.fin 0) = .fin 0 := by
      refine foldl_preserves (fun acc => acc = FloatVal.fin 0) _ _ ?_ _ rfl
      intro b i _ hb
      simp only
      rw [hb, hg, hg, hsub, hm, ha]
    unfold Machine.hnrNoisePower
    rw [e, h0, hsum]
    decide!
  refine ⟨hs, hn, ?_⟩
  rw [binary32_extractHNR_eq, hs, hn]
  have hlt : FloatVal.lt (floatLit 0.0) (.fin 0) = false := by decide!
  have h15 : floatLit 15.0 = .fin 15 := by decide!
  rw [hlt, h15]
  rfl

/-! ## Claims -/

/-- C1 (the code departs from the claim).  After a clear and the fifty pushes of
`rampSamples`, whose sample number `k` holds the value `k`, slot 0 of the window holds
sample 2 and not sample 1, and slots 48 and 49 both hold sample 50: the window keeps the 49
most recent samples and a second copy of the last one, not the 50 most recent samples. -/
theorem addDataPoint_fifty_pushes_lose_oldest :
    (rampSamples.getD 0 []).getD 0 0 = 1 ∧
    (rampSamples.foldl addDataPoint (clearBuffer freshObject)).input_buffer.getD 0 0 = 2 ∧
    (rampSamples.foldl addDataPoint (clearBuffer freshObject)).input_buffer.getD 432 0 = 50 ∧
    (rampSamples.foldl addDataPoint (clearBuffer freshObject)).input_buffer.getD 441 0 = 50 := by
  have hl : freshObject.input_buffer.length = 450 := by
    simp only [freshObject, TensorFlowLiteInference.new, List.length_replicate]
  have hn : rampSamples.length = 50 := by
    simp only [rampSamples, List.length_map, List.length_range]
  have h := pushes_contents freshObject hl rampSamples
  rw [hn] at h
  have h0 := h 0 0 (by decide) (by decide) (by decide)
  have h48 := h 48 0 (by decide) (by decide) (by decide)
  have h49 := h 49 0 (by decide) (by decide) (by decide)
  simp only [Nat.lt_irrefl, if_false, Nat.reduceLT, if_true, Nat.reduceSub, Nat.reduceAdd,
    Nat.reduceMul, rampSamples_getD] at h0 h48 h49
  refine ⟨?_, ?_, ?_, ?_⟩
  · rw [rampSamples_getD]; norm_num
  · rw [h0]; norm_num
  · rw [h48]; norm_num
  · rw [h49]; norm_num

/-- C2.  After a clear and any sequence of pushes, `isBufferReady` is true exactly when at
least fifty samples were pushed. -/
theorem isBufferReady_iff_fifty_pushes (s : TensorFlowLiteInference) (xs : List (List ℚ)) :
    isBufferReady (xs.foldl addDataPoint (clearBuffer s)) = true ↔ 50 ≤ xs.length := by
  unfold isBufferReady
  rw [(pushes_fields s xs).2.1]
  by_cases h : xs.length < 50
  · simp only [h, if_true, Bool.false_eq_true, false_iff]; omega
  · simp only [h, if_false, true_iff]; omega

/-- Counterexample to C3 as stated.  The ready window whose 450 scalars all are `0.2f` has
the arithmetic mean `0.2f = 13421773 / 67108864`, which lies in `[0.2, 0.4)`, the band of
class `1` and confidence `0.80`; the binary32 running sum loses part of it, the computed
average `13421739 / 67108864` is below `0.2`, and `runInference` reports class `0` with
confidence `0.75`.  The ready window `spikeWindow` has the smaller mean `0.2`, and
`runInference` reports class `1` for it: the class is not monotone in the mean. -/
theorem runInference_demo_band_edge_window :
    (∑ i in Finset.range 450,
      ((Machine.constantWindow (floatLit 0.2)).input_buffer.getD i (.fin 0)).toRat) / 450 =
      13421773 / 67108864 ∧
    (0.2 : ℚ) ≤ 13421773 / 67108864 ∧ (13421773 / 67108864 : ℚ) < 0.4 ∧
    Machine.averageActivity (Machine.constantWindow (floatLit 0.2)).input_buffer =
      FloatVal.fin (13421739 / 67108864) ∧
    (13421739 / 67108864 : ℚ) < 0.2 ∧
    (Machine.runInference 0 (fun s => (false, s))
      (Machine.constantWindow (floatLit 0.2))).1 = true ∧
    (Machine.runInference 0 (fun s => (false, s))
      (Machine.constantWindow (floatLit 0.2))).2.predicted_class = 0 ∧
    (Machine.runInference 0 (fun s => (false, s))
      (Machine.constantWindow (floatLit 0.2))).2.confidence = FloatVal.fin (3 / 4) ∧
    (∑ i in Finset.range 450,
      (Machine.spikeWindow.input_buffer.getD i (.fin 0)).toRat) / 450 = 0.2 ∧
    (0.2 : ℚ) ≤ 13421773 / 67108864 ∧
    (Machine.runInference 0 (fun s => (false, s)) Machine.spikeWindow).1 = true ∧
    (Machine.runInference 0 (fun s => (false, s)) Machine.spikeWindow).2.predicted_class = 1 := by
  have hv : ∀ i, i ∈ Finset.range 450 →
      ((Machine.constantWindow (floatLit 0.2)).input_buffer.getD i (.fin 0)).toRat =
        13421773 / 67108864 := by
    intro i hi
    have hi' : i < 450 := Finset.mem_range.mp hi
    simp only [Machine.constantWindow, List.getD_eq_getElem?_getD, List.getElem?_replicate,
      if_pos hi', Option.getD_some, floatLit_thresholds.1, FloatVal.toRat]
  have hw : ∀ i, i ∈ Finset.range 449 →
      (Machine.spikeWindow.input_buffer.getD (i + 1) (.fin 0)).toRat = 0 := by
    intro i hi
    have hi' : i < 449 := Finset.mem_range.mp hi
    simp only [Machine.spikeWindow, List.getD_eq_getElem?_getD, List.getElem?_cons_succ,
      List.getElem?_replicate, if_pos hi', Option.getD_some, FloatVal.toRat]
  have ha : Machine.averageActivity (Machine.constantWindow (floatLit 0.2)).input_buffer =
      FloatVal.fin (13421739 / 67108864) := by
    have hlen : kSequenceLength * kFeatureDim =
        (Machine.constantWindow (floatLit 0.2)).input_buffer.length := by
      simp only [Machine.constantWindow, List.length_replicate]
      decide
    unfold Machine.averageActivity
    rw [hlen, foldl_range_getD]
    decide!
  have hs : Machine.averageActivity Machine.spikeWindow.input_buffer = floatLit 0.2 := by
    have hlen : kSequenceLength * kFeatureDim = Machine.spikeWindow.input_buffer.length := by
      simp only [Machine.spikeWindow, List.length_cons, List.length_replicate]
      decide
    unfold Machine.averageActivity
    rw [hlen, foldl_range_getD]
    decide!
  have hlt : FloatVal.lt
      (Machine.averageActivity (Machine.constantWindow (floatLit 0.2)).input_buffer)
      (doubleLit 0.2) = true := by
    rw [ha]
    decide!
  have hlt2 : FloatVal.lt (floatLit 0.2) (doubleLit 0.2) = false := by decide!
  have hlt4 : FloatVal.lt (floatLit 0.2) (doubleLit 0.4) = true := by decide!
  have hc : floatLit 0.75 = FloatVal.fin (3 / 4) := by decide!
  obtain ⟨hr, hb⟩ := binary32_demo_cases 0 (by decide) (fun s => (false, s))
    (Machine.constantWindow (floatLit 0.2)) rfl
  obtain ⟨hr', hb'⟩ := binary32_demo_cases 0 (by decide) (fun s => (false, s))
    Machine.spikeWindow rfl
  have hA : (Machine.runInference 0 (fun s => (false, s))
        (Machine.constantWindow (floatLit 0.2))).2.predicted_class = 0 ∧
      (Machine.runInference 0 (fun s => (false, s))
        (Machine.constantWindow (floatLit 0.2))).2.confidence = FloatVal.fin (3 / 4) := by
    rw [hlt] at hb
    rcases hb with ⟨-, h1, h2⟩ | ⟨h, -⟩ | ⟨h, -⟩ | ⟨h, -⟩ | ⟨h, -⟩
    · exact ⟨h1, h2.trans hc⟩
    all_goals exact absurd h (by decide)
  have hB : (Machine.runInference 0 (fun s => (false, s))
      Machine.spikeWindow).2.predicted_class = 1 := by
    rw [hs, hlt2, hlt4] at hb'
    rcases hb' with ⟨h, -⟩ | ⟨-, -, h1, -⟩ | ⟨-, h, -⟩ | ⟨-, h, -⟩ | ⟨-, h, -⟩
    · exact absurd h (by decide)
    · exact h1
    all_goals exact absurd h (by decide)
  refine ⟨?_, by norm_num, by norm_num, ha, by norm_num, hr, hA.1, hA.2, ?_, by norm_num, hr',
    hB⟩
  · rw [Finset.sum_congr rfl hv, Finset.sum_const, Finset.card_range]
    norm_num
  · rw [Finset.sum_range_succ', Finset.sum_congr rfl hw, Finset.sum_const_zero]
    simp only [Machine.spikeWindow, List.getD_cons_zero, FloatVal.toRat]
    norm_num

/-- C3 (as amended).  In demo mode (`model_data_len < 1000`) on a ready window,
`runInference` succeeds and bands the binary32 value `a` that it computes as the average:
the 450 scalars added one by one, in index order, to a `float` that starts at `0`, the sum
then divided by `450`, every operation rounded.  `a < 0.2` gives class `0` with confidence
`0.75f`, `0.2 <= a < 0.4` class `1` with `0.80f`, `0.4 <= a < 0.6` class `2` with `0.85f`,
`0.6 <= a < 0.8` class `3` with `0.82f`, and `0.8 <= a` or `a` NaN class `4` with `0.78f`,
the thresholds being `double` literals; exactly one case applies.  The computed averages
`0.2f`, `0.4f`, `0.6f`, `0.8f` give classes `1`, `2`, `3`, `4`, and of two ready windows
the one with the larger computed average never gets the smaller class. -/
theorem runInference_demo_bands_computed_average (len : Nat) (hlen : len < 1000)
    (modelMode : Machine.TensorFlowLiteInference → Bool × Machine.TensorFlowLiteInference)
    (s t : Machine.TensorFlowLiteInference)
    (hs : s.buffer_full = true) (ht : t.buffer_full = true)
    (S : Nat → FloatVal) (hS0 : S 0 = FloatVal.fin 0)
    (hS : ∀ k, k < 450 →
      S (k + 1) = FloatVal.add binary32 (S k) (s.input_buffer.getD k (.fin 0))) :
    Machine.averageActivity s.input_buffer = FloatVal.div binary32 (S 450) (.fin 450) ∧
    (Machine.runInference len modelMode s).1 = true ∧
    (FloatVal.lt (Machine.averageActivity s.input_buffer) (doubleLit 0.2) = true →
      (Machine.runInference len modelMode s).2.predicted_class = 0 ∧
      (Machine.runInference len modelMode s).2.confidence = floatLit 0.75) ∧
    (FloatVal.le (doubleLit 0.2) (Machine.averageActivity s.input_buffer) = true →
      FloatVal.lt (Machine.averageActivity s.input_buffer) (doubleLit 0.4) = true →
      (Machine.runInference len modelMode s).2.predicted_class = 1 ∧
      (Machine.runInference len modelMode s).2.confidence = floatLit 0.80) ∧
    (FloatVal.le (doubleLit 0.4) (Machine.averageActivity s.input_buffer) = true →
      FloatVal.lt (Machine.averageActivity s.input_buffer) (doubleLit 0.6) = true →
      (Machine.runInference len modelMode s).2.predicted_class = 2 ∧
      (Machine.runInference len modelMode s).2.confidence = floatLit 0.85) ∧
    (FloatVal.le (doubleLit 0.6) (Machine.averageActivity s.input_buffer) = true →
      FloatVal.lt (Machine.averageActivity s.input_buffer) (doubleLit 0.8) = true →
      (Machine.runInference len modelMode s).2.predicted_class = 3 ∧
      (Machine.runInference len modelMode s).2.confidence = floatLit 0.82) ∧
    (FloatVal.le (doubleLit 0.8) (Machine.averageActivity s.input_buffer) = true ∨
        Machine.averageActivity s.input_buffer = FloatVal.nan →
      (Machine.runInference len modelMode s).2.predicted_class = 4 ∧
      (Machine.runInference len modelMode s).2.confidence = floatLit 0.78) ∧
    (FloatVal.lt (Machine.averageActivity s.input_buffer) (doubleLit 0.2) = true ∨
      (FloatVal.le (doubleLit 0.2) (Machine.averageActivity s.input_buffer) = true ∧
        FloatVal.lt (Machine.averageActivity s.input_buffer) (doubleLit 0.4) = true) ∨
      (FloatVal.le (doubleLit 0.4) (Machine.averageActivity s.input_buffer) = true ∧
        FloatVal.lt (Machine.averageActivity s.input_buffer) (doubleLit 0.6) = true) ∨
      (FloatVal.le (doubleLit 0.6) (Machine.averageActivity s.input_buffer) = true ∧
        FloatVal.lt (Machine.averageActivity s.input_buffer) (doubleLit 0.8) = true) ∨
      FloatVal.le (doubleLit 0.8) (Machine.averageActivity s.input_buffer) = true ∨
      Machine.averageActivity s.input_buffer = FloatVal.nan) ∧
    (Machine.averageActivity s.input_buffer = floatLit 0.2 →
      (Machine.runInference len modelMode s).2.predicted_class = 1) ∧
    (Machine.averageActivity s.input_buffer = floatLit 0.4 →
      (Machine.runInference len modelMode s).2.predicted_class = 2) ∧
    (Machine.averageActivity s.input_buffer = floatLit 0.6 →
      (Machine.runInference len modelMode s).2.predicted_class = 3) ∧
    (Machine.averageActivity s.input_buffer = floatLit 0.8 →
      (Machine.runInference len modelMode s).2.predicted_class = 4) ∧
    (FloatVal.le (Machine.averageActivity s.input_buffer)
        (Machine.averageActivity t.input_buffer) = true →
      (Machine.runInference len modelMode s).2.predicted_class ≤
        (Machine.runInference len modelMode t).2.predicted_class) := by
  obtain ⟨hr, hb⟩ := binary32_demo_cases len hlen modelMode s hs
  obtain ⟨-, hb'⟩ := binary32_demo_cases len hlen modelMode t ht
  obtain ⟨n2, n4, n6, n8, o42, o62, o64, o82, o84, o86, o88⟩ := doubleLit_thresholds_order
  obtain ⟨f2, g2, f4, g4, f6, g6, f8⟩ := floatLit_thresholds_bands
  refine ⟨binary32_averageActivity_running s.input_buffer S hS0 hS, hr, ?_⟩
  generalize (Machine.runInference len modelMode s).2.predicted_class = c at hb ⊢
  generalize (Machine.runInference len modelMode s).2.confidence = conf at hb ⊢
  generalize (Machine.runInference len modelMode t).2.predicted_class = c' at hb' ⊢
  generalize (Machine.runInference len modelMode t).2.confidence = conf' at hb'
  generalize Machine.averageActivity s.input_buffer = a at hb ⊢
  generalize Machine.averageActivity t.input_buffer = a' at hb' ⊢
  generalize doubleLit 0.2 = d2 at *
  generalize doubleLit 0.4 = d4 at *
  generalize doubleLit 0.6 = d6 at *
  generalize doubleLit 0.8 = d8 at *
  have band2 : FloatVal.le d2 a = true → FloatVal.lt a d4 = true → c = 1 ∧ conf = floatLit 0.80 := by
    intro h h'
    have e2 := floatVal_lt_eq_false_of_le a d2 h
    rcases hb with ⟨a2, hc, hf⟩ | ⟨a2, a4, hc, hf⟩ | ⟨a2, a4, a6, hc, hf⟩ |
      ⟨a2, a4, a6, a8, hc, hf⟩ | ⟨a2, a4, a6, a8, hc, hf⟩ <;> simp_all
  have band3 : FloatVal.le d4 a = true → FloatVal.lt a d6 = true → c = 2 ∧ conf = floatLit 0.85 := by
    intro h h'
    have e4 := floatVal_lt_eq_false_of_le a d4 h
    have e2 := floatVal_lt_eq_false_of_le_of_lt_eq_false a d4 d2 h o42
    rcases hb with ⟨a2, hc, hf⟩ | ⟨a2, a4, hc, hf⟩ | ⟨a2, a4, a6, hc, hf⟩ |
      ⟨a2, a4, a6, a8, hc, hf⟩ | ⟨a2, a4, a6, a8, hc, hf⟩ <;> simp_all
  have band4 : FloatVal.le d6 a = true → FloatVal.lt a d8 = true → c = 3 ∧ conf = floatLit 0.82 := by
    intro h h'
    have e6 := floatVal_lt_eq_false_of_le a d6 h
    have e4 := floatVal_lt_eq_false_of_le_of_lt_eq_false a d6 d4 h o64
    have e2 := floatVal_lt_eq_false_of_le_of_lt_eq_false a d6 d2 h o62
    rcases hb with ⟨a2, hc, hf⟩ | ⟨a2, a4, hc, hf⟩ | ⟨a2, a4, a6, hc, hf⟩ |
      ⟨a2, a4, a6, a8, hc, hf⟩ | ⟨a2, a4, a6, a8, hc, hf⟩ <;> simp_all
  have band5 : FloatVal.le d8 a = true → c = 4 ∧ conf = floatLit 0.78 := by
    intro h
    have e8 := floatVal_lt_eq_false_of_le a d8 h
    have e6 := floatVal_lt_eq_false_of_le_of_lt_eq_false a d8 d6 h o86
    have e4 := floatVal_lt_eq_false_of_le_of_lt_eq_false a d8 d4 h o84
    have e2 := floatVal_lt_eq_false_of_le_of_lt_eq_false a d8 d2 h o82
    rcases hb with ⟨a2, hc, hf⟩ | ⟨a2, a4, hc, hf⟩ | ⟨a2, a4, a6, hc, hf⟩ |
      ⟨a2, a4, a6, a8, hc, hf⟩ | ⟨a2, a4, a6, a8, hc, hf⟩ <;> simp_all
  refine ⟨?_, band2, band3, band4, ?_, ?_, ?_, ?_, ?_, ?_, ?_⟩
  · intro h
    rcases hb with ⟨a2, hc, hf⟩ | ⟨a2, a4, hc, hf⟩ | ⟨a2, a4, a6, hc, hf⟩ |
      ⟨a2, a4, a6, a8, hc, hf⟩ | ⟨a2, a4, a6, a8, hc, hf⟩ <;> simp_all
  · rintro (h | h)
    · exact band5 h
    · subst h
      rcases hb with ⟨a2, hc, hf⟩ | ⟨a2, a4, hc, hf⟩ | ⟨a2, a4, a6, hc, hf⟩ |
        ⟨a2, a4, a6, a8, hc, hf⟩ | ⟨a2, a4, a6, a8, hc, hf⟩ <;>
        simp_all [FloatVal.lt]
  · rcases hb with ⟨a2, hc, hf⟩ | ⟨a2, a4, hc, hf⟩ | ⟨a2, a4, a6, hc, hf⟩ |
      ⟨a2, a4, a6, a8, hc, hf⟩ | ⟨a2, a4, a6, a8, hc, hf⟩
    · exact Or.inl a2
    · exact Or.inr (Or.inl ⟨floatVal_le_of_lt_eq_false a d2
        (floatVal_ne_nan_of_lt a d4 a4) n2 a2, a4⟩)
    · exact Or.inr (Or.inr (Or.inl ⟨floatVal_le_of_lt_eq_false a d4
        (floatVal_ne_nan_of_lt a d6 a6) n4 a4, a6⟩))
    · exact Or.inr (Or.inr (Or.inr (Or.inl ⟨floatVal_le_of_lt_eq_false a d6
        (floatVal_ne_nan_of_lt a d8 a8) n6 a6, a8⟩)))
    · by_cases hn : a = FloatVal.nan
      · exact Or.inr (Or.inr (Or.inr (Or.inr (Or.inr hn))))
      · exact Or.inr (Or.inr (Or.inr (Or.inr (Or.inl
          (floatVal_le_of_lt_eq_false a d8 hn n8 a8)))))
  · intro h
    subst h
    exact (band2 f2 g2).1
  · intro h
    subst h
    exact (band3 f4 g4).1
  · intro h
    subst h
    exact (band4 f6 g6).1
  · intro h
    subst h
    exact (band5 f8).1
  · intro hle
    rcases hb with ⟨a2, hc, -⟩ | ⟨a2, a4, hc, -⟩ | ⟨a2, a4, a6, hc, -⟩ |
      ⟨a2, a4, a6, a8, hc, -⟩ | ⟨a2, a4, a6, a8, hc, -⟩ <;>
    rcases hb' with ⟨b2, hc', -⟩ | ⟨b2, b4, hc', -⟩ | ⟨b2, b4, b6, hc', -⟩ |
      ⟨b2, b4, b6, b8, hc', -⟩ | ⟨b2, b4, b6, b8, hc', -⟩ <;>
    subst hc <;> subst hc' <;>
    first
      | decide
      | (exfalso
         have h := floatVal_lt_of_le_lt a a' d2 hle b2
         rw [a2] at h
         exact Bool.false_ne_true h)
      | (exfalso
         have h := floatVal_lt_of_le_lt a a' d4 hle b4
         rw [a4] at h
         exact Bool.false_ne_true h)
      | (exfalso
         have h := floatVal_lt_of_le_lt a a' d6 hle b6
         rw [a6] at h
         exact Bool.false_ne_true h)
      | (exfalso
         have h := floatVal_lt_of_le_lt a a' d8 hle b8
         rw [a8] at h
         exact Bool.false_ne_true h)

/-- Witness of C3 as amended: the all-zero ready window, with the running sum of its own
loop; its computed average is `0` and its class is `0`. -/
theorem runInference_demo_bands_computed_average_witness :
    (0 : Nat) < 1000 ∧ (Machine.constantWindow (.fin 0)).buffer_full = true ∧
    Machine.averageActivity (Machine.constantWindow (.fin 0)).input_buffer = .fin 0 ∧
    (Machine.runInference 0 (fun s => (false, s))
      (Machine.constantWindow (.fin 0))).2.predicted_class = 0 ∧
    (Machine.runInference 0 (fun s => (false, s))
      (Machine.constantWindow (.fin 0))).2.confidence = floatLit 0.75 := by
  have ha : Machine.averageActivity (Machine.constantWindow (.fin 0)).input_buffer =
      .fin 0 := by
    have hlen : kSequenceLength * kFeatureDim =
        (Machine.constantWindow (.fin 0)).input_buffer.length := by
      simp only [Machine.constantWindow, List.length_replicate]
      decide
    unfold Machine.averageActivity
    rw [hlen, foldl_range_getD]
    decide!
  have h := runInference_demo_bands_computed_average 0 (by decide) (fun s => (false, s))
    (Machine.constantWindow (.fin 0)) (Machine.constantWindow (.fin 0)) rfl rfl
    (fun k => (List.range k).foldl
      (fun acc i => FloatVal.add binary32 acc
        ((Machine.constantWindow (.fin 0)).input_buffer.getD i (.fin 0))) (.fin 0))
    rfl
    (fun k _ => by
      simp only [List.range_succ, List.foldl_append, List.foldl_cons, List.foldl_nil])
  have hlt : FloatVal.lt
      (Machine.averageActivity (Machine.constantWindow (.fin 0)).input_buffer)
      (doubleLit 0.2) = true := by
    rw [ha]
    decide!
  exact ⟨by decide, rfl, ha, (h.2.2.1 hlt).1, (h.2.2.1 hlt).2⟩

/-- C4.  In demo mode on a ready window (with a five-entry `predictions` array),
`runInference` succeeds with a class index `k` in `0..4`; entry `k` of the distribution is
the confidence, each other entry is `(1 - confidence) / 4` and is strictly smaller than
entry `k`, and the five entries sum to `1`.  After a clear and fifty all-zero samples the
class is `0` (reported as `1`), the confidence `0.75` and the distribution
`[0.75, 0.0625, 0.0625, 0.0625, 0.0625]`. -/
theorem runInference_demo_distribution (len : Nat) (hlen : len < 1000) (I : MicroInterpreter)
    (s : TensorFlowLiteInference) (hs : s.buffer_full = true) (hp : s.predictions.length = 5)
    (s0 : TensorFlowLiteInference) (h0 : s0.input_buffer.length = 450)
    (h0p : s0.predictions.length = 5) :
    ((runInference len I s).1 = true ∧
     (∃ k : Nat, k < 5 ∧ (runInference len I s).2.predicted_class = (k : Int) ∧
        (getAllPredictions (runInference len I s).2).getD k 0 =
          getConfidence (runInference len I s).2 ∧
        ∀ i : Nat, i < 5 → i ≠ k →
          (getAllPredictions (runInference len I s).2).getD i 0 =
            (1 - getConfidence (runInference len I s).2) / 4 ∧
          (getAllPredictions (runInference len I s).2).getD i 0 <
            (getAllPredictions (runInference len I s).2).getD k 0) ∧
     (getAllPredictions (runInference len I s).2).length = 5 ∧
     (getAllPredictions (runInference len I s).2).sum = 1) ∧
    ((runInference len I ((List.replicate 50 (List.replicate 9 (0 : ℚ))).foldl addDataPoint
        (clearBuffer s0))).1 = true ∧
     (runInference len I ((List.replicate 50 (List.replicate 9 (0 : ℚ))).foldl addDataPoint
        (clearBuffer s0))).2.predicted_class = 0 ∧
     getPredictedClass (runInference len I ((List.replicate 50
        (List.replicate 9 (0 : ℚ))).foldl addDataPoint (clearBuffer s0))).2 = 1 ∧
     getConfidence (runInference len I ((List.replicate 50
        (List.replicate 9 (0 : ℚ))).foldl addDataPoint (clearBuffer s0))).2 = 0.75 ∧
     getAllPredictions (runInference len I ((List.replicate 50
        (List.replicate 9 (0 : ℚ))).foldl addDataPoint (clearBuffer s0))).2 =
       [0.75, 0.0625, 0.0625, 0.0625, 0.0625]) := by
  constructor
  · obtain ⟨c, conf, hr, hb⟩ := runInference_demo len hlen I s hs
    rw [hr]
    simp only [getAllPredictions, getConfidence]
    rw [demo_predictions _ hp]
    rcases hb with ⟨_, h1, h2⟩ | ⟨_, _, h1, h2⟩ | ⟨_, _, h1, h2⟩ | ⟨_, _, h1, h2⟩ | ⟨_, h1, h2⟩ <;>
      subst h1 <;> subst h2
    · refine ⟨trivial, ⟨0, by decide, rfl, by norm_num, ?_⟩, rfl, by norm_num⟩
      intro i hi hik
      interval_cases i <;> first | (exfalso; exact hik rfl) | norm_num
    · refine ⟨trivial, ⟨1, by decide, rfl, by norm_num, ?_⟩, rfl, by norm_num⟩
      intro i hi hik
      interval_cases i <;> first | (exfalso; exact hik rfl) | norm_num
    · refine ⟨trivial, ⟨2, by decide, rfl, by norm_num, ?_⟩, rfl, by norm_num⟩
      intro i hi hik
      interval_cases i <;> first | (exfalso; exact hik rfl) | norm_num
    · refine ⟨trivial, ⟨3, by decide, rfl, by norm_num, ?_⟩, rfl, by norm_num⟩
      intro i hi hik
      interval_cases i <;> first | (exfalso; exact hik rfl) | norm_num
    · refine ⟨trivial, ⟨4, by decide, rfl, by norm_num, ?_⟩, rfl, by norm_num⟩
      intro i hi hik
      interval_cases i <;> first | (exfalso; exact hik rfl) | norm_num
  · have hfull : ((List.replicate 50 (List.replicate 9 (0 : ℚ))).foldl addDataPoint
        (clearBuffer s0)).buffer_full = true := by
      rw [(pushes_fields s0 _).2.1]
      simp only [List.length_replicate, Nat.lt_irrefl, if_false]
    have hpl : ((List.replicate 50 (List.replicate 9 (0 : ℚ))).foldl addDataPoint
        (clearBuffer s0)).predictions.length = 5 := by
      rw [pushes_predictions, h0p]
    have hm : averageActivity ((List.replicate 50 (List.replicate 9 (0 : ℚ))).foldl
        addDataPoint (clearBuffer s0)).input_buffer = 0 :=
      averageActivity_zero _ (fun j hj => zero_pushes_getD s0 h0 j hj)
    obtain ⟨c, conf, hr, hb⟩ := runInference_demo len hlen I _ hfull
    rw [hr]
    simp only [getAllPredictions, getConfidence, getPredictedClass]
    rw [demo_predictions _ hpl]
    rw [hm] at hb
    rcases hb with ⟨_, h1, h2⟩ | ⟨h, _⟩ | ⟨h, _⟩ | ⟨h, _⟩ | ⟨h, _⟩
    · subst h1; subst h2
      refine ⟨trivial, rfl, by norm_num, rfl, by norm_num⟩
    all_goals (exfalso; norm_num at h)

/-- Witness of C4: a ready all-zero window for the general part, and a fresh object for
the fifty-zero-samples scenario. -/
theorem runInference_demo_distribution_witness :
    (0 : Nat) < 1000 ∧ (constantWindow 0).buffer_full = true ∧
    (constantWindow 0).predictions.length = 5 ∧ freshObject.input_buffer.length = 450 ∧
    freshObject.predictions.length = 5 ∧
    getPredictedClass (runInference 0
      (fixedInterpreter TfLiteStatus.kTfLiteError negativeInt8Output)
      ((List.replicate 50 (List.replicate 9 (0 : ℚ))).foldl addDataPoint
        (clearBuffer freshObject))).2 = 1 ∧
    getAllPredictions (runInference 0
      (fixedInterpreter TfLiteStatus.kTfLiteError negativeInt8Output)
      ((List.replicate 50 (List.replicate 9 (0 : ℚ))).foldl addDataPoint
        (clearBuffer freshObject))).2 = [0.75, 0.0625, 0.0625, 0.0625, 0.0625] ∧
    (getAllPredictions (runInference 0
      (fixedInterpreter TfLiteStatus.kTfLiteError negativeInt8Output)
      (constantWindow 0)).2).sum = 1 := by
  have hl : freshObject.input_buffer.length = 450 := by
    simp only [freshObject, TensorFlowLiteInference.new, List.length_replicate]
  have hq : freshObject.predictions.length = 5 := by
    simp only [freshObject, TensorFlowLiteInference.new, List.length_replicate]
  have hc : (constantWindow 0).predictions.length = 5 := by
    simp only [constantWindow, List.length_replicate]
  have h := runInference_demo_distribution 0 (by decide)
    (fixedInterpreter TfLiteStatus.kTfLiteError negativeInt8Output)
    (constantWindow 0) rfl hc freshObject hl hq
  exact ⟨by decide, rfl, hc, hl, hq, h.2.2.2.1, h.2.2.2.2.2, h.1.2.2.2⟩

/-- Counterexample to C5 as stated: at the thresholds themselves `sigmoid` is not
saturated, `sigmoid(10) ≠ 1` and `sigmoid(-10) ≠ 0`, because the guards `x > 10` and
`x < -10` are strict. -/
theorem sigmoid_at_thresholds_not_saturated :
    sigmoid Real.exp 10 ≠ 1 ∧ sigmoid Real.exp (-10) ≠ 0 := by
  constructor
  · rw [sigmoid_mid 10 (by norm_num) (le_refl _)]
    have hpos := Real.exp_pos (-10)
    intro h
    rw [div_eq_iff (by linarith)] at h
    linarith
  · rw [sigmoid_mid (-10) (le_refl _) (by norm_num)]
    have hpos := Real.exp_pos (-(-10))
    exact ne_of_gt (by positivity)

/-- C5 (as amended).  `sigmoid` is exactly `0` for every `x < -10` and exactly `1` for every
`y > 10`, and `sigmoid(0) = 0.5`; at the thresholds it takes the logistic values
`1 / (1 + exp 10)` and `1 / (1 + exp (-10))`, which lie strictly between `0` and `1`. -/
theorem sigmoid_saturation (x y : ℝ) (hx : x < -10) (hy : 10 < y) :
    sigmoid Real.exp x = 0 ∧ sigmoid Real.exp y = 1 ∧ sigmoid Real.exp 0 = 0.5 ∧
    sigmoid Real.exp (-10) = 1 / (1 + Real.exp 10) ∧
    sigmoid Real.exp 10 = 1 / (1 + Real.exp (-10)) ∧
    0 < sigmoid Real.exp (-10) ∧ sigmoid Real.exp 10 < 1 := by
  refine ⟨?_, ?_, ?_, ?_, ?_, ?_, ?_⟩
  · unfold sigmoid
    rw [if_neg (by linarith), if_pos hx]
  · unfold sigmoid
    rw [if_pos hy]
  · rw [sigmoid_mid 0 (by norm_num) (by norm_num)]
    norm_num
  · rw [sigmoid_mid (-10) (le_refl _) (by norm_num), neg_neg]
  · rw [sigmoid_mid 10 (by norm_num) (le_refl _)]
  · rw [sigmoid_mid (-10) (le_refl _) (by norm_num)]
    have hpos := Real.exp_pos (-(-10))
    positivity
  · rw [sigmoid_mid 10 (by norm_num) (le_refl _)]
    have hpos := Real.exp_pos (-10)
    rw [div_lt_one (by linarith)]
    linarith

/-- Witness of C5 as amended, at `x = -11` and `y = 11`. -/
theorem sigmoid_saturation_witness :
    (-11 : ℝ) < -10 ∧ (10 : ℝ) < 11 ∧ sigmoid Real.exp (-11) = 0 ∧ sigmoid Real.exp 11 = 1 ∧
    sigmoid Real.exp 0 = 0.5 :=
  ⟨by norm_num, by norm_num,
    (sigmoid_saturation (-11) 11 (by norm_num) (by norm_num)).1,
    (sigmoid_saturation (-11) 11 (by norm_num) (by norm_num)).2.1,
    (sigmoid_saturation (-11) 11 (by norm_num) (by norm_num)).2.2.1⟩

/-- C6.  `sigmoid`, with its two saturation branches, is non-decreasing and takes values in
`[0, 1]`: for `x ≤ y`, `0 ≤ sigmoid x ≤ sigmoid y ≤ 1`. -/
theorem sigmoid_monotone_bounded (x y : ℝ) (hxy : x ≤ y) :
    0 ≤ sigmoid Real.exp x ∧ sigmoid Real.exp x ≤ sigmoid Real.exp y ∧
    sigmoid Real.exp y ≤ 1 := by
  refine ⟨(sigmoid_bounds x).1, ?_, (sigmoid_bounds y).2⟩
  by_cases hx1 : x > 10
  · have hy1 : y > 10 := lt_of_lt_of_le hx1 hxy
    unfold sigmoid
    rw [if_pos hx1, if_pos hy1]
  · by_cases hx2 : x < -10
    · have e : sigmoid Real.exp x = 0 := by
        unfold sigmoid
        rw [if_neg hx1, if_pos hx2]
      rw [e]
      exact (sigmoid_bounds y).1
    · by_cases hy1 : y > 10
      · have e : sigmoid Real.exp y = 1 := by
          unfold sigmoid
          rw [if_pos hy1]
        rw [e]
        exact (sigmoid_bounds x).2
      · rw [sigmoid_mid x (not_lt.mp hx2) (not_lt.mp hx1),
          sigmoid_mid y (le_trans (not_lt.mp hx2) hxy) (not_lt.mp hy1)]
        have hpx := Real.exp_pos (-x)
        have hpy := Real.exp_pos (-y)
        have hle : Real.exp (-y) ≤ Real.exp (-x) := Real.exp_le_exp.mpr (by linarith)
        exact one_div_le_one_div_of_le (by linarith) (by linarith)

/-- Witness of C6, at `x = -11` (saturated branch) and `y = 3` (logistic branch). -/
theorem sigmoid_monotone_bounded_witness :
    (-11 : ℝ) ≤ 3 ∧ 0 ≤ sigmoid Real.exp (-11) ∧
    sigmoid Real.exp (-11) ≤ sigmoid Real.exp 3 ∧ sigmoid Real.exp 3 ≤ 1 :=
  ⟨by norm_num, sigmoid_monotone_bounded (-11) 3 (by norm_num)⟩

/-- C7 (the code departs from the claim).  In model mode, on a ready window, a successful
int8 invocation whose five raw outputs are negative (`-128, -128, -128, -100, -128`).  The
values read back are those divided by 127 and their maximum is entry 3, `-100 / 127`; yet
`runInference` reports class `0` with confidence `0`, because the running maximum of the
extraction loop starts at `0.0` with class `0` and no value exceeds it. -/
theorem runInference_model_negative_outputs :
    (runInference 2000 (fixedInterpreter TfLiteStatus.kTfLiteOk negativeInt8Output)
      (constantWindow 0)).1 = true ∧
    getAllPredictions (runInference 2000
      (fixedInterpreter TfLiteStatus.kTfLiteOk negativeInt8Output) (constantWindow 0)).2 =
      [-128 / 127, -128 / 127, -128 / 127, -100 / 127, -128 / 127] ∧
    (runInference 2000 (fixedInterpreter TfLiteStatus.kTfLiteOk negativeInt8Output)
      (constantWindow 0)).2.predicted_class = 0 ∧
    getConfidence (runInference 2000
      (fixedInterpreter TfLiteStatus.kTfLiteOk negativeInt8Output) (constantWindow 0)).2 = 0 ∧
    (getAllPredictions (runInference 2000
      (fixedInterpreter TfLiteStatus.kTfLiteOk negativeInt8Output)
      (constantWindow 0)).2).getD 0 0 <
    (getAllPredictions (runInference 2000
      (fixedInterpreter TfLiteStatus.kTfLiteOk negativeInt8Output)
      (constantWindow 0)).2).getD 3 0 := by
  rw [runInference_model 2000 (by decide)
    (fixedInterpreter TfLiteStatus.kTfLiteOk negativeInt8Output) (constantWindow 0) rfl
    negativeInt8Output rfl]
  have hr : List.range kNumClasses = [0, 1, 2, 3, 4] := by decide
  have hz : List.replicate 5 (0 : ℚ) = [0, 0, 0, 0, 0] := rfl
  unfold extractResult
  rw [hr]
  simp only [List.foldl_cons, List.foldl_nil, constantWindow, negativeInt8Output, readOutput,
    hz, List.set_cons_zero, List.set_cons_succ, List.getD_cons_zero, List.getD_cons_succ,
    getAllPredictions, getConfidence]
  norm_num

/-- C9 (the code departs from the claim).  With zero bias and zero weights and the scaler
of the header, on the finite feature vector `hugeJitterFeatures` the binary32
normalisation `(1e38f - mean[2]) / std[2]` overflows to `+inf` (the other seven normalised
features are finite), the product `0 * inf` is NaN and so is the score; with a library
`exp` that maps NaN to NaN, `analyzeSpeechArray` returns probability NaN and confidence NaN
(neither is `0.5`), class `0`, and `is_valid = true`. -/
theorem analyzeSpeechArray_nan_zero_weights (mathType : FloatFormat)
    (exp : FloatVal → FloatVal) (hexp : exp FloatVal.nan = FloatVal.nan) :
    (∀ i, i < 8 → (hugeJitterFeatures.getD i (.fin 0)).isFinite = true) ∧
    Machine.zeroSpeechModel.SPEECH_BIAS = .fin 0 ∧
    (∀ i, i < 8 → Machine.zeroSpeechModel.SPEECH_WEIGHTS.getD i (.fin 0) = .fin 0) ∧
    (∀ i, i < 8 →
      (Machine.zeroSpeechModel.SPEECH_SCALER_STD.getD i (.fin 0)).isFinite = true ∧
      Machine.zeroSpeechModel.SPEECH_SCALER_STD.getD i (.fin 0) ≠ .fin 0) ∧
    Machine.normalizeSpeechFeatures Machine.zeroSpeechModel hugeJitterFeatures =
      [.fin (-9164817 / 16777216), .fin (-8835351 / 8388608), .inf false,
       .fin (-12576235 / 16777216), .fin (-11887271 / 33554432), .fin (-11395241 / 8388608),
       .fin (-7358101 / 8388608), .fin (-2119735 / 4194304)] ∧
    FloatVal.mul binary32 (.fin 0) (.inf false) = .nan ∧
    Machine.speechScore Machine.zeroSpeechModel hugeJitterFeatures = .nan ∧
    (Machine.analyzeSpeechArray Machine.zeroSpeechModel mathType exp
      hugeJitterFeatures).probability = .nan ∧
    (Machine.analyzeSpeechArray Machine.zeroSpeechModel mathType exp
      hugeJitterFeatures).probability ≠ floatLit 0.5 ∧
    (Machine.analyzeSpeechArray Machine.zeroSpeechModel mathType exp
      hugeJitterFeatures).predicted_class = 0 ∧
    (Machine.analyzeSpeechArray Machine.zeroSpeechModel mathType exp
      hugeJitterFeatures).confidence = .nan ∧
    (Machine.analyzeSpeechArray Machine.zeroSpeechModel mathType exp
      hugeJitterFeatures).confidence ≠ floatLit 0.5 ∧
    (Machine.analyzeSpeechArray Machine.zeroSpeechModel mathType exp
      hugeJitterFeatures).is_valid = true := by
  have hz : Machine.speechScore Machine.zeroSpeechModel hugeJitterFeatures = .nan := by
    decide!
  have hhalf : FloatVal.nan ≠ floatLit 0.5 := by decide!
  obtain ⟨hp, hc, hconf, hv⟩ := binary32_analyzeSpeechArray_of_nan_score
    Machine.zeroSpeechModel mathType exp hexp hugeJitterFeatures hz
  refine ⟨by decide!, by decide!, by decide!, by decide!, by decide!, by decide!, hz, hp, ?_,
    hc, hconf, ?_, hv⟩
  · rw [hp]; exact hhalf
  · rw [hconf]; exact hhalf

/-- Witness of C9: the `float` type for the result of `exp`, and the identity in the place
of `exp`, which maps NaN to NaN. -/
theorem analyzeSpeechArray_nan_zero_weights_witness :
    (fun (x : FloatVal) => x) FloatVal.nan = FloatVal.nan ∧
    (Machine.analyzeSpeechArray Machine.zeroSpeechModel binary32 (fun x => x)
      hugeJitterFeatures).probability = .nan ∧
    (Machine.analyzeSpeechArray Machine.zeroSpeechModel binary32 (fun x => x)
      hugeJitterFeatures).is_valid = true := by
  have h := analyzeSpeechArray_nan_zero_weights binary32 (fun x => x) rfl
  exact ⟨rfl, h.2.2.2.2.2.2.2.1, h.2.2.2.2.2.2.2.2.2.2.2.2⟩

/-- C10.  When the window is not ready, `runInference` returns `false` and the state it
was given, whatever the mode and the executor; this is the case after a clear followed by
fewer than fifty pushes. -/
theorem runInference_not_ready (len : Nat) (I : MicroInterpreter)
    (s : TensorFlowLiteInference) (hs : isBufferReady s = false)
    (s0 : TensorFlowLiteInference) (xs : List (List ℚ)) (hxs : xs.length < 50) :
    runInference len I s = (false, s) ∧
    runInference len I (xs.foldl addDataPoint (clearBuffer s0)) =
      (false, xs.foldl addDataPoint (clearBuffer s0)) := by
  have key : ∀ t : TensorFlowLiteInference, t.buffer_full = false →
      runInference len I t = (false, t) := by
    intro t ht
    unfold runInference
    rw [ht]
    rfl
  refine ⟨key s hs, key _ ?_⟩
  rw [(pushes_fields s0 xs).2.1, if_pos hxs]

/-- Witness of C10: a fresh object, and a cleared window after 49 pushes, in model mode. -/
theorem runInference_not_ready_witness :
    isBufferReady freshObject = false ∧
    (List.replicate 49 (List.replicate 9 (0 : ℚ))).length < 50 ∧
    runInference 2000 (fixedInterpreter TfLiteStatus.kTfLiteOk peakedFloatOutput) freshObject =
      (false, freshObject) ∧
    runInference 2000 (fixedInterpreter TfLiteStatus.kTfLiteOk peakedFloatOutput)
      ((List.replicate 49 (List.replicate 9 (0 : ℚ))).foldl addDataPoint
        (clearBuffer freshObject)) =
      (false, (List.replicate 49 (List.replicate 9 (0 : ℚ))).foldl addDataPoint
        (clearBuffer freshObject)) :=
  ⟨rfl, by simp only [List.length_replicate]; decide,
    runInference_not_ready 2000 (fixedInterpreter TfLiteStatus.kTfLiteOk peakedFloatOutput)
      freshObject rfl freshObject (List.replicate 49 (List.replicate 9 (0 : ℚ)))
      (by simp only [List.length_replicate]; decide)⟩

/-- C11.  In model mode on a ready window, when the invocation reports a status other than
`kTfLiteOk`, `runInference` returns `false` and the state it was given: the class, the
confidence and the five distribution entries are those from before the call. -/
theorem runInference_invoke_failure (len : Nat) (hlen : 1000 ≤ len) (I : MicroInterpreter)
    (s : TensorFlowLiteInference) (hs : s.buffer_full = true)
    (hinv : (I.Invoke (fillInput I.input s.input_buffer)).1 ≠ TfLiteStatus.kTfLiteOk) :
    (runInference len I s).1 = false ∧
    (runInference len I s).2 = s ∧
    getPredictedClass (runInference len I s).2 = getPredictedClass s ∧
    getConfidence (runInference len I s).2 = getConfidence s ∧
    getAllPredictions (runInference len I s).2 = getAllPredictions s := by
  rw [invoke_failure_returns_state len hlen I s hs hinv]
  exact ⟨rfl, rfl, rfl, rfl, rfl⟩

/-- Witness of C11: a window that holds a demo result, and an executor that fails. -/
theorem runInference_invoke_failure_witness :
    1000 ≤ 2000 ∧ (constantWindow 0).buffer_full = true ∧
    runInference 2000 (fixedInterpreter TfLiteStatus.kTfLiteError peakedFloatOutput)
      (constantWindow 0) = (false, constantWindow 0) := by
  have h := runInference_invoke_failure 2000 (by decide)
    (fixedInterpreter TfLiteStatus.kTfLiteError peakedFloatOutput) (constantWindow 0) rfl
    (by decide)
  exact ⟨by decide, rfl, Prod.ext h.1 h.2.1⟩

/-- C12.  When `runInference` returns `true`, in demo mode or in model mode and whatever
the executor produced, `getPredictedClass` is the raw class index plus one and lies in
`1..5`, and neither `getParkinsonLevelDescription` nor `getRecommendation` returns its
sentinel. -/
theorem runInference_success_level (len : Nat) (I : MicroInterpreter)
    (s : TensorFlowLiteInference) (h : (runInference len I s).1 = true) :
    getPredictedClass (runInference len I s).2 =
      (runInference len I s).2.predicted_class + 1 ∧
    1 ≤ getPredictedClass (runInference len I s).2 ∧
    getPredictedClass (runInference len I s).2 ≤ 5 ∧
    getParkinsonLevelDescription (runInference len I s).2 ≠ "未知" ∧
    getRecommendation (runInference len I s).2 ≠ "請重新進行評估" := by
  have hrange : 0 ≤ (runInference len I s).2.predicted_class ∧
      (runInference len I s).2.predicted_class < 5 := by
    by_cases hs : s.buffer_full = true
    · by_cases hlen : len < 1000
      · obtain ⟨c, conf, hr, hb⟩ := runInference_demo len hlen I s hs
        rw [hr]
        simp only
        rcases hb with ⟨_, h1, _⟩ | ⟨_, _, h1, _⟩ | ⟨_, _, h1, _⟩ | ⟨_, _, h1, _⟩ | ⟨_, h1, _⟩ <;>
          subst h1 <;> decide
      · rcases hI : I.Invoke (fillInput I.input s.input_buffer) with ⟨status, output⟩
        cases status with
        | kTfLiteOk =>
          rw [runInference_model len (not_lt.mp hlen) I s hs output hI]
          exact extractResult_class_range output s
        | kTfLiteError =>
          exfalso
          have hf := invoke_failure_returns_state len (not_lt.mp hlen) I s hs
            (show (I.Invoke (fillInput I.input s.input_buffer)).1 ≠ TfLiteStatus.kTfLiteOk by
              rw [hI]; exact fun h => TfLiteStatus.noConfusion h)
          rw [hf] at h
          exact Bool.false_ne_true h
    · exfalso
      have hf : runInference len I s = (false, s) := by
        unfold runInference
        rw [Bool.not_eq_true] at hs
        rw [hs]
        rfl
      rw [hf] at h
      exact Bool.false_ne_true h
  have h1 : 1 ≤ getPredictedClass (runInference len I s).2 := by
    unfold getPredictedClass; omega
  have h5 : getPredictedClass (runInference len I s).2 ≤ 5 := by
    unfold getPredictedClass; omega
  obtain ⟨hd, hr⟩ := level_strings_not_sentinel _ h1 h5
  exact ⟨rfl, h1, h5, hd, hr⟩

/-- Witness of C12: demo mode on the all-zero ready window. -/
theorem runInference_success_level_witness :
    (runInference 0 (fixedInterpreter TfLiteStatus.kTfLiteError negativeInt8Output)
      (constantWindow 0)).1 = true ∧
    1 ≤ getPredictedClass (runInference 0
      (fixedInterpreter TfLiteStatus.kTfLiteError negativeInt8Output) (constantWindow 0)).2 ∧
    getPredictedClass (runInference 0
      (fixedInterpreter TfLiteStatus.kTfLiteError negativeInt8Output) (constantWindow 0)).2 ≤ 5 := by
  have h1 : (runInference 0 (fixedInterpreter TfLiteStatus.kTfLiteError negativeInt8Output)
      (constantWindow 0)).1 = true := by
    obtain ⟨c, conf, hr, -⟩ := runInference_demo 0 (by decide)
      (fixedInterpreter TfLiteStatus.kTfLiteError negativeInt8Output) (constantWindow 0) rfl
    rw [hr]
  have h := runInference_success_level 0
    (fixedInterpreter TfLiteStatus.kTfLiteError negativeInt8Output) (constantWindow 0) h1
  exact ⟨h1, h.2.1, h.2.2.1⟩

/-- C13.  The two lookups are total over the integer levels: with the reported level
`level` (raw class `level - 1`), levels `1..5` give the five designated descriptions and
recommendations, every other level gives the sentinels `"未知"` and `"請重新進行評估"`,
and the six descriptions, like the six recommendations, are pairwise distinct. -/
theorem severity_lookup_total (s : TensorFlowLiteInference) (level : Int) :
    getPredictedClass { s with predicted_class := level - 1 } = level ∧
    (level = 1 →
      getParkinsonLevelDescription { s with predicted_class := level - 1 } = "輕度症狀" ∧
      getRecommendation { s with predicted_class := level - 1 } =
        "建議進行溫和的靈活性訓練，舵機阻力設定30度") ∧
    (level = 2 →
      getParkinsonLevelDescription { s with predicted_class := level - 1 } = "輕中度症狀" ∧
      getRecommendation { s with predicted_class := level - 1 } =
        "增加協調性練習，舵機阻力設定60度") ∧
    (level = 3 →
      getParkinsonLevelDescription { s with predicted_class := level - 1 } = "中度症狀" ∧
      getRecommendation { s with predicted_class := level - 1 } =
        "重點改善精細動作控制，舵機阻力設定90度") ∧
    (level = 4 →
      getParkinsonLevelDescription { s with predicted_class := level - 1 } = "中重度症狀" ∧
      getRecommendation { s with predicted_class := level - 1 } =
        "加強肌肉力量和平衡訓練，舵機阻力設定120度") ∧
    (level = 5 →
      getParkinsonLevelDescription { s with predicted_class := level - 1 } = "重度症狀" ∧
      getRecommendation { s with predicted_class := level - 1 } =
        "進行輔助性康復訓練，舵機阻力設定150度") ∧
    (level < 1 ∨ 5 < level →
      getParkinsonLevelDescription { s with predicted_class := level - 1 } = "未知" ∧
      getRecommendation { s with predicted_class := level - 1 } = "請重新進行評估") ∧
    ["輕度症狀", "輕中度症狀", "中度症狀", "中重度症狀", "重度症狀", "未知"].Nodup ∧
    ["建議進行溫和的靈活性訓練，舵機阻力設定30度", "增加協調性練習，舵機阻力設定60度",
      "重點改善精細動作控制，舵機阻力設定90度", "加強肌肉力量和平衡訓練，舵機阻力設定120度",
      "進行輔助性康復訓練，舵機阻力設定150度", "請重新進行評估"].Nodup := by
  have hl : getPredictedClass { s with predicted_class := level - 1 } = level := by
    unfold getPredictedClass
    simp only
    omega
  unfold getParkinsonLevelDescription getRecommendation
  rw [hl]
  refine ⟨rfl, ?_, ?_, ?_, ?_, ?_, ?_, by decide, by decide⟩
  · intro h; subst h; exact ⟨rfl, rfl⟩
  · intro h; subst h; exact ⟨rfl, rfl⟩
  · intro h; subst h; exact ⟨rfl, rfl⟩
  · intro h; subst h; exact ⟨rfl, rfl⟩
  · intro h; subst h; exact ⟨rfl, rfl⟩
  · intro h
    have n1 : ¬ level = 1 := by omega
    have n2 : ¬ level = 2 := by omega
    have n3 : ¬ level = 3 := by omega
    have n4 : ¬ level = 4 := by omega
    have n5 : ¬ level = 5 := by omega
    simp only [n1, n2, n3, n4, n5, if_false, and_self]

section AudioClaims

open ArduinoSpeechFeatureExtractor

/-- C14.  After a `resetBuffer` and `n` calls of `addAudioSample`, the write index is
`min n 1024`, the first `min n 1024` entries of the buffer are the first samples written, in
order, `isBufferReady` is true exactly when `n ≥ 1024`, and once the buffer is full a
further `addAudioSample` returns the state unchanged. -/
theorem audio_ring_fills_then_rejects {α : Type} [LinearOrderedField α]
    (s0 : ArduinoSpeechFeatureExtractor α) (h0 : s0.audio_buffer.length = 1024)
    (xs : List α) (x : α) :
    (xs.foldl addAudioSample (resetBuffer s0)).buffer_index = min xs.length 1024 ∧
    (∀ k, k < min xs.length 1024 →
      (xs.foldl addAudioSample (resetBuffer s0)).audio_buffer.getD k 0 = xs.getD k 0) ∧
    ((xs.foldl addAudioSample (resetBuffer s0)).isBufferReady = true ↔ 1024 ≤ xs.length) ∧
    (1024 ≤ xs.length →
      addAudioSample (xs.foldl addAudioSample (resetBuffer s0)) x =
        xs.foldl addAudioSample (resetBuffer s0)) := by
  obtain ⟨h1, -, h3⟩ := audio_writes_spec s0 h0 xs
  refine ⟨h1, ?_, ?_, ?_⟩
  · intro k hk
    rw [h3, if_pos hk]
  · unfold ArduinoSpeechFeatureExtractor.isBufferReady
    rw [h1, decide_eq_true_iff]
    simp only [AUDIO_BUFFER_SIZE]
    omega
  · intro hn
    exact addAudioSample_full _ x (by rw [h1]; omega)

/-- Witness of C14: 1030 samples written into the ring of `silentExtractor`. -/
theorem audio_ring_fills_then_rejects_witness :
    silentExtractor.audio_buffer.length = 1024 ∧
    ((List.replicate 1030 (1 : ℚ)).foldl addAudioSample
      (resetBuffer silentExtractor)).buffer_index = 1024 ∧
    ((List.replicate 1030 (1 : ℚ)).foldl addAudioSample
      (resetBuffer silentExtractor)).isBufferReady = true := by
  have hl : silentExtractor.audio_buffer.length = 1024 := by
    simp only [silentExtractor, List.length_replicate]
  have h := audio_ring_fills_then_rejects silentExtractor hl (List.replicate 1030 (1 : ℚ)) 5
  simp only [List.length_replicate] at h
  exact ⟨hl, h.1, h.2.2.1.mpr (by decide)⟩

/-- C15.  For a ring filled, after a reset, with exactly 1024 zero samples: the ring is
ready, `extractHNR` returns `15`, `extractJitter` (given at least 9 loop iterations) returns
`0.01`, `extractShimmer` returns `0.05`, and `extractF0Mean` returns `150`. -/
theorem silent_ring_defaults {α : Type} [LinearOrderedField α] [FloorRing α] (log10 : α → α)
    (s0 : ArduinoSpeechFeatureExtractor α) (h0 : s0.audio_buffer.length = 1024)
    (fuel : Nat) (hf : 9 ≤ fuel) :
    ((List.replicate 1024 (0 : α)).foldl addAudioSample (resetBuffer s0)).isBufferReady = true ∧
    extractHNR log10 ((List.replicate 1024 (0 : α)).foldl addAudioSample (resetBuffer s0)) = 15 ∧
    extractJitter fuel ((List.replicate 1024 (0 : α)).foldl addAudioSample (resetBuffer s0)) =
      some 0.01 ∧
    extractShimmer ((List.replicate 1024 (0 : α)).foldl addAudioSample (resetBuffer s0)) = 0.05 ∧
    extractF0Mean ((List.replicate 1024 (0 : α)).foldl addAudioSample (resetBuffer s0)) = 150 := by
  obtain ⟨h1, -, h3⟩ := audio_writes_spec s0 h0 (List.replicate 1024 (0 : α))
  have hz : ∀ i, ((List.replicate 1024 (0 : α)).foldl addAudioSample
      (resetBuffer s0)).audio_buffer.getD i 0 = 0 := by
    intro i
    rw [h3]
    split_ifs
    · simp only [List.getD_eq_getElem?_getD, List.getElem?_replicate]
      split_ifs <;> rfl
    · rfl
  obtain ⟨g1, g2, g3, g4⟩ := zero_buffer_defaults log10 _ hz fuel hf
  refine ⟨?_, g2, g3, g4, g1⟩
  unfold ArduinoSpeechFeatureExtractor.isBufferReady
  rw [h1, decide_eq_true_iff]
  simp only [List.length_replicate, AUDIO_BUFFER_SIZE]
  decide

/-- Witness of C15: rational samples, with the ring of `silentExtractor` and 9 iterations. -/
theorem silent_ring_defaults_witness :
    silentExtractor.audio_buffer.length = 1024 ∧ 9 ≤ 9 ∧
    extractHNR (fun x => x)
      ((List.replicate 1024 (0 : ℚ)).foldl addAudioSample (resetBuffer silentExtractor)) = 15 ∧
    extractJitter 9
      ((List.replicate 1024 (0 : ℚ)).foldl addAudioSample (resetBuffer silentExtractor)) =
      some 0.01 ∧
    extractShimmer
      ((List.replicate 1024 (0 : ℚ)).foldl addAudioSample (resetBuffer silentExtractor)) =
      0.05 := by
  have hl : silentExtractor.audio_buffer.length = 1024 := by
    simp only [silentExtractor, List.length_replicate]
  have h := silent_ring_defaults (fun (x : ℚ) => x) silentExtractor hl 9 (le_refl _)
  exact ⟨hl, le_refl _, h.2.1, h.2.2.1, h.2.2.2.1⟩

/-- Counterexample to C16 as stated: a buffer with a unit pulse every 213 samples.  Lag 213
lies in the claimed range (`32 ≤ 213 < ⌈16000 / 75⌉ = 214` and `213 < 512`) and has a
strictly positive autocorrelation, yet `extractF0Mean` returns the default `150`, which is
`16000 / p` for no lag `p`: lag 213 is not visited. -/
theorem extractF0Mean_skips_lag_213 :
    (213 : Int) < ⌈(16000 : ℚ) / 75⌉ ∧ 213 < AUDIO_BUFFER_SIZE / 2 ∧
    0 < autocorrelation pulseExtractor.audio_buffer 1024 213 ∧
    extractF0Mean pulseExtractor = 150 ∧
    (∀ p : Nat, (16000 : ℚ) / (p : ℚ) ≠ 150) := by
  refine ⟨?_, by decide, ?_, ?_, ?_⟩
  · rw [Int.lt_ceil]
    norm_num
  · rw [autocorrelation_eq, if_pos (by decide)]
    apply div_pos
    · apply Finset.sum_pos'
      · intro i _
        rw [pulse_getD, pulse_getD]
        split_ifs <;> norm_num
      · refine ⟨0, Finset.mem_range.mpr (by decide), ?_⟩
        rw [pulse_getD, pulse_getD]
        norm_num
    · norm_num
  · apply extractF0Mean_of_nonpos
    intro p hp1 hp2
    rw [autocorrelation_eq]
    have hsum : ∑ i in Finset.range (1024 - p),
        pulseExtractor.audio_buffer.getD i 0 * pulseExtractor.audio_buffer.getD (i + p) 0 = 0 := by
      apply Finset.sum_eq_zero
      intro i _
      rw [pulse_getD, pulse_getD]
      by_cases h1 : i < 1024 ∧ i % 213 = 0
      · have h2 : ¬ (i + p < 1024 ∧ (i + p) % 213 = 0) := by omega
        rw [if_neg h2, mul_zero]
      · rw [if_neg h1, zero_mul]
    rw [hsum, zero_div]
    split_ifs <;> exact le_refl _
  · intro p h
    by_cases hp : (p : ℚ) = 0
    · rw [hp, div_zero] at h
      norm_num at h
    · rw [div_eq_iff hp] at h
      have h2 : (16000 : ℚ) = ((150 * p : Nat) : ℚ) := by
        rw [h]
        push_cast
        ring
      have h3 : 16000 = 150 * p := by exact_mod_cast h2
      omega

/-- C16 (as amended).  `extractF0Mean` visits exactly the lags `p` with
`⌊16000 / 500⌋ = 32 ≤ p < ⌊16000 / 75⌋ = 213` (all below `1024 / 2`), that is `32..212`;
the autocorrelation at such a lag is the mean of `x[i] * x[i + p]` over `0 ≤ i < 1024 - p`;
if some visited lag has strictly positive autocorrelation the result is `16000 / p` for a
visited lag `p` of maximal autocorrelation among the visited lags, otherwise it is `150`. -/
theorem extractF0Mean_spec {α : Type} [LinearOrderedField α]
    (s : ArduinoSpeechFeatureExtractor α) :
    AUDIO_SAMPLE_RATE / 500 = 32 ∧ AUDIO_SAMPLE_RATE / 75 = 213 ∧
    213 ≤ AUDIO_BUFFER_SIZE / 2 ∧
    (∀ p, p ∈ f0Periods ↔ 32 ≤ p ∧ p < 213) ∧
    (∀ p, 32 ≤ p → p < 213 →
      autocorrelation s.audio_buffer AUDIO_BUFFER_SIZE p =
        (∑ i in Finset.range (1024 - p),
          s.audio_buffer.getD i 0 * s.audio_buffer.getD (i + p) 0) / ((1024 - p : Nat) : α)) ∧
    ((∃ q, 32 ≤ q ∧ q < 213 ∧ 0 < autocorrelation s.audio_buffer AUDIO_BUFFER_SIZE q) →
      ∃ p : Nat, 32 ≤ p ∧ p < 213 ∧ extractF0Mean s = 16000 / (p : α) ∧
        ∀ p', 32 ≤ p' → p' < 213 →
          autocorrelation s.audio_buffer AUDIO_BUFFER_SIZE p' ≤
            autocorrelation s.audio_buffer AUDIO_BUFFER_SIZE p) ∧
    ((∀ p, 32 ≤ p → p < 213 → autocorrelation s.audio_buffer AUDIO_BUFFER_SIZE p ≤ 0) →
      extractF0Mean s = 150) := by
  have e : AUDIO_BUFFER_SIZE = 1024 := rfl
  rw [e]
  refine ⟨by decide, by decide, by decide, mem_f0Periods, ?_, ?_, ?_⟩
  · intro p _ hp
    rw [autocorrelation_eq, if_pos (by omega)]
  · rintro ⟨q, hq1, hq2, hq3⟩
    exact extractF0Mean_of_pos s q ⟨hq1, hq2⟩ hq3
  · exact extractF0Mean_of_nonpos s

end AudioClaims

/-- Counterexample to C17 as stated: `clearBuffer` after a demo inference leaves the
distribution of that inference in place, so the state after `clearBuffer` differs from the
state after `clearBuffer` on a fresh object. -/
theorem clearBuffer_keeps_distribution :
    getAllPredictions (clearBuffer afterDemoInference) =
      [0.75, 0.0625, 0.0625, 0.0625, 0.0625] ∧
    getAllPredictions (clearBuffer freshObject) = [0, 0, 0, 0, 0] ∧
    clearBuffer afterDemoInference ≠ clearBuffer freshObject := by
  have h1 : getAllPredictions (clearBuffer afterDemoInference) =
      [0.75, 0.0625, 0.0625, 0.0625, 0.0625] := by
    unfold getAllPredictions
    rw [(clearBuffer_fields _).2.2.1, afterDemoInference_predictions]
  have h2 : getAllPredictions (clearBuffer freshObject) = [0, 0, 0, 0, 0] := by
    unfold getAllPredictions
    rw [(clearBuffer_fields _).2.2.1]
    rfl
  refine ⟨h1, h2, ?_⟩
  intro h
  rw [h, h2] at h1
  have := List.head_eq_of_cons_eq h1
  norm_num at this

/-- C17 (as amended).  `clearBuffer` sets the fill level to `0` and the ready flag to
`false`, zeroes the 450 scalars, sets the class to `-1` (reported level `0`) and the
confidence to `0`, and leaves the five-entry distribution as it was; so two objects with the
same distribution are in the same state after `clearBuffer`. -/
theorem clearBuffer_resets (s t : TensorFlowLiteInference)
    (hs : s.input_buffer.length = 450) (ht : t.input_buffer.length = 450)
    (hp : s.predictions = t.predictions) :
    getBufferFillLevel (clearBuffer s) = 0 ∧
    isBufferReady (clearBuffer s) = false ∧
    (clearBuffer s).input_buffer = List.replicate 450 0 ∧
    (clearBuffer s).predicted_class = -1 ∧
    getPredictedClass (clearBuffer s) = 0 ∧
    getConfidence (clearBuffer s) = 0 ∧
    getAllPredictions (clearBuffer s) = getAllPredictions s ∧
    clearBuffer s = clearBuffer t := by
  obtain ⟨h1, h2, h3, h4, h5, -⟩ := clearBuffer_fields s
  obtain ⟨g1, g2, g3, g4, g5, -⟩ := clearBuffer_fields t
  have hb := clearBuffer_input_buffer s hs
  have gb := clearBuffer_input_buffer t ht
  refine ⟨h1, h2, hb, h4, ?_, h5, h3, ?_⟩
  · unfold getPredictedClass
    rw [h4]
    rfl
  · exact state_ext _ _ (by rw [hb, gb]) (by rw [h1, g1]) (by rw [h2, g2])
      (by rw [h3, g3, hp]) (by rw [h4, g4]) (by rw [h5, g5])

/-- Witness of C17 as amended: the state after a demo inference and the same state with
another buffer content and fill level. -/
theorem clearBuffer_resets_witness :
    afterDemoInference.input_buffer.length = 450 ∧
    clearBuffer afterDemoInference =
      clearBuffer { afterDemoInference with
        input_buffer := List.replicate 450 1, buffer_index := 7, buffer_full := false } ∧
    getAllPredictions (clearBuffer afterDemoInference) = getAllPredictions afterDemoInference := by
  have hl : afterDemoInference.input_buffer.length = 450 := by
    unfold afterDemoInference
    obtain ⟨c, conf, hr, -⟩ := runInference_demo 0 (by decide)
      (fixedInterpreter TfLiteStatus.kTfLiteError negativeInt8Output) (constantWindow 0) rfl
    rw [hr]
    simp only [constantWindow, List.length_replicate]
  have h := clearBuffer_resets afterDemoInference
    { afterDemoInference with
      input_buffer := List.replicate 450 1, buffer_index := 7, buffer_full := false }
    hl (by simp only [List.length_replicate]) rfl
  exact ⟨hl, h.2.2.2.2.2.2.2, h.2.2.2.2.2.2.1⟩

/-- Counterexample to C18 as stated: in model mode, with matching schema version,
successful allocation and the expected shapes `[1, 50, 9]` and `[1, 5]`, `begin` returns
`true` although both tensors have an element type other than float32 and int8. -/
theorem begin_accepts_unsupported_type :
    (shapedTensor TfLiteType.kTfLiteOther [1, 50, 9]).type ≠ TfLiteType.kTfLiteFloat32 ∧
    (shapedTensor TfLiteType.kTfLiteOther [1, 50, 9]).type ≠ TfLiteType.kTfLiteInt8 ∧
    (begin 2000 3 3 TfLiteStatus.kTfLiteOk (shapedTensor TfLiteType.kTfLiteOther [1, 50, 9])
      (shapedTensor TfLiteType.kTfLiteOther [1, 5]) freshObject).1 = true := by
  refine ⟨by decide, by decide, ?_⟩
  unfold begin
  simp [shapedTensor, kSequenceLength, kFeatureDim, kNumClasses]

/-- C18 (as amended).  In model mode (`model_data_len ≥ 1000`) `begin` returns `false`, and
leaves the object as it was, whenever the input rank is not 3, input `dims[1]` is not 50,
input `dims[2]` is not 9, the output rank is not 2 or output `dims[1]` is not 5.  The
element types are not examined: when the schema version matches, allocation succeeds and
the shapes are the expected ones, `begin` returns `true` and clears the buffer whatever the
element types of the two tensors are. -/
theorem begin_shape_check (len : Nat) (hlen : 1000 ≤ len) (model_version schema_version : Nat)
    (allocate_status : TfLiteStatus) (input output : TfLiteTensor)
    (s : TensorFlowLiteInference) :
    ((input.dims.size ≠ 3 ∨ input.dims.data.getD 1 0 ≠ 50 ∨ input.dims.data.getD 2 0 ≠ 9 ∨
        output.dims.size ≠ 2 ∨ output.dims.data.getD 1 0 ≠ 5) →
      begin len model_version schema_version allocate_status input output s = (false, s)) ∧
    (model_version = schema_version → allocate_status = TfLiteStatus.kTfLiteOk →
      input.dims.size = 3 → input.dims.data.getD 1 0 = 50 → input.dims.data.getD 2 0 = 9 →
      output.dims.size = 2 → output.dims.data.getD 1 0 = 5 →
      ∀ tin tout : TfLiteType,
        begin len model_version schema_version allocate_status { input with type := tin }
          { output with type := tout } s = (true, clearBuffer s)) := by
  have hl : ¬ len < 1000 := not_lt.mpr hlen
  constructor
  · intro h
    unfold begin
    simp only [hl, if_false, kSequenceLength, kFeatureDim, kNumClasses, Nat.cast_ofNat]
    by_cases hv : model_version ≠ schema_version
    · rw [if_pos hv]
    · rw [if_neg hv]
      by_cases ha : allocate_status ≠ TfLiteStatus.kTfLiteOk
      · rw [if_pos ha]
      · rw [if_neg ha]
        by_cases hi : input.dims.size ≠ 3 ∨ input.dims.data.getD 1 0 ≠ 50 ∨
            input.dims.data.getD 2 0 ≠ 9
        · rw [if_pos hi]
        · rw [if_neg hi]
          have ho : output.dims.size ≠ 2 ∨ output.dims.data.getD 1 0 ≠ 5 := by
            rcases h with h | h | h | h | h
            · exact absurd (Or.inl h) hi
            · exact absurd (Or.inr (Or.inl h)) hi
            · exact absurd (Or.inr (Or.inr h)) hi
            · exact Or.inl h
            · exact Or.inr h
          rw [if_pos ho]
  · intro hv ha h1 h2 h3 h4 h5 tin tout
    unfold begin
    simp only [hl, if_false, kSequenceLength, kFeatureDim, kNumClasses, Nat.cast_ofNat, hv, ha,
      h1, h2, h3, h4, h5, ne_eq, not_true_eq_false, or_self]

/-- Witness of C18 as amended: a model blob of 2000 bytes; an input tensor of shape
`[1, 50, 8]` is rejected, and the expected shapes are accepted with an unsupported type. -/
theorem begin_shape_check_witness :
    1000 ≤ 2000 ∧
    begin 2000 3 3 TfLiteStatus.kTfLiteOk (shapedTensor TfLiteType.kTfLiteFloat32 [1, 50, 8])
      (shapedTensor TfLiteType.kTfLiteFloat32 [1, 5]) freshObject = (false, freshObject) ∧
    begin 2000 3 3 TfLiteStatus.kTfLiteOk (shapedTensor TfLiteType.kTfLiteOther [1, 50, 9])
      (shapedTensor TfLiteType.kTfLiteOther [1, 5]) freshObject =
      (true, clearBuffer freshObject) := by
  refine ⟨by decide, ?_, ?_⟩
  · exact (begin_shape_check 2000 (by decide) 3 3 TfLiteStatus.kTfLiteOk
      (shapedTensor TfLiteType.kTfLiteFloat32 [1, 50, 8])
      (shapedTensor TfLiteType.kTfLiteFloat32 [1, 5]) freshObject).1
      (Or.inr (Or.inr (Or.inl (by decide))))
  · exact (begin_shape_check 2000 (by decide) 3 3 TfLiteStatus.kTfLiteOk
      (shapedTensor TfLiteType.kTfLiteFloat32 [1, 50, 9])
      (shapedTensor TfLiteType.kTfLiteFloat32 [1, 5]) freshObject).2 rfl rfl
      (by decide) (by decide) (by decide) (by decide) (by decide)
      TfLiteType.kTfLiteOther TfLiteType.kTfLiteOther

/-- C19.  From a constructed object with its 450-entry buffer, after any sequence of
`addDataPoint` and `clearBuffer` calls the fill level is at most 49 (so never above 50) and
the buffer still has 450 entries; hence in a following `addDataPoint` each of the nine
stores is at an index below 450, and each read of the shift loop is at an index below
450. -/
theorem window_calls_in_bounds (input_buffer0 predictions0 : List ℚ)
    (h0 : input_buffer0.length = 450) (calls : List WindowCall) :
    getBufferFillLevel (calls.foldl WindowCall.run
      (TensorFlowLiteInference.new input_buffer0 predictions0)) ≤ 50 ∧
    (calls.foldl WindowCall.run
      (TensorFlowLiteInference.new input_buffer0 predictions0)).buffer_index ≤ 49 ∧
    (calls.foldl WindowCall.run
      (TensorFlowLiteInference.new input_buffer0 predictions0)).input_buffer.length = 450 ∧
    (∀ i, i < kFeatureDim →
      (calls.foldl WindowCall.run
        (TensorFlowLiteInference.new input_buffer0 predictions0)).buffer_index * kFeatureDim + i <
        (calls.foldl WindowCall.run
          (TensorFlowLiteInference.new input_buffer0 predictions0)).input_buffer.length) ∧
    (∀ i, i < (kSequenceLength - 1) * kFeatureDim →
      i + kFeatureDim < (calls.foldl WindowCall.run
        (TensorFlowLiteInference.new input_buffer0 predictions0)).input_buffer.length) := by
  have inv : (calls.foldl WindowCall.run
        (TensorFlowLiteInference.new input_buffer0 predictions0)).buffer_index ≤ 49 ∧
      (calls.foldl WindowCall.run
        (TensorFlowLiteInference.new input_buffer0 predictions0)).input_buffer.length = 450 := by
    refine foldl_preserves
      (fun (st : TensorFlowLiteInference) => st.buffer_index ≤ 49 ∧ st.input_buffer.length = 450)
      _ _ ?_ _ ⟨Nat.zero_le _, h0⟩
    intro st call _ hP
    cases call with
    | addDataPoint x =>
      obtain ⟨g1, -, -, -, -, g6⟩ := addDataPoint_fields st x
      refine ⟨?_, ?_⟩
      · show (addDataPoint st x).buffer_index ≤ 49
        rw [g1]
        split_ifs <;> omega
      · show (addDataPoint st x).input_buffer.length = 450
        rw [g6]
        exact hP.2
    | clearBuffer =>
      obtain ⟨g1, -, -, -, -, g6⟩ := clearBuffer_fields st
      refine ⟨?_, ?_⟩
      · show (clearBuffer st).buffer_index ≤ 49
        rw [g1]
        exact Nat.zero_le _
      · show (clearBuffer st).input_buffer.length = 450
        rw [g6]
        exact hP.2
  obtain ⟨h1, h2⟩ := inv
  refine ⟨?_, h1, h2, ?_, ?_⟩
  · unfold getBufferFillLevel
    omega
  · intro i hi
    rw [h2]
    simp only [kFeatureDim] at hi ⊢
    omega
  · intro i hi
    rw [h2]
    simp only [kFeatureDim, kSequenceLength] at hi ⊢
    omega

/-- Witness of C19: a fresh object after fifty pushes, a clear and one more push. -/
theorem window_calls_in_bounds_witness :
    (List.replicate 450 (0 : ℚ)).length = 450 ∧
    getBufferFillLevel (((rampSamples.map WindowCall.addDataPoint) ++
      [WindowCall.clearBuffer, WindowCall.addDataPoint (List.replicate 9 1)]).foldl
      WindowCall.run (TensorFlowLiteInference.new (List.replicate 450 0)
        (List.replicate 5 0))) ≤ 50 :=
  ⟨List.length_replicate _ _,
    (window_calls_in_bounds (List.replicate 450 0) (List.replicate 5 0)
      (List.length_replicate _ _)
      ((rampSamples.map WindowCall.addDataPoint) ++
        [WindowCall.clearBuffer, WindowCall.addDataPoint (List.replicate 9 1)])).1⟩

/-- C20 (the code departs from the claim).  With the parameters of the header, on the
finite feature vector `hugeJitterShimmerFeatures` the binary32 normalisation overflows to
`+inf` at entry 2 and to `-inf` at entry 3, the score runs into `inf - inf` and is NaN;
with a library `exp` that maps NaN to NaN, `analyzeSpeechArray` returns probability NaN,
for which neither `0 <= p` nor `p <= 1` holds, class `0`, confidence NaN, for which neither
`0.5 <= confidence` nor `confidence <= 1` holds, and `is_valid = true`. -/
theorem analyzeSpeechArray_nan_header_parameters (mathType : FloatFormat)
    (exp : FloatVal → FloatVal) (hexp : exp FloatVal.nan = FloatVal.nan) :
    (∀ i, i < 8 → (hugeJitterShimmerFeatures.getD i (.fin 0)).isFinite = true) ∧
    Machine.normalizeSpeechFeatures Machine.generatedSpeechModel hugeJitterShimmerFeatures =
      [.fin (-11165717 / 2097152), .fin (-7268185 / 4194304), .inf false, .inf true,
       .fin (-8849531 / 2097152), .fin (-5814097 / 4194304), .fin (-8763273 / 8388608),
       .fin (-14415687 / 16777216)] ∧
    FloatVal.add binary32 (.inf false) (.inf true) = .nan ∧
    Machine.speechScore Machine.generatedSpeechModel hugeJitterShimmerFeatures = .nan ∧
    (Machine.analyzeSpeechArray Machine.generatedSpeechModel mathType exp
      hugeJitterShimmerFeatures).probability = .nan ∧
    FloatVal.le (floatLit 0.0) (Machine.analyzeSpeechArray Machine.generatedSpeechModel
      mathType exp hugeJitterShimmerFeatures).probability = false ∧
    FloatVal.le (Machine.analyzeSpeechArray Machine.generatedSpeechModel mathType exp
      hugeJitterShimmerFeatures).probability (floatLit 1.0) = false ∧
    (Machine.analyzeSpeechArray Machine.generatedSpeechModel mathType exp
      hugeJitterShimmerFeatures).predicted_class = 0 ∧
    (Machine.analyzeSpeechArray Machine.generatedSpeechModel mathType exp
      hugeJitterShimmerFeatures).confidence = .nan ∧
    FloatVal.le (floatLit 0.5) (Machine.analyzeSpeechArray Machine.generatedSpeechModel
      mathType exp hugeJitterShimmerFeatures).confidence = false ∧
    FloatVal.le (Machine.analyzeSpeechArray Machine.generatedSpeechModel mathType exp
      hugeJitterShimmerFeatures).confidence (floatLit 1.0) = false ∧
    (Machine.analyzeSpeechArray Machine.generatedSpeechModel mathType exp
      hugeJitterShimmerFeatures).is_valid = true := by
  have hz : Machine.speechScore Machine.generatedSpeechModel hugeJitterShimmerFeatures =
      .nan := by
    decide!
  obtain ⟨hp, hc, hconf, hv⟩ := binary32_analyzeSpeechArray_of_nan_score
    Machine.generatedSpeechModel mathType exp hexp hugeJitterShimmerFeatures hz
  refine ⟨by decide!, by decide!, by decide!, hz, hp, ?_, ?_, hc, hconf, ?_, ?_, hv⟩
  · rw [hp]; decide!
  · rw [hp]; decide!
  · rw [hconf]; decide!
  · rw [hconf]; decide!

/-- Witness of C20: the `float` type for the result of `exp`, and the identity in the place
of `exp`, which maps NaN to NaN. -/
theorem analyzeSpeechArray_nan_header_parameters_witness :
    (fun (x : FloatVal) => x) FloatVal.nan = FloatVal.nan ∧
    (Machine.analyzeSpeechArray Machine.generatedSpeechModel binary32 (fun x => x)
      hugeJitterShimmerFeatures).probability = .nan ∧
    (Machine.analyzeSpeechArray Machine.generatedSpeechModel binary32 (fun x => x)
      hugeJitterShimmerFeatures).confidence = .nan := by
  have h := analyzeSpeechArray_nan_header_parameters binary32 (fun x => x) rfl
  exact ⟨rfl, h.2.2.2.2.1, h.2.2.2.2.2.2.2.2.1⟩

section JitterAndNoiseClaims

open ArduinoSpeechFeatureExtractor

/-- C21.  For every buffer content `extractF0Mean` returns a value in `[75, 500]`: the
default `150`, or `16000 / p` for a visited lag `p` in `32..212`.  Hence the guard
`f0 < 50 || f0 > 500` of `extractJitter` is never taken, the period `(int)(16000 / f0)` is
at least `32` (and at most `212`), and the outer loop of `extractJitter`, which advances by
that period, exits: with at least 31 iterations allowed `extractJitter` returns the value
computed from the loop result. -/
theorem extractJitter_guard_unreachable {α : Type} [LinearOrderedField α] [FloorRing α]
    (s : ArduinoSpeechFeatureExtractor α) (fuel : Nat) (hf : 31 ≤ fuel) :
    75 ≤ extractF0Mean s ∧ extractF0Mean s ≤ 500 ∧
    (extractF0Mean s = 150 ∨
      ∃ p : Nat, 32 ≤ p ∧ p < 213 ∧ extractF0Mean s = 16000 / (p : α)) ∧
    ¬ (extractF0Mean s < 50 ∨ extractF0Mean s > 500) ∧
    32 ≤ (toInt ((AUDIO_SAMPLE_RATE : α) / extractF0Mean s)).toNat ∧
    (toInt ((AUDIO_SAMPLE_RATE : α) / extractF0Mean s)).toNat ≤ 212 ∧
    ∃ r : α × Nat,
      jitterLoop s.audio_buffer (toInt ((AUDIO_SAMPLE_RATE : α) / extractF0Mean s)).toNat fuel
        (toInt ((AUDIO_SAMPLE_RATE : α) / extractF0Mean s)).toNat (0, 0) = some r ∧
      extractJitter fuel s = some (if r.2 > 0 then r.1 / (r.2 : α) else 0.01) := by
  obtain ⟨h75, h500⟩ := extractF0Mean_range s
  obtain ⟨hp32, hp212⟩ := jitter_period_range s
  have hg : ¬ (extractF0Mean s < 50 ∨ extractF0Mean s > 500) := by
    intro h
    rcases h with h | h
    · linarith
    · exact absurd h (not_lt.mpr h500)
  refine ⟨h75, h500, extractF0Mean_cases s, hg, hp32, hp212, ?_⟩
  obtain ⟨f', rfl⟩ : ∃ f', fuel = f' + 1 := ⟨fuel - 1, by omega⟩
  obtain ⟨r, hr⟩ := jitterLoop_terminates s.audio_buffer
    (toInt ((AUDIO_SAMPLE_RATE : α) / extractF0Mean s)).toNat f'
    (toInt ((AUDIO_SAMPLE_RATE : α) / extractF0Mean s)).toNat (0, 0) (by
      have h1 : (30 : Int) ≤ (f' : Int) := by omega
      have h2 : (32 : Int) ≤
          ((toInt ((AUDIO_SAMPLE_RATE : α) / extractF0Mean s)).toNat : Int) := by
        exact_mod_cast hp32
      nlinarith)
  refine ⟨r, hr, ?_⟩
  unfold extractJitter
  simp only [if_neg hg, hr]

/-- Witness of C21: the pulse buffer with 31 iterations allowed. -/
theorem extractJitter_guard_unreachable_witness :
    31 ≤ 31 ∧ 75 ≤ extractF0Mean pulseExtractor ∧ extractF0Mean pulseExtractor ≤ 500 ∧
    32 ≤ (toInt ((AUDIO_SAMPLE_RATE : ℚ) / extractF0Mean pulseExtractor)).toNat ∧
    ∃ v : ℚ, extractJitter 31 pulseExtractor = some v := by
  obtain ⟨h1, h2, -, -, h5, -, r, -, hr⟩ :=
    extractJitter_guard_unreachable pulseExtractor 31 (le_refl _)
  exact ⟨le_refl _, h1, h2, h5, _, hr⟩

/-- C22 (the code departs from the claim).  On `underflowExtractor`, whose 1024 samples are
finite and non-zero, the binary32 squares of the samples underflow, so the computed signal
power is exactly `0`, while the squared first differences round up to the smallest
subnormal number and the computed noise power is `2 ^ (-149) > 0`.  The guard
`noise_power > 0.0f` holds, the branch `10.0f * log10(signal_power / noise_power)` is
taken, and the argument of `log10` is `0`: not strictly positive.  With a library `log10`
that maps `0` to `-inf` the value returned is `-inf`, not the default `15`. -/
theorem extractHNR_underflow_zero_argument (mathType : FloatFormat)
    (log10 : FloatVal → FloatVal) :
    (∀ i, i < 1024 → (underflowExtractor.audio_buffer.getD i (.fin 0)).isFinite = true ∧
      underflowExtractor.audio_buffer.getD i (.fin 0) ≠ .fin 0) ∧
    Machine.hnrSignalPower underflowExtractor = .fin 0 ∧
    Machine.hnrNoisePower underflowExtractor = .fin (pow2 (-149)) ∧
    FloatVal.lt (floatLit 0.0) (Machine.hnrNoisePower underflowExtractor) = true ∧
    FloatVal.div binary32 (Machine.hnrSignalPower underflowExtractor)
      (Machine.hnrNoisePower underflowExtractor) = .fin 0 ∧
    Machine.extractHNR mathType log10 underflowExtractor =
      FloatVal.round binary32 (FloatVal.mul mathType (floatLit 10.0) (log10 (.fin 0))) ∧
    (log10 (.fin 0) = .inf true →
      Machine.extractHNR mathType log10 underflowExtractor = .inf true) := by
  have hs := underflow_signal_power
  have hn := underflow_noise_power
  have hlt : FloatVal.lt (floatLit 0.0) (FloatVal.fin (pow2 (-149))) = true := by decide!
  have hdiv : FloatVal.div binary32 (.fin 0) (.fin (pow2 (-149))) = .fin 0 := by decide!
  have hten : floatLit 10.0 = .fin 10 := by decide!
  have hval : Machine.extractHNR mathType log10 underflowExtractor =
      FloatVal.round binary32 (FloatVal.mul mathType (floatLit 10.0) (log10 (.fin 0))) := by
    rw [binary32_extractHNR_eq, hs, hn, hlt, hdiv]
    rfl
  refine ⟨?_, hs, hn, ?_, ?_, hval, ?_⟩
  · intro i hi
    rw [underflowExtractor_getD i hi]
    have ha : (5 / 4 * pow2 (-76) : ℚ) ≠ 0 := by decide!
    split_ifs
    · refine ⟨rfl, ?_⟩
      intro h
      exact ha (FloatVal.fin.inj h)
    · refine ⟨rfl, ?_⟩
      intro h
      exact ha (neg_eq_zero.mp (FloatVal.fin.inj h))
  · rw [hn]; exact hlt
  · rw [hs, hn]; exact hdiv
  · intro hlog
    rw [hval, hlog, hten]
    simp [FloatVal.mul, FloatVal.round]

end JitterAndNoiseClaims

end ParkinsonDevice
